import Mathlib

/-! # Verification of the transaction-input signing engine (package txscript, sign.go)

Shallow embedding of `RawTxInSignature`, `SignatureScript`, `extractMSscript`,
`signMultiSig`, `sign` and `SignTxOutput`.

Conventions of the embedding:

* a Go `[]byte` is a `List Nat` (every element of a real script is below 256); a slice
  value that the code compares with `nil` is an `Option Bytes`, `none` being `nil`;
* `byte(x)` is `x % 256`;
* a Go call either returns, panics at run time (index or slice bounds out of range) or
  never returns: `Outcome.ok`, `Outcome.crash`, `Outcome.diverge`.  Loops and recursion
  that the source does not bound take a fuel argument and yield `diverge` when it runs out;
* slices are taken with capacity equal to length, so `s[a:b]` panics as soon as `b > len(s)`;
* collaborators that live outside sign.go (opcode constants, chain parameters, digest,
  elliptic-curve primitives, address constructors, the classifier, the key and script
  resolvers) are the fields of `Env`.
-/

namespace Txscript

abbrev Bytes := List Nat

/-- Result of running a piece of Go code. -/
inductive Outcome (α : Type) where
  | ok (a : α)
  | crash
  | diverge
deriving DecidableEq, Repr

/-- Sequencing of Go statements: a panic or a non-returning call ends the run. -/
def Outcome.bind {α β : Type} : Outcome α → (α → Outcome β) → Outcome β
  | .ok a, f => f a
  | .crash, _ => .crash
  | .diverge, _ => .diverge

instance : Monad Outcome where
  pure := Outcome.ok
  bind := Outcome.bind

/-- Go index expression `s[i]`. -/
def idx (s : Bytes) (i : Nat) : Outcome Nat :=
  match s[i]? with
  | some b => .ok b
  | none => .crash

/-- Go slice expression `s[a:b]`. -/
def slice (s : Bytes) (a b : Nat) : Outcome Bytes :=
  if a ≤ b ∧ b ≤ s.length then .ok ((s.take b).drop a) else .crash

/-- Go slice expression `s[a:]`. -/
def sliceFrom (s : Bytes) (a : Nat) : Outcome Bytes :=
  if a ≤ s.length then .ok (s.drop a) else .crash

/-- Go slice expression `s[:b]`. -/
def sliceTo (s : Bytes) (b : Nat) : Outcome Bytes :=
  if b ≤ s.length then .ok (s.take b) else .crash

/-- The value `common.LittleEndian.Uint16(b)` of a two-byte slice. -/
def uint16LE (b : Bytes) : Nat :=
  b.getD 0 0 + 256 * b.getD 1 0

/-- Address values of package btcutil, kept abstract. -/
abbrev Address := Bytes

/-- A `btcec.PrivateKey`, kept abstract. -/
abbrev PrivateKey := Nat

/-- A `btcec.Signature`, kept abstract. -/
abbrev Signature := Bytes

/-- Go `error` values that reach the callers of this package.
* `external`: an error value made by a collaborator;
* `multiSigNotSupported`: "Internal error: SignatureScript does not support multi signature yet";
* `noSignatureRequired`: "Internal error: call SignatureScript while pkScript does not require signature";
* `cannotSignInput e`: `fmt.Errorf("cannot sign tx input: %s", e)`;
* `nullData`: the NULLDATA error of `sign`;
* `unknownTx`: the unknown-transactions error of `sign`. -/
inductive Error where
  | external (code : Nat)
  | multiSigNotSupported
  | noSignatureRequired
  | cannotSignInput (cause : Error)
  | nullData
  | unknownTx
deriving DecidableEq, Repr

/-- The classes of `txsparser.ScriptClass` that sign.go tells apart; every other class is
`OtherTy`. -/
inductive ScriptClass where
  | PubKeyHashTy
  | ScriptHashTy
  | MultiSigTy
  | NullDataTy
  | OtherTy (code : Nat)
deriving DecidableEq, Repr

/-- Everything sign.go reads from other packages, for a fixed transaction `tx`, input index
`idx` and `chainParams`. -/
structure Env where
  /-- Opcode `ovm.PUSH`. -/
  PUSH : Nat
  /-- Opcode `ovm.SIGNTEXT`. -/
  SIGNTEXT : Nat
  /-- Lock discriminator `ovm.OP_PAY2PKH`. -/
  OP_PAY2PKH : Nat
  /-- Lock discriminator `ovm.OP_PAYMULTISIG`. -/
  OP_PAYMULTISIG : Nat
  /-- Field `chainParams.PubKeyHashAddrID`. -/
  PubKeyHashAddrID : Nat
  /-- Field `chainParams.MultiSigAddrID`. -/
  MultiSigAddrID : Nat
  /-- Field `chainParams.ScriptHashAddrID`. -/
  ScriptHashAddrID : Nat
  /-- Digest `ovm.CalcSignatureHash(tx, idx, subScript, 0, chainParams)`. -/
  CalcSignatureHash : Bytes → Except Error Bytes
  /-- Method `key.Sign(hash)`. -/
  Sign : PrivateKey → Bytes → Except Error Signature
  /-- Method `signature.Serialize()`; `none` is a nil slice. -/
  Serialize : Signature → Option Bytes
  /-- Compressed serialization of the public key of a private key. -/
  SerializeCompressed : PrivateKey → Bytes
  /-- Uncompressed serialization of the public key of a private key. -/
  SerializeUncompressed : PrivateKey → Bytes
  /-- Function `btcutil.Hash160`. -/
  Hash160 : Bytes → Bytes
  /-- Function `btcutil.NewAddressPubKeyHash`; its error is dropped by the caller. -/
  NewAddressPubKeyHash : Bytes → Address
  /-- Function `btcutil.NewAddressMultiSig`; `none` is a nil address. -/
  NewAddressMultiSig : Bytes → Option Address
  /-- Function `btcutil.NewAddressScriptHash`. -/
  NewAddressScriptHash : Bytes → Except Error Address
  /-- Classifier `ExtractPkScriptAddrs(script, chainParams)`. -/
  ExtractPkScriptAddrs : Bytes → ScriptClass × List Address × Nat × Option Error
  /-- Key resolver `kdb.GetKey`. -/
  GetKey : Address → Option PrivateKey × Bool × Option Error
  /-- Script resolver `sdb.GetScript`. -/
  GetScript : Address → Option Bytes × Option Error

/-- Modelled from the spec: the script builder of package ovm is not part of sign.go.  The
spec fixes the token grammar `Push := PUSH len data`, `SignText := SIGNTEXT hashType`, and
sign.go copies a token through verbatim by `AddOp(PUSH, [len]).AddBytes(data)` and
`AddOp(SIGNTEXT, [hashType])`; so the builder is a byte buffer, and `AddOp` appends the
opcode byte followed by its parameter bytes. -/
abbrev ScriptBuilder := Bytes

/-- Modelled from the spec: `ovm.NewScriptBuilder()`, an empty buffer. -/
def NewScriptBuilder : ScriptBuilder := []

/-- Modelled from the spec: `b.AddOp(op, param)` appends the opcode and its parameter bytes. -/
def AddOp (b : ScriptBuilder) (op : Nat) (param : Bytes) : ScriptBuilder :=
  b ++ op :: param

/-- Modelled from the spec: `b.AddByte(x)` appends one byte. -/
def AddByte (b : ScriptBuilder) (x : Nat) : ScriptBuilder :=
  b ++ [x]

/-- Modelled from the spec: `b.AddBytes(xs)` appends the bytes. -/
def AddBytes (b : ScriptBuilder) (xs : Bytes) : ScriptBuilder :=
  b ++ xs

/-- Modelled from the spec: `b.Script()` returns the buffer. -/
def Script (b : ScriptBuilder) : Bytes := b

/-- Content of a possibly nil Go slice. -/
def bytesOf (s : Option Bytes) : Bytes := s.getD []

/-- Go function `RawTxInSignature(tx, idx, subScript, key, chainParams)`. -/
def RawTxInSignature (env : Env) (subScript : Bytes) (key : PrivateKey) :
    Option Bytes × Option Error :=
  match env.CalcSignatureHash subScript with
  | .error err => (none, some err)
  | .ok hash =>
    match env.Sign key hash with
    | .error err => (none, some (Error.cannotSignInput err))
    | .ok signature => (env.Serialize signature, none)

/-- Go function `SignatureScript(tx, idx, subscript, privKey, compress, chainParams, hashType)`. -/
def SignatureScript (env : Env) (subscript : Bytes) (privKey : PrivateKey) (compress : Bool)
    (hashType : Nat) : Outcome (Option Bytes × Option Error) := do
  let script := NewScriptBuilder
  let d ← idx subscript 21
  if d = env.OP_PAY2PKH then
    let payscript := [env.SIGNTEXT, hashType % 256]
    match RawTxInSignature env payscript privKey with
    | (_, some err) => pure (none, some err)
    | (sig, none) =>
      let pkData :=
        if compress then env.SerializeCompressed privKey else env.SerializeUncompressed privKey
      let script := AddBytes (AddByte (AddOp script env.PUSH [0]) (pkData.length % 256)) pkData
      let script :=
        AddBytes (AddByte (AddOp script env.PUSH [0]) ((bytesOf sig).length % 256)) (bytesOf sig)
      let script := AddOp script env.SIGNTEXT [hashType % 256]
      pure (some (Script script), none)
  else if d = env.OP_PAYMULTISIG then
    pure (some [], some Error.multiSigNotSupported)
  else
    pure (some [], some Error.noSignatureRequired)

/-- The loop `for subScript[i] == byte(ovm.PUSH) { ... }` of `signMultiSig` and
`extractMSscript`: copies consecutive Push tokens and returns the offset after them. -/
def copyPushes (env : Env) (subScript : Bytes) :
    Nat → Nat → ScriptBuilder → Outcome (Nat × ScriptBuilder)
  | 0, _, _ => .diverge
  | fuel + 1, i, builder => do
    let op ← idx subScript i
    if op = env.PUSH then
      let pushed ← idx subScript (i + 1)
      let data ← slice subScript (i + 2) (i + 2 + pushed)
      copyPushes env subScript fuel (i + 2 + pushed)
        (AddBytes (AddOp builder env.PUSH [pushed]) data)
    else
      pure (i, builder)

/-- The merge loop `for j := 0; j < len(sig); { ... }` of `signMultiSig` and
`extractMSscript`: the opcode is read from `sig`, the token bytes from `subScript`.  When
`sig[j]` is neither opcode the Go loop repeats with the same state for ever. -/
def mergeLoop (env : Env) (sig subScript : Bytes) :
    Nat → Nat → ScriptBuilder → Outcome ScriptBuilder
  | 0, _, _ => .diverge
  | fuel + 1, j, builder =>
    if j < sig.length then do
      let op ← idx sig j
      if op = env.PUSH then
        let pushed ← idx subScript (j + 1)
        let data ← slice subScript (j + 2) (j + 2 + pushed)
        mergeLoop env sig subScript fuel (j + 2 + pushed)
          (AddBytes (AddOp builder env.PUSH [pushed]) data)
      else if op = env.SIGNTEXT then
        let x ← idx subScript (j + 1)
        mergeLoop env sig subScript fuel (j + 2) (AddOp builder env.SIGNTEXT [x])
      else
        .diverge
    else
      pure builder

/-- The main loop of `extractMSscript`; `extract` is the recursive call. -/
def extractLoop (env : Env) (extract : Bytes → Outcome Bytes) (subScript : Bytes) :
    Nat → Nat → Nat → ScriptBuilder → Outcome Bytes
  | 0, _, _, _ => .diverge
  | fuel + 1, i, nsigs, builder =>
    if i < subScript.length ∧ nsigs > 0 then do
      let op ← idx subScript i
      if op = env.PUSH then
        let pushed ← idx subScript (i + 1)
        let isData ←
          (if pushed ≠ 25 then pure true
           else do
             let v ← idx subScript (i + 2)
             pure (decide (v ≠ env.MultiSigAddrID)))
        if isData then
          let (i, builder) ← copyPushes env subScript (subScript.length + 1) i builder
          extractLoop env extract subScript fuel i nsigs builder
        else
          let data ← slice subScript (i + 2) (i + 2 + pushed)
          let builder := AddBytes (AddOp builder env.PUSH [pushed]) data
          let i := i + 2 + pushed
          let nx ← idx subScript i
          if nx = env.SIGNTEXT then
            extractLoop env extract subScript fuel i nsigs builder
          else
            let rest ← sliceFrom subScript i
            let script ← extract rest
            let i := i + script.length
            let builder ← mergeLoop env script subScript (script.length + 1) 0 builder
            extractLoop env extract subScript fuel i nsigs builder
      else if op = env.SIGNTEXT then
        let x ← idx subScript (i + 1)
        extractLoop env extract subScript fuel (i + 2) (nsigs - 1)
          (AddOp builder env.SIGNTEXT [x])
      else
        .diverge
    else
      pure (Script builder)

/-- Go function `extractMSscript(subScript, chainParams)`. -/
def extractMSscript (env : Env) : Nat → Bytes → Outcome Bytes
  | 0, _ => .diverge
  | fuel + 1, subScript => do
    let head ← sliceTo subScript 8
    let builder := AddBytes NewScriptBuilder head
    let m ← slice subScript 2 4
    let nsigs := uint16LE m
    extractLoop env (fun s => extractMSscript env fuel s) subScript fuel 8 nsigs builder

/-- The three results `(script, nRequired, fulfilled)` of `signMultiSig`. -/
structure MSResult where
  script : Option Bytes
  nRequired : Nat
  fulfilled : Bool
deriving DecidableEq, Repr

/-- Loop variables of `signMultiSig`: scan offset, output builder, signed-slot counter. -/
structure MSState where
  i : Nat
  builder : ScriptBuilder
  signed : Nat
deriving DecidableEq, Repr

/-- What one iteration of the scan loop of `signMultiSig` does: go on with new loop
variables, or leave the function through `return nil, 0, false`. -/
inductive Step where
  | next (st : MSState)
  | malformed
deriving DecidableEq, Repr

/-- The chunking loop `for k != 0 { ... }` of `signMultiSig` (nested script-hash slot). -/
def pushChunks (env : Env) : Nat → Bytes → ScriptBuilder → Outcome ScriptBuilder
  | 0, _, _ => .diverge
  | fuel + 1, script, builder =>
    let k := script.length
    if k = 0 then pure builder
    else if k ≤ 255 then
      pure (AddBytes (AddOp builder env.PUSH [k % 256]) script)
    else
      pushChunks env fuel (script.drop 255)
        (AddBytes (AddOp builder env.PUSH [255]) (script.take 255))

/-- Bytes written by `signMultiSig` for a pubkey-hash slot it signs: the public key
(compressed when its Hash160 is the slot's hash), the signature, the SignText token. -/
def signedSlot (env : Env) (hashType : Nat) (pkscript : Bytes) (key : PrivateKey)
    (sig : Bytes) (builder : ScriptBuilder) : ScriptBuilder :=
  let pkData := env.SerializeCompressed key
  let hk := env.Hash160 pkData
  let pkData := if pkscript ≠ hk then env.SerializeUncompressed key else pkData
  let builder := AddBytes (AddByte (AddOp builder env.PUSH [0]) (pkData.length % 256)) pkData
  let builder := AddBytes (AddByte (AddOp builder env.PUSH [0]) (sig.length % 256)) sig
  AddOp builder env.SIGNTEXT [hashType % 256]

/-- One iteration of the scan loop of `signMultiSig` (the body of
`for i := 8; i < len(subScript); { ... }`); `recurse` is the recursive call of
`signMultiSig`.  The statements `if signed >= nRequired { break }` stand inside the
`switch subScript[i+2]` statement, which is all a Go `break` leaves: the loop goes on. -/
def msBody (env : Env) (recurse : Bytes → Outcome MSResult) (subScript : Bytes)
    (hashType : Nat) (st : MSState) : Outcome Step := do
  let payscript := [env.SIGNTEXT, hashType % 256]
  let i := st.i
  let builder := st.builder
  let signed := st.signed
  let op ← idx subScript i
  if op = env.PUSH then
    let pushed ← idx subScript (i + 1)
    let isData ←
      (if pushed ≠ 21 then pure true
       else do
         let v ← idx subScript (i + 2)
         pure (decide (v ≠ env.PubKeyHashAddrID ∧ v ≠ env.MultiSigAddrID ∧
           v ≠ env.ScriptHashAddrID)))
    if isData then
      let (i, builder) ← copyPushes env subScript (subScript.length + 1) i builder
      pure (Step.next ⟨i, builder, signed + 1⟩)
    else
      let v ← idx subScript (i + 2)
      if v = env.PubKeyHashAddrID then
        let pkscript ← slice subScript (i + 3) (i + 23)
        let kadr := env.NewAddressPubKeyHash pkscript
        match env.GetKey kadr with
        | (some key, _, none) =>
          match RawTxInSignature env payscript key with
          | (some sig, none) =>
            let builder := signedSlot env hashType pkscript key sig builder
            let signed := signed + 1
            let i := i + 23
            let nx ← idx subScript i
            let i := if nx = env.SIGNTEXT then i + 2 else i
            pure (Step.next ⟨i, builder, signed⟩)
          | _ =>
            let data ← slice subScript (i + 2) (i + 2 + pushed)
            pure (Step.next ⟨i + 2 + pushed, AddBytes (AddOp builder env.PUSH [pushed]) data,
              signed⟩)
        | _ =>
          let data ← slice subScript (i + 2) (i + 2 + pushed)
          pure (Step.next ⟨i + 2 + pushed, AddBytes (AddOp builder env.PUSH [pushed]) data,
            signed⟩)
      else if v = env.MultiSigAddrID then
        let data ← slice subScript (i + 2) (i + 2 + pushed)
        let builder := AddBytes (AddOp builder env.PUSH [pushed]) data
        let nx ← idx subScript (i + 23)
        let found ←
          (if nx = env.SIGNTEXT then do
             let h ← slice subScript (i + 3) (i + 23)
             match env.NewAddressMultiSig h with
             | none => pure (2 + pushed, none)
             | some addr => pure (2 + pushed, (env.GetScript addr).1)
           else do
             let rest ← sliceFrom subScript (i + 23)
             let script ← extractMSscript env (subScript.length + 1) rest
             pure (2 + pushed + script.length, some script))
        match found with
        | (i, none) => pure (Step.next ⟨i, builder, signed⟩)
        | (i, some script) =>
          let r ← recurse script
          let sig := bytesOf r.script
          let builder ← mergeLoop env sig subScript (sig.length + 1) 0 builder
          let signed := if r.fulfilled then signed + 1 else signed
          pure (Step.next ⟨i, builder, signed⟩)
      else if v = env.ScriptHashAddrID then
        let nx ← idx subScript (i + 23)
        if nx = env.PUSH then
          let (i, builder) ← copyPushes env subScript (subScript.length + 1) i builder
          pure (Step.next ⟨i, builder, signed⟩)
        else
          let data ← slice subScript (i + 2) (i + 2 + pushed)
          let builder := AddBytes (AddOp builder env.PUSH [pushed]) data
          let h ← slice subScript (i + 3) (i + 23)
          match env.NewAddressScriptHash h with
          | .error _ => pure (Step.next ⟨i, builder, signed⟩)
          | .ok ps =>
            let i := i + 2 + pushed
            match env.GetScript ps with
            | (some script, none) =>
              let builder ← pushChunks env (script.length + 1) script builder
              pure (Step.next ⟨i, builder, signed + 1⟩)
            | _ => pure (Step.next ⟨i, builder, signed⟩)
      else
        pure (Step.next ⟨i, builder, signed⟩)
  else if op = env.SIGNTEXT then
    let x ← idx subScript (i + 1)
    pure (Step.next ⟨i + 2, AddOp builder env.SIGNTEXT [x], signed⟩)
  else
    pure Step.malformed

/-- How the scan loop of `signMultiSig` ends: the offset reached the end of the script
with the given builder and counter, or the `default` case returned. -/
inductive ScanEnd where
  | completed (builder : ScriptBuilder) (signed : Nat)
  | malformed
deriving DecidableEq, Repr

/-- The scan loop `for i := 8; i < len(subScript); { ... }` of `signMultiSig`. -/
def msLoop (env : Env) (recurse : Bytes → Outcome MSResult) (subScript : Bytes)
    (hashType : Nat) : Nat → MSState → Outcome ScanEnd
  | 0, _ => .diverge
  | fuel + 1, st =>
    if st.i < subScript.length then
      match msBody env recurse subScript hashType st with
      | .ok (Step.next st') => msLoop env recurse subScript hashType fuel st'
      | .ok Step.malformed => .ok ScanEnd.malformed
      | .crash => .crash
      | .diverge => .diverge
    else
      .ok (ScanEnd.completed st.builder st.signed)

/-- The return statements of `signMultiSig`. -/
def msFinish (nRequired : Nat) : ScanEnd → MSResult
  | .malformed => ⟨none, 0, false⟩
  | .completed builder signed =>
    if signed = 0 then ⟨none, nRequired, false⟩
    else ⟨some (Script builder), nRequired, decide (signed ≥ nRequired)⟩

/-- The statements of `signMultiSig` before its loop: the header is written to a new
builder and `nRequired` is read; yields the initial loop variables and `nRequired`. -/
def msHeader (env : Env) (subScript : Bytes) : Outcome (MSState × Nat) := do
  let builder := NewScriptBuilder
  let n ← idx subScript 1
  let d ← slice subScript 2 (2 + n)
  let builder := AddBytes (AddOp builder env.PUSH [n]) d
  let t ← idx subScript 7
  let builder := AddOp builder env.SIGNTEXT [t]
  let r ← slice subScript 4 6
  pure (⟨8, builder, 0⟩, uint16LE r)

/-- Go function `signMultiSig(tx, idx, subScript, kdb, sdb, chainParams, hashType)`.  The
fuel bounds the depth of the recursion and the number of iterations of each scan loop. -/
def signMultiSig (env : Env) (hashType : Nat) : Nat → Bytes → Outcome MSResult
  | 0, _ => .diverge
  | fuel + 1, subScript => do
    let (st, nRequired) ← msHeader env subScript
    let e ← msLoop env (fun s => signMultiSig env hashType fuel s) subScript hashType fuel st
    pure (msFinish nRequired e)

/-- The five results `(script, class, addresses, nrequired, err)` of `sign`. -/
structure SignResult where
  script : Option Bytes
  cls : ScriptClass
  addresses : Option (List Address)
  nrequired : Nat
  err : Option Error
deriving DecidableEq, Repr

/-- Go function `sign(chainParams, tx, idx, subScript, kdb, sdb, previousScript, hashType)`. -/
def sign (env : Env) (fuel : Nat) (subScript : Bytes) (previousScript : Bytes)
    (hashType : Nat) : Outcome SignResult :=
  match env.ExtractPkScriptAddrs subScript with
  | (cls, _, _, some err) => pure ⟨none, cls, none, 0, some err⟩
  | (cls, addresses, nrequired, none) =>
    match cls with
    | .PubKeyHashTy => do
      let a ← (match addresses[0]? with | some a => Outcome.ok a | none => Outcome.crash)
      match env.GetKey a with
      | (some key, compressed, none) =>
        match ← SignatureScript env subScript key compressed hashType with
        | (_, some err) => pure ⟨none, cls, none, 0, some err⟩
        | (script, none) => pure ⟨script, cls, some addresses, nrequired, none⟩
      | (_, _, err) => pure ⟨none, cls, none, 0, err⟩
    | .ScriptHashTy => do
      let a ← (match addresses[0]? with | some a => Outcome.ok a | none => Outcome.crash)
      match env.GetScript a with
      | (some script, none) => pure ⟨some script, cls, some addresses, nrequired, none⟩
      | (_, err) => pure ⟨none, cls, none, 0, err⟩
    | .MultiSigTy =>
      if previousScript.length > 0 then do
        let r ← signMultiSig env hashType fuel previousScript
        pure ⟨r.script, cls, some addresses, r.nRequired, none⟩
      else do
        let a ← (match addresses[0]? with | some a => Outcome.ok a | none => Outcome.crash)
        match env.GetScript a with
        | (some script, none) =>
          let r ← signMultiSig env hashType fuel script
          pure ⟨r.script, cls, some addresses, r.nRequired, none⟩
        | (_, err) => pure ⟨none, cls, none, 0, err⟩
    | .NullDataTy => pure ⟨none, cls, none, 0, some Error.nullData⟩
    | .OtherTy _ => pure ⟨none, cls, none, 0, some Error.unknownTx⟩

/-- Go function `SignTxOutput(chainParams, tx, idx, pkScript, hashType, kdb, sdb,
previousScript)`. -/
def SignTxOutput (env : Env) (fuel : Nat) (pkScript : Bytes) (hashType : Nat)
    (previousScript : Bytes) : Outcome (Option Bytes × Option Error) := do
  let r ← sign env fuel pkScript previousScript hashType
  match r.err with
  | some err => pure (none, some err)
  | none =>
    if r.cls = ScriptClass.ScriptHashTy then
      let r2 ← sign env fuel (bytesOf r.script) previousScript hashType
      match r2.err with
      | some err => pure (none, some err)
      | none =>
        match r2.script with
        | some realSigScript =>
          let builder := AddBytes (AddOp NewScriptBuilder env.PUSH [0]) realSigScript
          pure (some (Script builder), none)
        | none => pure (r.script, none)
    else
      pure (r.script, none)

/-! ## Sample collaborators for concrete runs -/

/-- A sample classifier: the discriminator byte at index 21 selects the class and the first
21 bytes are the address. -/
def demoClassify (s : Bytes) : ScriptClass × List Address × Nat × Option Error :=
  match s[21]? with
  | some 65 => (ScriptClass.PubKeyHashTy, [s.take 21], 1, none)
  | some 66 => (ScriptClass.ScriptHashTy, [s.take 21], 1, none)
  | some 67 => (ScriptClass.MultiSigTy, [s.take 21], 1, none)
  | _ => (ScriptClass.OtherTy 0, [], 0, none)

/-- A sample environment.  Key `k` has the 33-byte compressed public key `2, k, ..., k` and
the 65-byte uncompressed one `4, k, ..., k`; `Hash160` of a public key of `k` is twenty
bytes `k`; signing fails for key `0`; the resolvers are the two arguments. -/
def demoEnv (keys : Address → Option PrivateKey × Bool × Option Error)
    (scripts : Address → Option Bytes × Option Error) : Env where
  PUSH := 80
  SIGNTEXT := 81
  OP_PAY2PKH := 65
  OP_PAYMULTISIG := 67
  PubKeyHashAddrID := 0
  MultiSigAddrID := 103
  ScriptHashAddrID := 5
  CalcSignatureHash := fun s => .ok (s ++ List.replicate 30 7)
  Sign := fun key hash => if key = 0 then .error (Error.external 1) else .ok (48 :: key :: hash)
  Serialize := fun sig => some sig
  SerializeCompressed := fun key => 2 :: List.replicate 32 key
  SerializeUncompressed := fun key => 4 :: List.replicate 64 key
  Hash160 := fun bs => List.replicate 20 (bs.getD 1 0)
  NewAddressPubKeyHash := fun h => 0 :: h
  NewAddressMultiSig := fun h => some (103 :: h)
  NewAddressScriptHash := fun h => .ok (5 :: h)
  ExtractPkScriptAddrs := demoClassify
  GetKey := keys
  GetScript := scripts

/-- A resolver that knows nothing. -/
def noScripts : Address → Option Bytes × Option Error := fun _ => (none, none)

/-- A key resolver that returns key `k` (compressed) for the address `0, k, ..., k` when
`k` is in the list, and no key otherwise. -/
def keysOf (ks : List Nat) : Address → Option PrivateKey × Bool × Option Error :=
  fun a => if a.getD 1 0 ∈ ks then (some (a.getD 1 0), true, none) else (none, false, none)

/-- A sample pubkey-hash lock for key `k`: version byte, twenty hash bytes, discriminator
`OP_PAY2PKH` and three more selector bytes. -/
def demoLock (k : Nat) : Bytes := 0 :: List.replicate 20 k ++ [65, 0, 0, 0]

/-! ## Byte layouts named in the statements -/

/-- Bytes that `SignatureScript` returns when signing succeeds: each of the two pushes is
the PUSH opcode, a zero byte, the length byte and the data. -/
def signatureScriptBytes (env : Env) (pk sig : Bytes) (hashType : Nat) : Bytes :=
  [env.PUSH, 0, pk.length % 256] ++ pk ++ [env.PUSH, 0, sig.length % 256] ++ sig ++
    [env.SIGNTEXT, hashType % 256]

/-- Bytes of the token sequence `Push(pk) Push(sig) SignText(hashType)` in the wire grammar
`Push := PUSH len data`, `SignText := SIGNTEXT hashType`. -/
def grammarSignatureScript (env : Env) (pk sig : Bytes) (hashType : Nat) : Bytes :=
  [env.PUSH, pk.length % 256] ++ pk ++ [env.PUSH, sig.length % 256] ++ sig ++
    [env.SIGNTEXT, hashType % 256]

/-- The public-key bytes `SignatureScript` serializes for a key and compression flag. -/
def pubKeyData (env : Env) (privKey : PrivateKey) (compress : Bool) : Bytes :=
  if compress then env.SerializeCompressed privKey else env.SerializeUncompressed privKey


/-- A sample script-hash lock: version byte 5, twenty hash bytes 1, discriminator 66. -/
def demoP2SHLock : Bytes := 5 :: List.replicate 20 1 ++ [66, 0, 0, 0]

/-- A script resolver that knows the redeem script `r` of address `a` only. -/
def scriptsOf (a : Address) (r : Bytes) : Address → Option Bytes × Option Error :=
  fun x => if x = a then (some r, none) else (none, none)

/-- The address of `demoP2SHLock`. -/
def demoP2SHAddr : Address := 5 :: List.replicate 20 1

/-- A sample multisig lock: version byte 103, twenty hash bytes 1, discriminator 67. -/
def demoMSLock : Bytes := 103 :: List.replicate 20 1 ++ [67, 0, 0, 0]

/-- The address of `demoMSLock`. -/
def demoMSAddr : Address := 103 :: List.replicate 20 1


/-! ## Multisig bodies made of pubkey-hash members -/

/-- A pubkey-hash member of a multisig body: the 20-byte hash of its slot and the byte of
the SignText token that follows the slot. -/
structure Member where
  hash : Bytes
  text : Nat
deriving DecidableEq, Repr

/-- The slot of a pubkey-hash member: `Push(21){version, hash}`. -/
def slotBytes (env : Env) (m : Member) : Bytes :=
  env.PUSH :: 21 :: env.PubKeyHashAddrID :: m.hash

/-- A pubkey-hash member on the wire: its slot and the SignText token after it. -/
def memberBytes (env : Env) (m : Member) : Bytes :=
  slotBytes env m ++ [env.SIGNTEXT, m.text]

/-- The members of a body on the wire, in order. -/
def membersBytes (env : Env) : List Member → Bytes
  | [] => []
  | m :: ms => memberBytes env m ++ membersBytes env ms

/-- The multisig header `Push(4){M:u16-LE, N:u16-LE} SignText(textcode)`, with member count
`M` and required threshold `T`. -/
def multisigHeader (env : Env) (M T textcode : Nat) : Bytes :=
  [env.PUSH, 4, M % 256, M / 256, T % 256, T / 256, env.SIGNTEXT, textcode]

/-- A multisig redeem script: header, then pubkey-hash members. -/
def multisigBody (env : Env) (M T textcode : Nat) (ms : List Member) : Bytes :=
  multisigHeader env M T textcode ++ membersBytes env ms

/-- Well-formedness of a multisig redeem script of pubkey-hash members: every hash has 20
bytes, the header counts the members, and the threshold is between 1 and the member count. -/
def WellFormedMS (M T : Nat) (ms : List Member) : Prop :=
  (∀ m ∈ ms, m.hash.length = 20) ∧ M = ms.length ∧ M < 65536 ∧ 1 ≤ T ∧ T ≤ M

/-- The key the key resolver returns for a member (`none` when it returns no key or an
error). -/
def keyOf (env : Env) (m : Member) : Option PrivateKey :=
  match env.GetKey (env.NewAddressPubKeyHash m.hash) with
  | (some key, _, none) => some key
  | _ => none

/-- The key and signature with which `signMultiSig` signs a member (`none` when there is no
key or signing fails). -/
def usableKey (env : Env) (hashType : Nat) (m : Member) : Option (PrivateKey × Bytes) :=
  match keyOf env m with
  | some key =>
    match RawTxInSignature env [env.SIGNTEXT, hashType % 256] key with
    | (some sig, none) => some (key, sig)
    | _ => none
  | none => none

/-- What a member looks like after resolution: the signed slot when it has a usable key,
its own bytes otherwise. -/
def renderMember (env : Env) (hashType : Nat) (m : Member) : Bytes :=
  match usableKey env hashType m with
  | some (key, sig) => signedSlot env hashType m.hash key sig []
  | none => memberBytes env m

/-- The members after resolution, in order. -/
def renderMembers (env : Env) (hashType : Nat) : List Member → Bytes
  | [] => []
  | m :: ms => renderMember env hashType m ++ renderMembers env hashType ms

/-- Number of members for which the key resolver returns a key. -/
def keyCount (env : Env) (ms : List Member) : Nat :=
  ms.countP (fun m => (keyOf env m).isSome)

/-- Number of members that get signed. -/
def signedCount (env : Env) (hashType : Nat) (ms : List Member) : Nat :=
  ms.countP (fun m => (usableKey env hashType m).isSome)

/-- The sample member whose hash is twenty bytes `k`, the Hash160 of the compressed public
key of key `k` in the sample environment. -/
def demoMember (k : Nat) : Member := ⟨List.replicate 20 k, 1⟩

/-- The signature the sample environment makes with key `k` for hash type 1. -/
def demoSig (k : Nat) : Bytes := 48 :: k :: 81 :: 1 :: List.replicate 30 7

/-- Push tokens of the wire grammar, one per chunk: `PUSH len(c) c`. -/
def encodeChunks (env : Env) : List Bytes → Bytes
  | [] => []
  | c :: cs => env.PUSH :: c.length :: c ++ encodeChunks env cs

/-- The data of a list of chunks, concatenated in order. -/
def concatChunks : List Bytes → Bytes
  | [] => []
  | c :: cs => c ++ concatChunks cs

/-- The sample environment whose script resolver holds a 300-byte redeem script for the
address `5, 3, ..., 3`, and whose key resolver holds no key. -/
def demoSHEnv : Env :=
  demoEnv (keysOf []) (scriptsOf (5 :: List.replicate 20 3) (List.replicate 300 6))

/-- A sample multisig body with a broken token stream: a 1-of-1 header, the member of
key 9, then the byte 153, which is neither opcode, at the next slot boundary. -/
def demoBrokenBody : Bytes :=
  [80, 4, 1, 0, 1, 0, 81, 0] ++ (80 :: 21 :: 0 :: List.replicate 20 9 ++ [81, 1]) ++ [153, 1]

/-- The public key `signMultiSig` writes for a pubkey-hash slot with the given stored hash:
the compressed serialization when its Hash160 is the stored hash, else the uncompressed. -/
def chosenPubKey (env : Env) (hash : Bytes) (key : PrivateKey) : Bytes :=
  if env.Hash160 (env.SerializeCompressed key) = hash then env.SerializeCompressed key
  else env.SerializeUncompressed key

/-- The loop variables of the scan of `signMultiSig` after `k` iterations that all go on
with the loop, starting from `st`; the offsets of these states are the slot boundaries the
scan meets. -/
def msIter (env : Env) (recurse : Bytes → Outcome MSResult) (subScript : Bytes)
    (hashType : Nat) : Nat → MSState → Option MSState
  | 0, st => some st
  | k + 1, st =>
    if st.i < subScript.length then
      match msBody env recurse subScript hashType st with
      | .ok (Step.next st') => msIter env recurse subScript hashType k st'
      | _ => none
    else none

/-- The steps that go on with the loop keep the builder `b` as the beginning of theirs. -/
@[irreducible]
def StepGrows (b : ScriptBuilder) (o : Outcome Step) : Prop :=
  ∀ st : MSState, o = Outcome.ok (Step.next st) → ∃ ext, st.builder = b ++ ext

/-- A sample body whose first byte is 153 instead of the PUSH opcode: the rest of the
1-of-1 header, then the member of key 9. -/
def demoOddHeaderBody : Bytes :=
  [153, 4, 1, 0, 1, 0, 81, 0] ++ (80 :: 21 :: 0 :: List.replicate 20 9 ++ [81, 1])

/-- A sample nested-multisig slot: `Push(21){103, twenty bytes 3}`. -/
def demoNestedSlot : Bytes := 80 :: 21 :: 103 :: List.replicate 20 3

/-- The address of `demoNestedSlot`. -/
def demoNestedAddr : Address := 103 :: List.replicate 20 3

/-- A sample body: 1-of-2 header, the nested-multisig slot with its SignText token, then
the member of key 9. -/
def demoSkipBody : Bytes :=
  [80, 4, 2, 0, 1, 0, 81, 0] ++ demoNestedSlot ++ [81, 1] ++
    (80 :: 21 :: 0 :: List.replicate 20 9 ++ [81, 1])

/-- A sample body of well-formed tokens: 1-of-2 header, an 11-byte Push token and its
SignText token (offsets 8 to 22), then the nested-multisig slot (offset 23) and its
SignText token. -/
def demoLoopBody : Bytes :=
  [80, 4, 2, 0, 1, 0, 81, 0] ++ (80 :: 11 :: List.replicate 11 7) ++ [81, 1] ++
    demoNestedSlot ++ [81, 1]

/-- The redeem script registered for `demoNestedSlot` in the sample of a resolvable nested
slot: a 1-of-1 body with the member of key 9. -/
def demoInnerBody : Bytes :=
  [80, 4, 1, 0, 1, 0, 81, 0] ++ (80 :: 21 :: 0 :: List.replicate 20 9 ++ [81, 1])

/-- A sample body: 1-of-1 header, the nested-multisig slot and its SignText token. -/
def demoOuterBody : Bytes :=
  [80, 4, 1, 0, 1, 0, 81, 0] ++ demoNestedSlot ++ [81, 1]

/-- The sample environment with key 9 and `demoInnerBody` registered for the nested slot. -/
def demoNestedEnv : Env :=
  demoEnv (keysOf [9]) (scriptsOf demoNestedAddr demoInnerBody)

/-! ## Bodies made of groups of data pushes -/

/-- The data of a Push token that the scan of `signMultiSig` does not take for an address
slot: its length is not 21, or its first byte is none of the three address identifiers. -/
def DataPush (env : Env) (d : Bytes) : Prop :=
  d.length ≠ 21 ∨ (d.getD 0 0 ≠ env.PubKeyHashAddrID ∧ d.getD 0 0 ≠ env.MultiSigAddrID ∧
    d.getD 0 0 ≠ env.ScriptHashAddrID)

/-- The data of a Push token that the scan of `extractMSscript` copies through: its length
is not 25, or its first byte is not the multisig address identifier. -/
def TemplateDataPush (env : Env) (d : Bytes) : Prop :=
  d.length ≠ 25 ∨ d.getD 0 0 ≠ env.MultiSigAddrID

/-- A group of an already signed body: the data of one or more Push tokens, and the byte of
the SignText token that ends the group. -/
structure Group where
  pushes : List Bytes
  text : Nat
deriving DecidableEq, Repr

/-- A group on the wire: its Push tokens `PUSH len data`, then `SIGNTEXT text`. -/
def groupBytes (env : Env) (g : Group) : Bytes :=
  encodeChunks env g.pushes ++ [env.SIGNTEXT, g.text]

/-- The groups of a body on the wire, in order. -/
def groupsBytes (env : Env) : List Group → Bytes
  | [] => []
  | g :: gs => groupBytes env g ++ groupsBytes env gs

/-- A sample signed body: 2-of-2 header, a group of two data pushes and a group of one. -/
def demoSignedGroups : List Group :=
  [⟨[[2, 9, 9], [48, 7]], 1⟩, ⟨[[4, 8]], 1⟩]

/-- A sample body for `extractMSscript`: header with member count 1, then one group: a
25-byte push whose first byte is the multisig identifier 103, the 6-byte push
`1, 0, 0, 0, 81, 0`, and the SignText token. -/
def demoTemplateBody : Bytes :=
  [80, 4, 1, 0, 1, 0, 81, 0] ++ (80 :: 25 :: 103 :: List.replicate 24 3) ++
    [80, 6, 1, 0, 0, 0, 81, 0] ++ [81, 1]

/-- A sample nested script-hash slot: `Push(21){5, twenty bytes 3}`. -/
def demoSHSlot : Bytes := 80 :: 21 :: 5 :: List.replicate 20 3

/-- The sample environment without keys whose script resolver holds the 3-byte redeem
script `6, 6, 6` for the address of `demoSHSlot`. -/
def demoAttachEnv : Env :=
  demoEnv (keysOf []) (scriptsOf (5 :: List.replicate 20 3) [6, 6, 6])

/-- Number of iterations the scan of `signMultiSig` spends on pubkey-hash members: one for a
member it signs, two (slot and SignText token) for a member it copies. -/
def memberSteps (env : Env) (hashType : Nat) : List Member → Nat
  | [] => 0
  | m :: ms =>
    (if (usableKey env hashType m).isSome then 1 else 2) + memberSteps env hashType ms


/-- The slot of a nested script-hash member: `Push(21){version, hash}`. -/
def scriptHashSlot (env : Env) (hash : Bytes) : Bytes :=
  env.PUSH :: 21 :: env.ScriptHashAddrID :: hash

/-- A sample body: 1-of-1 header, the script-hash slot `demoSHSlot`, then the byte 153,
which is neither opcode, where the next token should start. -/
def demoAttachBrokenBody : Bytes :=
  [80, 4, 1, 0, 1, 0, 81, 0] ++ demoSHSlot ++ [153, 1]

/-- A sample body of two members: 1-of-2 header, the nested-multisig slot `demoNestedSlot`
with its SignText token, then the script-hash slot `demoSHSlot` with its SignText token. -/
def demoAttachNestedBody : Bytes :=
  [80, 4, 2, 0, 1, 0, 81, 0] ++ demoNestedSlot ++ [81, 1] ++ demoSHSlot ++ [81, 1]


/-- A group that `extractMSscript` copies as it stands: it has a push, and its first push
passes the test of the copy branch or is the only push of the group. -/
def CopiedGroup (env : Env) (g : Group) : Prop :=
  g.pushes ≠ [] ∧ (TemplateDataPush env (g.pushes.headD []) ∨ g.pushes.length = 1)

/-- Sample groups: a 25-byte push that starts with the multisig identifier 103, alone in
its group; a group in which such a push comes second; a group that starts with such a push
and has another push after it. -/
def demoMarkerGroups : List Group :=
  [⟨[103 :: List.replicate 24 3], 1⟩, ⟨[[4, 8], 103 :: List.replicate 24 3], 1⟩,
    ⟨[103 :: List.replicate 24 3, [1, 0, 0, 0, 81, 0]], 1⟩]

/-- The steps that go on with the loop do not lower the counter `n`. -/
@[irreducible]
def StepCounts (n : Nat) (o : Outcome Step) : Prop :=
  ∀ st : MSState, o = Outcome.ok (Step.next st) → n ≤ st.signed

/-- A sample body: 1-of-3 header, a group of one data push `2, 9, 9`, then the script-hash
slot `demoSHSlot` with its SignText token, twice. -/
def demoAttachGroupBody : Bytes :=
  [80, 4, 3, 0, 1, 0, 81, 0] ++ [80, 3, 2, 9, 9] ++ [81, 1] ++ demoSHSlot ++ [81, 1] ++
    demoSHSlot ++ [81, 1]

end Txscript

/-! # Wire messages (package wire, msgfilterload.go and msgsignatures.go)

An `io.Writer` is the list of bytes written to it so far, an `io.Reader` the list of bytes
still to be read.  The helpers of the packages `wire` and `wire/common` that the two
messages call, and the protocol version constant, are not part of these files: they are
the fields of `Common` and `Elements`.
-/

namespace Wire

open Txscript (Bytes Outcome)

/-- The two methods that build a `messageError`. -/
inductive MsgFunc where
  | OmcDecode
  | OmcEncode
deriving DecidableEq, Repr

/-- Go `error` values of the wire messages.
* `io`: an error value made by a reader, a writer or a helper;
* `invalidVersion`: "filterload message invalid for protocol version %d";
* `filterTooLarge`: "filterload filter size too large for message [size %v, max %v]";
* `tooManyHashFuncs`: "too many filter hash functions for message [count %v, max %v]". -/
inductive WireError where
  | io (code : Nat)
  | invalidVersion (caller : MsgFunc) (pver : Nat)
  | filterTooLarge (caller : MsgFunc) (size max : Nat)
  | tooManyHashFuncs (caller : MsgFunc) (count max : Nat)
deriving DecidableEq, Repr

/-- Constant `MaxFilterLoadHashFuncs`. -/
def MaxFilterLoadHashFuncs : Nat := 50

/-- Constant `MaxFilterLoadFilterSize`. -/
def MaxFilterLoadFilterSize : Nat := 36000

/-- Go struct `MsgFilterLoad`. -/
structure MsgFilterLoad where
  Filter : Bytes
  HashFuncs : Nat
  Tweak : Nat
  Flags : Nat
deriving DecidableEq, Repr

/-- What msgfilterload.go reads from elsewhere. -/
structure Common where
  /-- Constant `BIP0037Version`. -/
  BIP0037Version : Nat
  /-- Function `common.WriteVarBytes(w, pver, bytes)`: the writer afterwards and the error. -/
  WriteVarBytes : Bytes → Nat → Bytes → Bytes × Option WireError
  /-- Function `common.WriteElements(w, HashFuncs, Tweak, Flags)`. -/
  WriteElements : Bytes → Nat → Nat → Nat → Bytes × Option WireError
  /-- Function `common.ReadVarBytes(r, pver, maxAllowed, fieldName)`: the bytes read and the
  reader afterwards, or the error. -/
  ReadVarBytes : Bytes → Nat → Nat → Except WireError (Bytes × Bytes)
  /-- Function `common.ReadElements(r, &HashFuncs, &Tweak, &Flags)`: the three values and the
  reader afterwards, or the error. -/
  ReadElements : Bytes → Except WireError (Nat × Nat × Nat × Bytes)

/-- Go method `(msg *MsgFilterLoad) OmcEncode(w, pver, enc)`: the writer afterwards and the
error. -/
def MsgFilterLoad.OmcEncode (c : Common) (msg : MsgFilterLoad) (w : Bytes) (pver : Nat) :
    Bytes × Option WireError :=
  if pver < c.BIP0037Version then
    (w, some (WireError.invalidVersion MsgFunc.OmcEncode pver))
  else
    let size := msg.Filter.length
    if size > MaxFilterLoadFilterSize then
      (w, some (WireError.filterTooLarge MsgFunc.OmcEncode size MaxFilterLoadFilterSize))
    else if msg.HashFuncs > MaxFilterLoadHashFuncs then
      (w, some (WireError.tooManyHashFuncs MsgFunc.OmcEncode msg.HashFuncs
        MaxFilterLoadHashFuncs))
    else
      match c.WriteVarBytes w pver msg.Filter with
      | (w1, some err) => (w1, some err)
      | (w1, none) => c.WriteElements w1 msg.HashFuncs msg.Tweak msg.Flags

/-- Go method `(msg *MsgFilterLoad) OmcDecode(r, pver, enc)`: the decoded message and the
reader afterwards, or the error (the partly filled receiver of a failed call is not
modelled). -/
def MsgFilterLoad.OmcDecode (c : Common) (r : Bytes) (pver : Nat) :
    Except WireError (MsgFilterLoad × Bytes) :=
  if pver < c.BIP0037Version then
    .error (WireError.invalidVersion MsgFunc.OmcDecode pver)
  else
    match c.ReadVarBytes r pver MaxFilterLoadFilterSize with
    | .error err => .error err
    | .ok (filter, r1) =>
      match c.ReadElements r1 with
      | .error err => .error err
      | .ok (hashFuncs, tweak, flags, r2) =>
        if hashFuncs > MaxFilterLoadHashFuncs then
          .error (WireError.tooManyHashFuncs MsgFunc.OmcDecode hashFuncs
            MaxFilterLoadHashFuncs)
        else
          .ok (⟨filter, hashFuncs, tweak, flags⟩, r2)

/-- Go struct `MsgSignatures`; `Hash` is a `chainhash.Hash`, an array of 32 bytes. -/
structure MsgSignatures where
  Hash : Bytes
  Signatures : List Bytes
deriving DecidableEq, Repr

/-- The functions `writeElement` and `readElement` of package wire, one pair for each type
of element msgsignatures.go passes: a `chainhash.Hash`, an `int32`, and a byte slice (read
into a slice of a given length). -/
structure Elements where
  /-- Call `writeElement(w, msg.Hash)`. -/
  writeHash : Bytes → Bytes → Bytes × Option WireError
  /-- Call `writeElement(w, ns)` for an `int32`. -/
  writeInt32 : Bytes → Int → Bytes × Option WireError
  /-- Call `writeElement(w, s)` for a byte slice. -/
  writeBytes : Bytes → Bytes → Bytes × Option WireError
  /-- Call `readElement(r, &msg.Hash)`. -/
  readHash : Bytes → Except WireError (Bytes × Bytes)
  /-- Call `readElement(r, &ns)` for an `int32`. -/
  readInt32 : Bytes → Except WireError (Int × Bytes)
  /-- Call `readElement(r, buf)` for a byte slice `buf` of the given length. -/
  readBytes : Bytes → Nat → Except WireError (Bytes × Bytes)

/-- Go conversion `int32(n)` of a length. -/
def int32 (n : Nat) : Int :=
  ((n + 2147483648) % 4294967296 : Nat) - 2147483648

/-- The loop `for _, s := range msg.Signatures { ... }` of `MsgSignatures.OmcEncode`. -/
def encodeSigs (e : Elements) : List Bytes → Bytes → Bytes × Option WireError
  | [], w => (w, none)
  | s :: ss, w =>
    match e.writeInt32 w (int32 s.length) with
    | (w1, some err) => (w1, some err)
    | (w1, none) =>
      match e.writeBytes w1 s with
      | (w2, some err) => (w2, some err)
      | (w2, none) => encodeSigs e ss w2

/-- Go method `(msg *MsgSignatures) OmcEncode(w, pver, _)`: the writer afterwards and the
error. -/
def MsgSignatures.OmcEncode (e : Elements) (msg : MsgSignatures) (w : Bytes) :
    Bytes × Option WireError :=
  match e.writeHash w msg.Hash with
  | (w1, some err) => (w1, some err)
  | (w1, none) =>
    match e.writeInt32 w1 (int32 msg.Signatures.length) with
    | (w2, some err) => (w2, some err)
    | (w2, none) => encodeSigs e msg.Signatures w2

/-- The loop `for i := int32(0); i < ns; i++ { ... }` of `MsgSignatures.OmcDecode`, with the
number of iterations left and the signatures read so far; `make([]byte, sn)` panics for a
negative `sn`. -/
def decodeSigs (e : Elements) :
    Nat → Bytes → List Bytes → Outcome (Except WireError (List Bytes × Bytes))
  | 0, r, acc => .ok (.ok (acc, r))
  | k + 1, r, acc =>
    match e.readInt32 r with
    | .error err => .ok (.error err)
    | .ok (sn, r1) =>
      if sn < 0 then .crash
      else
        match e.readBytes r1 sn.toNat with
        | .error err => .ok (.error err)
        | .ok (s, r2) => decodeSigs e k r2 (acc ++ [s])

/-- Go method `(msg *MsgSignatures) OmcDecode(r, pver, _)`: the decoded message and the
reader afterwards, or the error (the partly filled receiver of a failed call is not
modelled); `make([][]byte, ns)` panics for a negative `ns`. -/
def MsgSignatures.OmcDecode (e : Elements) (r : Bytes) :
    Outcome (Except WireError (MsgSignatures × Bytes)) :=
  match e.readHash r with
  | .error err => .ok (.error err)
  | .ok (hash, r1) =>
    match e.readInt32 r1 with
    | .error err => .ok (.error err)
    | .ok (ns, r2) =>
      if ns < 0 then .crash
      else
        match decodeSigs e ns.toNat r2 [] with
        | .ok (.ok (sigs, r3)) => .ok (.ok (⟨hash, sigs⟩, r3))
        | .ok (.error err) => .ok (.error err)
        | .crash => .crash
        | .diverge => .diverge

/-! ## Sample helpers for concrete runs -/

/-- The four little-endian bytes of an `int32`. -/
def encInt32 (n : Int) : Bytes :=
  let u := (n % 4294967296).toNat
  [u % 256, u / 256 % 256, u / 65536 % 256, u / 16777216 % 256]

/-- The `int32` of four little-endian bytes. -/
def decInt32 (b0 b1 b2 b3 : Nat) : Int :=
  let u : Int := b0 + 256 * b1 + 65536 * b2 + 16777216 * b3
  if u < 2147483648 then u else u - 4294967296

/-- Sample element functions: a hash is its 32 bytes, an `int32` its four little-endian
bytes, a byte slice its bytes; writing never fails, reading fails on a short reader. -/
def leElements : Elements where
  writeHash := fun w h => (w ++ h, none)
  writeInt32 := fun w n => (w ++ encInt32 n, none)
  writeBytes := fun w s => (w ++ s, none)
  readHash := fun r => if 32 ≤ r.length then .ok (r.take 32, r.drop 32) else .error (.io 1)
  readInt32 := fun r =>
    match r with
    | b0 :: b1 :: b2 :: b3 :: rest => .ok (decInt32 b0 b1 b2 b3, rest)
    | _ => .error (.io 1)
  readBytes := fun r n => if n ≤ r.length then .ok (r.take n, r.drop n) else .error (.io 1)

/-- Sample helpers of msgfilterload.go, with protocol version 70001 for `BIP0037Version`:
a filter is written as a one-byte length (lengths below 253) and its bytes, the three
elements as one byte each; writing never fails. -/
def demoCommon : Common where
  BIP0037Version := 70001
  WriteVarBytes := fun w _ b => (w ++ b.length :: b, none)
  WriteElements := fun w h t f => (w ++ [h, t, f], none)
  ReadVarBytes := fun r _ maxAllowed =>
    match r with
    | n :: rest =>
      if n > maxAllowed then .error (.io 2)
      else if n ≤ rest.length then .ok (rest.take n, rest.drop n)
      else .error (.io 1)
    | [] => .error (.io 1)
  ReadElements := fun r =>
    match r with
    | h :: t :: f :: rest => .ok (h, t, f, rest)
    | _ => .error (.io 1)

end Wire

namespace Txscript

/-! ## Basic facts about the embedding -/

@[simp]
theorem Outcome.ok_bind {α β : Type} (a : α) (f : α → Outcome β) :
    (Outcome.ok a >>= f) = f a := rfl

@[simp]
theorem Outcome.crash_bind {α β : Type} (f : α → Outcome β) :
    ((Outcome.crash : Outcome α) >>= f) = Outcome.crash := rfl

@[simp]
theorem Outcome.diverge_bind {α β : Type} (f : α → Outcome β) :
    ((Outcome.diverge : Outcome α) >>= f) = Outcome.diverge := rfl

@[simp]
theorem Outcome.pure_eq {α : Type} (a : α) : (pure a : Outcome α) = Outcome.ok a := rfl

theorem idx_of_getElem? {s : Bytes} {i d : Nat} (h : s[i]? = some d) : idx s i = Outcome.ok d := by
  simp [idx, h]

theorem idx_append (pre rest : Bytes) (k : Nat) : idx (pre ++ rest) (pre.length + k) = idx rest k := by
  simp [idx, List.getElem?_append_right]

theorem idx_append_zero (pre rest : Bytes) : idx (pre ++ rest) pre.length = idx rest 0 := by
  simpa using idx_append pre rest 0

theorem slice_append (pre rest : Bytes) (a b : Nat) :
    slice (pre ++ rest) (pre.length + a) (pre.length + b) = slice rest a b := by
  unfold slice
  by_cases h : a ≤ b ∧ b ≤ rest.length
  · have h1 : pre.length + a ≤ pre.length + b ∧ pre.length + b ≤ (pre ++ rest).length := by
      simp only [List.length_append]; omega
    rw [if_pos h, if_pos h1]
    congr 1
    rw [List.take_append, List.drop_append]
  · have h1 : ¬ (pre.length + a ≤ pre.length + b ∧ pre.length + b ≤ (pre ++ rest).length) := by
      simp only [List.length_append]; omega
    rw [if_neg h, if_neg h1]

@[simp]
theorem idx_cons_zero (a : Nat) (l : Bytes) : idx (a :: l) 0 = Outcome.ok a := by
  simp [idx]

@[simp]
theorem idx_cons_succ (a : Nat) (l : Bytes) (k : Nat) : idx (a :: l) (k + 1) = idx l k := by
  simp [idx]

@[simp]
theorem slice_cons_succ (a : Nat) (l : Bytes) (x y : Nat) :
    slice (a :: l) (x + 1) (y + 1) = slice l x y := by
  simp [slice]

theorem slice_zero_append (h r : Bytes) : slice (h ++ r) 0 h.length = Outcome.ok h := by
  simp [slice]

theorem slice_cons_zero_succ (a : Nat) (l : Bytes) (y : Nat) :
    slice (a :: l) 0 (y + 1) = (slice l 0 y >>= fun d => Outcome.ok (a :: d)) := by
  unfold slice
  by_cases h : y ≤ l.length
  · simp [h]
  · simp [h]

/-! ## SignatureScript -/

/-- C1, as amended: when byte 21 of the lock is `OP_PAY2PKH` and signing succeeds with
signature `sig`, `SignatureScript` returns the bytes PUSH, 0, len(pk), pk, PUSH, 0,
len(sig), sig, SIGNTEXT, hashType, with pk compressed exactly when `compress` is set. -/
theorem C1_signatureScript_bytes (env : Env) (subscript : Bytes) (privKey : PrivateKey)
    (compress : Bool) (hashType : Nat) (sig : Option Bytes)
    (hd : subscript[21]? = some env.OP_PAY2PKH)
    (hs : RawTxInSignature env [env.SIGNTEXT, hashType % 256] privKey = (sig, none)) :
    SignatureScript env subscript privKey compress hashType =
      Outcome.ok (some (signatureScriptBytes env (pubKeyData env privKey compress)
        (bytesOf sig) hashType), none) := by
  simp [SignatureScript, idx_of_getElem? hd, hs, signatureScriptBytes, pubKeyData,
    NewScriptBuilder, AddOp, AddByte, AddBytes, Script]

/-- Witness of `C1_signatureScript_bytes`: the sample lock of key 9, compressed. -/
theorem C1_signatureScript_bytes_witness :
    (demoLock 9)[21]? = some (demoEnv (keysOf [9]) noScripts).OP_PAY2PKH ∧
    RawTxInSignature (demoEnv (keysOf [9]) noScripts)
      [(demoEnv (keysOf [9]) noScripts).SIGNTEXT, 1 % 256] 9
      = (some (48 :: 9 :: 81 :: 1 :: List.replicate 30 7), none) ∧
    SignatureScript (demoEnv (keysOf [9]) noScripts) (demoLock 9) 9 true 1 =
      Outcome.ok (some (signatureScriptBytes (demoEnv (keysOf [9]) noScripts)
        (pubKeyData (demoEnv (keysOf [9]) noScripts) 9 true)
        (bytesOf (some (48 :: 9 :: 81 :: 1 :: List.replicate 30 7))) 1), none) :=
  ⟨by decide, by decide,
    C1_signatureScript_bytes (demoEnv (keysOf [9]) noScripts) (demoLock 9) 9 true 1
      (some (48 :: 9 :: 81 :: 1 :: List.replicate 30 7)) (by decide) (by decide)⟩

/-- C1 as stated fails: for the sample lock of key 9 the byte at index 21 is `OP_PAY2PKH`
and signing succeeds, yet the script returned is not PUSH, len(pk), pk, PUSH, len(sig),
sig, SIGNTEXT, hashType (its second byte is 0, not 33). -/
theorem C1_grammar_counterexample :
    (demoLock 9)[21]? = some (demoEnv (keysOf [9]) noScripts).OP_PAY2PKH ∧
    RawTxInSignature (demoEnv (keysOf [9]) noScripts)
      [(demoEnv (keysOf [9]) noScripts).SIGNTEXT, 1 % 256] 9
      = (some (48 :: 9 :: 81 :: 1 :: List.replicate 30 7), none) ∧
    SignatureScript (demoEnv (keysOf [9]) noScripts) (demoLock 9) 9 true 1 ≠
      Outcome.ok (some (grammarSignatureScript (demoEnv (keysOf [9]) noScripts)
        (pubKeyData (demoEnv (keysOf [9]) noScripts) 9 true)
        (48 :: 9 :: 81 :: 1 :: List.replicate 30 7) 1), none) := by
  refine ⟨by decide, by decide, ?_⟩
  decide

/-- C2: on a lock of at least 22 bytes whose byte 21 is `d`, `SignatureScript` returns the
empty script with the multi-signature error when `d` is `OP_PAYMULTISIG` and with the
no-signature-required error for any other `d` that is not `OP_PAY2PKH`; in both cases the
result depends on no collaborator (nothing is signed); when `d` is `OP_PAY2PKH` the call
returns, and its error is exactly the error of the signature primitive. -/
theorem C2_signatureScript_errors (env : Env) (subscript : Bytes) (privKey : PrivateKey)
    (compress : Bool) (hashType : Nat) (d : Nat) (hd : subscript[21]? = some d) :
    (d ≠ env.OP_PAY2PKH → d = env.OP_PAYMULTISIG →
      SignatureScript env subscript privKey compress hashType =
        Outcome.ok (some [], some Error.multiSigNotSupported)) ∧
    (d ≠ env.OP_PAY2PKH → d ≠ env.OP_PAYMULTISIG →
      SignatureScript env subscript privKey compress hashType =
        Outcome.ok (some [], some Error.noSignatureRequired)) ∧
    (d ≠ env.OP_PAY2PKH → ∀ env2 : Env, env2.OP_PAY2PKH = env.OP_PAY2PKH →
      env2.OP_PAYMULTISIG = env.OP_PAYMULTISIG →
      SignatureScript env2 subscript privKey compress hashType =
        SignatureScript env subscript privKey compress hashType) ∧
    (d = env.OP_PAY2PKH → ∃ script : Option Bytes,
      SignatureScript env subscript privKey compress hashType =
        Outcome.ok (script,
          (RawTxInSignature env [env.SIGNTEXT, hashType % 256] privKey).2) ∧
      (script = none ↔
        (RawTxInSignature env [env.SIGNTEXT, hashType % 256] privKey).2 ≠ none)) := by
  refine ⟨?_, ?_, ?_, ?_⟩
  · intro h1 h2
    have h3 : env.OP_PAYMULTISIG ≠ env.OP_PAY2PKH := h2 ▸ h1
    simp [SignatureScript, idx_of_getElem? hd, h2, h3]
  · intro h1 h2
    simp [SignatureScript, idx_of_getElem? hd, h1, h2]
  · intro h1 env2 e1 e2
    simp [SignatureScript, idx_of_getElem? hd, h1, e1, e2]
  · intro h1
    subst h1
    rcases hr : RawTxInSignature env [env.SIGNTEXT, hashType % 256] privKey with ⟨sig, err⟩
    cases err with
    | none =>
      exact ⟨_, by simp [SignatureScript, idx_of_getElem? hd, hr]; rfl, by simp⟩
    | some e =>
      exact ⟨none, by simp [SignatureScript, idx_of_getElem? hd, hr], by simp⟩

/-- Witness of `C2_signatureScript_errors`: a 25-byte lock whose byte 21 is the multisig
marker gives the empty script and the multi-signature error. -/
theorem C2_signatureScript_errors_witness :
    (0 :: List.replicate 20 9 ++ [67, 0, 0, 0])[21]? = some 67 ∧
    SignatureScript (demoEnv (keysOf [9]) noScripts)
      (0 :: List.replicate 20 9 ++ [67, 0, 0, 0]) 9 true 1 =
      Outcome.ok (some [], some Error.multiSigNotSupported) :=
  ⟨by decide,
    (C2_signatureScript_errors (demoEnv (keysOf [9]) noScripts)
      (0 :: List.replicate 20 9 ++ [67, 0, 0, 0]) 9 true 1 67 (by decide)).1
      (by decide) (by decide)⟩

/-! ## sign and SignTxOutput -/

/-- C3, as amended: for a ScriptHash lock whose registered redeem script `R` classifies as
PubKeyHash, whose key the key resolver returns and on which `SignatureScript` succeeds with
script `s`, `SignTxOutput` returns without error the bytes PUSH, 0, s. -/
theorem C3_p2sh_wraps_solution (env : Env) (fuel : Nat) (pkScript previousScript : Bytes)
    (hashType : Nat) (a : Address) (rest : List Address) (n : Nat) (R : Bytes)
    (a2 : Address) (rest2 : List Address) (n2 : Nat) (key : PrivateKey) (c : Bool) (s : Bytes)
    (hc : env.ExtractPkScriptAddrs pkScript = (ScriptClass.ScriptHashTy, a :: rest, n, none))
    (hR : env.GetScript a = (some R, none))
    (hc2 : env.ExtractPkScriptAddrs R = (ScriptClass.PubKeyHashTy, a2 :: rest2, n2, none))
    (hk : env.GetKey a2 = (some key, c, none))
    (hs : SignatureScript env R key c hashType = Outcome.ok (some s, none)) :
    SignTxOutput env fuel pkScript hashType previousScript =
      Outcome.ok (some (env.PUSH :: 0 :: s), none) := by
  have h1 : sign env fuel pkScript previousScript hashType =
      Outcome.ok ⟨some R, ScriptClass.ScriptHashTy, some (a :: rest), n, none⟩ := by
    simp [sign, hc, hR]
  have h2 : sign env fuel R previousScript hashType =
      Outcome.ok ⟨some s, ScriptClass.PubKeyHashTy, some (a2 :: rest2), n2, none⟩ := by
    simp [sign, hc2, hk, hs]
  simp [SignTxOutput, h1, h2, bytesOf, NewScriptBuilder, AddOp, AddBytes, Script]

/-- Witness of `C3_p2sh_wraps_solution`: the sample script-hash lock whose redeem script
is the sample pubkey-hash lock of key 9. -/
theorem C3_p2sh_wraps_solution_witness :
    SignTxOutput (demoEnv (keysOf [9]) (scriptsOf demoP2SHAddr (demoLock 9))) 0 demoP2SHLock 1 [] =
      Outcome.ok (some (80 :: 0 :: signatureScriptBytes (demoEnv (keysOf [9]) noScripts)
        (2 :: List.replicate 32 9) (48 :: 9 :: 81 :: 1 :: List.replicate 30 7) 1), none) :=
  C3_p2sh_wraps_solution (demoEnv (keysOf [9]) (scriptsOf demoP2SHAddr (demoLock 9))) 0 demoP2SHLock [] 1
    (5 :: List.replicate 20 1) [] 1 (demoLock 9) (0 :: List.replicate 20 9) [] 1 9 true
    (signatureScriptBytes (demoEnv (keysOf [9]) noScripts)
        (2 :: List.replicate 32 9) (48 :: 9 :: 81 :: 1 :: List.replicate 30 7) 1)
    (by decide) (by decide) (by decide) (by decide) (by decide)

/-- C3 as stated fails twice.  (1) The sample script-hash lock is classified ScriptHash,
its registered redeem script is the sample pubkey-hash lock of key 9, which is classified
PubKeyHash, the key resolver returns key 9 and direct signing yields `s`; yet `SignTxOutput`
does not return PUSH, len(s), s.  (2) With key 0 in place of key 9, which the resolver
returns but for which signing fails, `SignTxOutput` returns an error. -/
theorem C3_push_counterexample :
    ((demoEnv (keysOf [9]) (scriptsOf demoP2SHAddr (demoLock 9))).ExtractPkScriptAddrs
        demoP2SHLock = (ScriptClass.ScriptHashTy, [demoP2SHAddr], 1, none) ∧
      (demoEnv (keysOf [9]) (scriptsOf demoP2SHAddr (demoLock 9))).GetScript demoP2SHAddr =
        (some (demoLock 9), none) ∧
      (demoEnv (keysOf [9]) (scriptsOf demoP2SHAddr (demoLock 9))).ExtractPkScriptAddrs
        (demoLock 9) = (ScriptClass.PubKeyHashTy, [0 :: List.replicate 20 9], 1, none) ∧
      (demoEnv (keysOf [9]) (scriptsOf demoP2SHAddr (demoLock 9))).GetKey
        (0 :: List.replicate 20 9) = (some 9, true, none) ∧
      ∃ s : Bytes,
        SignatureScript (demoEnv (keysOf [9]) (scriptsOf demoP2SHAddr (demoLock 9)))
          (demoLock 9) 9 true 1 = Outcome.ok (some s, none) ∧
        SignTxOutput (demoEnv (keysOf [9]) (scriptsOf demoP2SHAddr (demoLock 9))) 0
          demoP2SHLock 1 [] ≠ Outcome.ok (some (80 :: s.length % 256 :: s), none)) ∧
    ((demoEnv (keysOf [0]) (scriptsOf demoP2SHAddr (demoLock 0))).ExtractPkScriptAddrs
        demoP2SHLock = (ScriptClass.ScriptHashTy, [demoP2SHAddr], 1, none) ∧
      (demoEnv (keysOf [0]) (scriptsOf demoP2SHAddr (demoLock 0))).GetScript demoP2SHAddr =
        (some (demoLock 0), none) ∧
      (demoEnv (keysOf [0]) (scriptsOf demoP2SHAddr (demoLock 0))).ExtractPkScriptAddrs
        (demoLock 0) = (ScriptClass.PubKeyHashTy, [0 :: List.replicate 20 0], 1, none) ∧
      (demoEnv (keysOf [0]) (scriptsOf demoP2SHAddr (demoLock 0))).GetKey
        (0 :: List.replicate 20 0) = (some 0, true, none) ∧
      SignTxOutput (demoEnv (keysOf [0]) (scriptsOf demoP2SHAddr (demoLock 0))) 0
        demoP2SHLock 1 [] =
        Outcome.ok (none, some (Error.cannotSignInput (Error.external 1)))) := by
  refine ⟨⟨?_, ?_, ?_, ?_, signatureScriptBytes (demoEnv (keysOf [9]) noScripts)
        (2 :: List.replicate 32 9) (demoSig 9) 1, ?_, ?_⟩,
    ?_, ?_, ?_, ?_, ?_⟩ <;> decide

/-- C10: when the classifier returns PubKeyHash without error and the key resolver returns
no key and no error for the first address, `sign` returns a nil script with no error and so
does `SignTxOutput`; the results depend on the classifier and the key resolver only, so no
signature is computed. -/
theorem C10_no_key_soft_failure (env : Env) (fuel : Nat) (subScript previousScript : Bytes)
    (hashType : Nat) (a : Address) (rest : List Address) (n : Nat) (c : Bool)
    (hc : env.ExtractPkScriptAddrs subScript = (ScriptClass.PubKeyHashTy, a :: rest, n, none))
    (hk : env.GetKey a = (none, c, none)) :
    sign env fuel subScript previousScript hashType =
      Outcome.ok ⟨none, ScriptClass.PubKeyHashTy, none, 0, none⟩ ∧
    SignTxOutput env fuel subScript hashType previousScript = Outcome.ok (none, none) ∧
    (∀ env2 : Env, env2.ExtractPkScriptAddrs = env.ExtractPkScriptAddrs →
      env2.GetKey = env.GetKey →
      sign env2 fuel subScript previousScript hashType =
        sign env fuel subScript previousScript hashType ∧
      SignTxOutput env2 fuel subScript hashType previousScript =
        SignTxOutput env fuel subScript hashType previousScript) := by
  have key : ∀ e : Env, e.ExtractPkScriptAddrs = env.ExtractPkScriptAddrs →
      e.GetKey = env.GetKey →
      sign e fuel subScript previousScript hashType =
        Outcome.ok ⟨none, ScriptClass.PubKeyHashTy, none, 0, none⟩ ∧
      SignTxOutput e fuel subScript hashType previousScript = Outcome.ok (none, none) := by
    intro e h1 h2
    have h3 : sign e fuel subScript previousScript hashType =
        Outcome.ok ⟨none, ScriptClass.PubKeyHashTy, none, 0, none⟩ := by
      simp [sign, h1, h2, hc, hk]
    exact ⟨h3, by simp [SignTxOutput, h3]⟩
  refine ⟨(key env rfl rfl).1, (key env rfl rfl).2, ?_⟩
  intro env2 h1 h2
  rw [(key env2 h1 h2).1, (key env2 h1 h2).2, (key env rfl rfl).1, (key env rfl rfl).2]
  exact ⟨rfl, rfl⟩

/-- Witness of `C10_no_key_soft_failure`: the sample lock of key 9 and a key resolver that
holds key 3 only. -/
theorem C10_no_key_soft_failure_witness :
    (demoEnv (keysOf [3]) noScripts).ExtractPkScriptAddrs (demoLock 9) =
      (ScriptClass.PubKeyHashTy, [0 :: List.replicate 20 9], 1, none) ∧
    (demoEnv (keysOf [3]) noScripts).GetKey (0 :: List.replicate 20 9) = (none, false, none) ∧
    sign (demoEnv (keysOf [3]) noScripts) 0 (demoLock 9) [] 1 =
      Outcome.ok ⟨none, ScriptClass.PubKeyHashTy, none, 0, none⟩ ∧
    SignTxOutput (demoEnv (keysOf [3]) noScripts) 0 (demoLock 9) 1 [] =
      Outcome.ok (none, none) :=
  ⟨by decide, by decide,
    (C10_no_key_soft_failure (demoEnv (keysOf [3]) noScripts) 0 (demoLock 9) [] 1
      (0 :: List.replicate 20 9) [] 1 false (by decide) (by decide)).1,
    (C10_no_key_soft_failure (demoEnv (keysOf [3]) noScripts) 0 (demoLock 9) [] 1
      (0 :: List.replicate 20 9) [] 1 false (by decide) (by decide)).2.1⟩

/-! ## The scan loop of signMultiSig on pubkey-hash members -/

theorem signedSlot_append (env : Env) (hashType : Nat) (pkscript : Bytes) (key : PrivateKey)
    (sig : Bytes) (builder : ScriptBuilder) :
    signedSlot env hashType pkscript key sig builder =
      builder ++ signedSlot env hashType pkscript key sig [] := by
  simp [signedSlot, AddOp, AddByte, AddBytes]

theorem msBody_signtext (env : Env) (recurse : Bytes → Outcome MSResult) (pre rest : Bytes)
    (x hashType : Nat) (builder : ScriptBuilder) (signed : Nat)
    (hne : env.PUSH ≠ env.SIGNTEXT) :
    msBody env recurse (pre ++ env.SIGNTEXT :: x :: rest) hashType ⟨pre.length, builder, signed⟩
      = Outcome.ok (Step.next ⟨pre.length + 2, builder ++ [env.SIGNTEXT, x], signed⟩) := by
  simp [msBody, idx_append_zero, idx_append, hne.symm, AddOp]

theorem msBody_pkh (env : Env) (recurse : Bytes → Outcome MSResult)
    (pre rest : Bytes) (m : Member) (hashType : Nat) (builder : ScriptBuilder) (signed : Nat)
    (hlen : m.hash.length = 20) :
    msBody env recurse (pre ++ (slotBytes env m ++ rest)) hashType ⟨pre.length, builder, signed⟩
      = match usableKey env hashType m with
        | some (key, sig) =>
          (idx rest 0 >>= fun nx => Outcome.ok (Step.next
            ⟨if nx = env.SIGNTEXT then pre.length + 25 else pre.length + 23,
              signedSlot env hashType m.hash key sig builder, signed + 1⟩))
        | none => Outcome.ok (Step.next ⟨pre.length + 23, builder ++ slotBytes env m, signed⟩) := by
  have h20 : slice (m.hash ++ rest) 0 20 = Outcome.ok m.hash := hlen ▸ slice_zero_append m.hash rest
  have h21 : idx (m.hash ++ rest) 20 = idx rest 0 := by
    have h := idx_append m.hash rest 0
    rwa [hlen] at h
  simp only [usableKey, keyOf]
  rcases hk : env.GetKey (env.NewAddressPubKeyHash m.hash) with ⟨k, c, e⟩
  rcases k with _ | key <;> rcases e with _ | err
  · simp [msBody, idx_append_zero, idx_append, AddOp, AddBytes, slotBytes, Nat.add_assoc,
      slice_append, slice_cons_zero_succ, h20, hk]
  · simp [msBody, idx_append_zero, idx_append, AddOp, AddBytes, slotBytes, Nat.add_assoc,
      slice_append, slice_cons_zero_succ, h20, hk]
  · rcases hr : RawTxInSignature env [env.SIGNTEXT, hashType % 256] key with ⟨sg, e2⟩
    rcases sg with _ | sig <;> rcases e2 with _ | err2 <;>
    simp [msBody, idx_append_zero, idx_append, AddOp, AddBytes, slotBytes, Nat.add_assoc,
      slice_append, slice_cons_zero_succ, h20, h21, hk, hr]
  · simp [msBody, idx_append_zero, idx_append, AddOp, AddBytes, slotBytes, Nat.add_assoc,
      slice_append, slice_cons_zero_succ, h20, hk]

theorem msLoop_members (env : Env) (recurse : Bytes → Outcome MSResult) (hashType : Nat)
    (hne : env.PUSH ≠ env.SIGNTEXT) :
    ∀ (ms : List Member) (pre : Bytes) (builder : ScriptBuilder) (signed fuel : Nat),
      (∀ m ∈ ms, m.hash.length = 20) → 2 * ms.length + 1 ≤ fuel →
      msLoop env recurse (pre ++ membersBytes env ms) hashType fuel ⟨pre.length, builder, signed⟩
        = Outcome.ok (ScanEnd.completed (builder ++ renderMembers env hashType ms)
            (signed + signedCount env hashType ms)) := by
  intro ms
  induction ms with
  | nil =>
    intro pre builder signed fuel _ hf
    obtain ⟨f, rfl⟩ : ∃ f, fuel = f + 1 := ⟨fuel - 1, by omega⟩
    simp [msLoop, membersBytes, renderMembers, signedCount]
  | cons m ms ih =>
    intro pre builder signed fuel hlen hf
    have hm : m.hash.length = 20 := hlen m (List.mem_cons_self _ _)
    have hms : ∀ x ∈ ms, x.hash.length = 20 := fun x hx => hlen x (List.mem_cons_of_mem _ hx)
    have hf2 : 2 * ms.length + 3 ≤ fuel := by
      simp only [List.length_cons] at hf
      omega
    obtain ⟨f, rfl⟩ : ∃ f, fuel = f + 1 := ⟨fuel - 1, by omega⟩
    have hshape : pre ++ membersBytes env (m :: ms) =
        pre ++ (slotBytes env m ++ (env.SIGNTEXT :: m.text :: membersBytes env ms)) := by
      simp [membersBytes, memberBytes]
    have hlt : pre.length < (pre ++ (slotBytes env m ++
        (env.SIGNTEXT :: m.text :: membersBytes env ms))).length := by
      simp [slotBytes]
    rw [hshape, msLoop, if_pos hlt, msBody_pkh env recurse pre _ m hashType builder signed hm]
    cases hu : usableKey env hashType m with
    | some ks =>
      obtain ⟨key, sig⟩ := ks
      have hl : (pre ++ memberBytes env m).length = pre.length + 25 := by
        simp [memberBytes, slotBytes, hm]
      have hs2 : pre ++ (slotBytes env m ++ (env.SIGNTEXT :: m.text :: membersBytes env ms)) =
          (pre ++ memberBytes env m) ++ membersBytes env ms := by
        simp [memberBytes]
      simp only [idx_cons_zero, Outcome.ok_bind, if_true]
      rw [hs2, ← hl, ih (pre ++ memberBytes env m) _ (signed + 1) f hms (by omega)]
      simp [renderMembers, renderMember, hu, signedCount, signedSlot_append env hashType m.hash key sig builder]
      omega
    | none =>
      obtain ⟨g, rfl⟩ : ∃ g, f = g + 1 := ⟨f - 1, by omega⟩
      have hl1 : (pre ++ slotBytes env m).length = pre.length + 23 := by
        simp [slotBytes, hm]
      have hs1 : pre ++ (slotBytes env m ++ (env.SIGNTEXT :: m.text :: membersBytes env ms)) =
          (pre ++ slotBytes env m) ++ env.SIGNTEXT :: m.text :: membersBytes env ms := by
        simp
      have hlt1 : (pre ++ slotBytes env m).length < ((pre ++ slotBytes env m) ++
          env.SIGNTEXT :: m.text :: membersBytes env ms).length := by
        simp
      have hl2 : (pre ++ memberBytes env m).length = (pre ++ slotBytes env m).length + 2 := by
        simp [memberBytes]
        omega
      have hs2 : (pre ++ slotBytes env m) ++ env.SIGNTEXT :: m.text :: membersBytes env ms =
          (pre ++ memberBytes env m) ++ membersBytes env ms := by
        simp [memberBytes]
      simp only []
      rw [hs1, ← hl1, msLoop, if_pos hlt1,
        msBody_signtext env recurse (pre ++ slotBytes env m) _ m.text hashType _ signed hne]
      simp only []
      rw [hs2, ← hl2, ih (pre ++ memberBytes env m) _ signed g hms (by omega)]
      simp [renderMembers, renderMember, hu, signedCount, memberBytes]

theorem msHeader_body (env : Env) (M T textcode : Nat) (ms : List Member) :
    msHeader env (multisigBody env M T textcode ms) =
      Outcome.ok (⟨8, multisigHeader env M T textcode, 0⟩, T) := by
  have hT : T % 256 + 256 * (T / 256) = T := Nat.mod_add_div T 256
  simp [msHeader, multisigBody, multisigHeader, slice, uint16LE, NewScriptBuilder, AddOp,
    AddBytes, hT]

theorem signMultiSig_members (env : Env) (hashType M T textcode : Nat) (ms : List Member)
    (fuel : Nat) (hne : env.PUSH ≠ env.SIGNTEXT) (hlen : ∀ m ∈ ms, m.hash.length = 20)
    (hf : 2 * ms.length + 2 ≤ fuel) :
    signMultiSig env hashType fuel (multisigBody env M T textcode ms) =
      Outcome.ok (msFinish T (ScanEnd.completed
        (multisigHeader env M T textcode ++ renderMembers env hashType ms)
        (signedCount env hashType ms))) := by
  obtain ⟨f, rfl⟩ : ∃ f, fuel = f + 1 := ⟨fuel - 1, by omega⟩
  have h8 : (multisigHeader env M T textcode).length = 8 := by simp [multisigHeader]
  have hl := msLoop_members env (fun s => signMultiSig env hashType f s) hashType hne ms
    (multisigHeader env M T textcode) (multisigHeader env M T textcode) 0 f hlen (by omega)
  rw [h8] at hl
  rw [signMultiSig, msHeader_body]
  simp only [Outcome.ok_bind]
  unfold multisigBody
  rw [hl]
  simp

theorem signedCount_le_keyCount (env : Env) (hashType : Nat) (ms : List Member) :
    signedCount env hashType ms ≤ keyCount env ms := by
  unfold signedCount keyCount
  apply List.countP_mono_left
  intro m _ h
  unfold usableKey at h
  cases hk : keyOf env m with
  | none => simp [hk] at h
  | some key => simp

theorem signedCount_eq_keyCount (env : Env) (hashType : Nat) (ms : List Member)
    (hsign : ∀ m ∈ ms, ∀ key, keyOf env m = some key →
      ∃ sig, RawTxInSignature env [env.SIGNTEXT, hashType % 256] key = (some sig, none)) :
    signedCount env hashType ms = keyCount env ms := by
  unfold signedCount keyCount
  apply List.countP_congr
  intro m hm
  unfold usableKey
  cases hk : keyOf env m with
  | none => simp
  | some key =>
    obtain ⟨sig, hs⟩ := hsign m hm key hk
    simp [hs]

/-- C5: on a well-formed multisig redeem script with threshold `T` whose members are
pubkey-hash slots each followed by a SignText token, when the key resolver returns keys for
exactly `T` members and signing succeeds for each of them, `signMultiSig` (with enough
fuel) returns fulfilled = true, required = `T`, and the script made of the header and the
members in order, exactly `T` of which are replaced by their signed slot. -/
theorem C5_exact_threshold_fulfilled (env : Env) (hashType M T textcode : Nat)
    (ms : List Member) (fuel : Nat) (hne : env.PUSH ≠ env.SIGNTEXT)
    (hwf : WellFormedMS M T ms) (hkeys : keyCount env ms = T)
    (hsign : ∀ m ∈ ms, ∀ key, keyOf env m = some key →
      ∃ sig, RawTxInSignature env [env.SIGNTEXT, hashType % 256] key = (some sig, none))
    (hf : 2 * ms.length + 2 ≤ fuel) :
    signMultiSig env hashType fuel (multisigBody env M T textcode ms) =
      Outcome.ok ⟨some (multisigHeader env M T textcode ++ renderMembers env hashType ms),
        T, true⟩ ∧
    signedCount env hashType ms = T := by
  obtain ⟨hlen, _, _, hT1, _⟩ := hwf
  have hc : signedCount env hashType ms = T := by
    rw [signedCount_eq_keyCount env hashType ms hsign, hkeys]
  refine ⟨?_, hc⟩
  rw [signMultiSig_members env hashType M T textcode ms fuel hne hlen hf, hc]
  have h0 : T ≠ 0 := by omega
  simp [msFinish, h0, Script]

/-- C6, as amended: on a well-formed multisig redeem script with threshold `T` of
pubkey-hash members, when the key resolver returns keys for fewer than `T` members and at
least one member is signed, `signMultiSig` (with enough fuel) returns fulfilled = false and
the script made of the header and the members in order, where every member without a key
stands as the byte-identical Push and SignText tokens it had in the input. -/
theorem C6_partial_keeps_unresolved (env : Env) (hashType M T textcode : Nat)
    (ms : List Member) (fuel : Nat) (hne : env.PUSH ≠ env.SIGNTEXT)
    (hwf : WellFormedMS M T ms) (hlow : keyCount env ms < T)
    (hone : 1 ≤ signedCount env hashType ms) (hf : 2 * ms.length + 2 ≤ fuel) :
    signMultiSig env hashType fuel (multisigBody env M T textcode ms) =
      Outcome.ok ⟨some (multisigHeader env M T textcode ++ renderMembers env hashType ms),
        T, false⟩ ∧
    (∀ m ∈ ms, keyOf env m = none → renderMember env hashType m = memberBytes env m) := by
  obtain ⟨hlen, _, _, _, _⟩ := hwf
  have hle := signedCount_le_keyCount env hashType ms
  refine ⟨?_, ?_⟩
  · rw [signMultiSig_members env hashType M T textcode ms fuel hne hlen hf]
    have h0 : signedCount env hashType ms ≠ 0 := by omega
    have h1 : ¬ (signedCount env hashType ms ≥ T) := by omega
    simp [msFinish, h0, h1, Script]
  · intro m _ hk
    simp [renderMember, usableKey, hk]

/-- Witness of `C5_exact_threshold_fulfilled`: a 2-of-3 body and keys for two members. -/
theorem C5_exact_threshold_fulfilled_witness :
    signMultiSig (demoEnv (keysOf [9, 7]) noScripts) 1 8
        (multisigBody (demoEnv (keysOf [9, 7]) noScripts) 3 2 0
          [demoMember 9, demoMember 8, demoMember 7]) =
      Outcome.ok ⟨some (multisigHeader (demoEnv (keysOf [9, 7]) noScripts) 3 2 0 ++
        renderMembers (demoEnv (keysOf [9, 7]) noScripts) 1
          [demoMember 9, demoMember 8, demoMember 7]), 2, true⟩ ∧
    signedCount (demoEnv (keysOf [9, 7]) noScripts) 1
      [demoMember 9, demoMember 8, demoMember 7] = 2 :=
  C5_exact_threshold_fulfilled (demoEnv (keysOf [9, 7]) noScripts) 1 3 2 0
    [demoMember 9, demoMember 8, demoMember 7] 8 (by decide)
    (by unfold WellFormedMS; decide) (by decide)
    (by
      intro m hm key hk
      have h : m = demoMember 9 ∨ m = demoMember 8 ∨ m = demoMember 7 := by simpa using hm
      rcases h with rfl | rfl | rfl
      · have hk9 : key = 9 := by
          have h9 : keyOf (demoEnv (keysOf [9, 7]) noScripts) (demoMember 9) = some 9 := by decide
          rw [h9] at hk
          exact (Option.some.inj hk).symm
        subst hk9
        exact ⟨demoSig 9, by decide⟩
      · have h8 : keyOf (demoEnv (keysOf [9, 7]) noScripts) (demoMember 8) = none := by decide
        rw [h8] at hk
        cases hk
      · have hk7 : key = 7 := by
          have h7 : keyOf (demoEnv (keysOf [9, 7]) noScripts) (demoMember 7) = some 7 := by decide
          rw [h7] at hk
          exact (Option.some.inj hk).symm
        subst hk7
        exact ⟨demoSig 7, by decide⟩)
    (by decide)

/-- Witness of `C6_partial_keeps_unresolved`: a 2-of-3 body and a key for one member. -/
theorem C6_partial_keeps_unresolved_witness :
    signMultiSig (demoEnv (keysOf [8]) noScripts) 1 8
        (multisigBody (demoEnv (keysOf [8]) noScripts) 3 2 0
          [demoMember 9, demoMember 8, demoMember 7]) =
      Outcome.ok ⟨some (multisigHeader (demoEnv (keysOf [8]) noScripts) 3 2 0 ++
        (memberBytes (demoEnv (keysOf [8]) noScripts) (demoMember 9) ++
         signedSlot (demoEnv (keysOf [8]) noScripts) 1 (List.replicate 20 8) 8 (demoSig 8) [] ++
         memberBytes (demoEnv (keysOf [8]) noScripts) (demoMember 7))), 2, false⟩ :=
  (C6_partial_keeps_unresolved (demoEnv (keysOf [8]) noScripts) 1 3 2 0
    [demoMember 9, demoMember 8, demoMember 7] 8 (by decide)
    (by unfold WellFormedMS; decide) (by decide) (by decide) (by decide)).1.trans (by decide)

/-- C6 as stated fails: in this well-formed 2-of-2 body the key resolver returns a key for
exactly one member (the first, for which signing fails) and none for the second, yet the
script returned is nil, so the second member does not appear in the output. -/
theorem C6_unsigned_key_counterexample :
    WellFormedMS 2 2 [demoMember 0, demoMember 9] ∧
    keyCount (demoEnv (keysOf [0]) noScripts) [demoMember 0, demoMember 9] = 1 ∧
    keyOf (demoEnv (keysOf [0]) noScripts) (demoMember 9) = none ∧
    signMultiSig (demoEnv (keysOf [0]) noScripts) 1 8
        (multisigBody (demoEnv (keysOf [0]) noScripts) 2 2 0 [demoMember 0, demoMember 9]) =
      Outcome.ok ⟨none, 2, false⟩ := by
  refine ⟨by unfold WellFormedMS; decide, by decide, by decide, by decide⟩

/-- C4 fails on the code: in this well-formed 1-of-2 body the key resolver has keys for
both members and `signMultiSig` signs both, although the threshold 1 is reached after the
first; the second member is replaced by a signature. -/
theorem C4_no_early_termination :
    WellFormedMS 2 1 [demoMember 9, demoMember 8] ∧
    keyCount (demoEnv (keysOf [9, 8]) noScripts) [demoMember 9, demoMember 8] = 2 ∧
    signMultiSig (demoEnv (keysOf [9, 8]) noScripts) 1 8
        (multisigBody (demoEnv (keysOf [9, 8]) noScripts) 2 1 0 [demoMember 9, demoMember 8]) =
      Outcome.ok ⟨some (multisigHeader (demoEnv (keysOf [9, 8]) noScripts) 2 1 0 ++
        (signedSlot (demoEnv (keysOf [9, 8]) noScripts) 1 (List.replicate 20 9) 9 (demoSig 9) [] ++
         signedSlot (demoEnv (keysOf [9, 8]) noScripts) 1 (List.replicate 20 8) 8 (demoSig 8) [])),
        1, true⟩ := by
  refine ⟨by unfold WellFormedMS; decide, by decide, by decide⟩

theorem Outcome.bind_eq_ok {α β : Type} {x : Outcome α} {f : α → Outcome β} {b : β}
    (h : (x >>= f) = Outcome.ok b) : ∃ a, x = Outcome.ok a ∧ f a = Outcome.ok b := by
  cases x with
  | ok a => exact ⟨a, rfl, h⟩
  | crash => cases h
  | diverge => cases h

theorem msHeader_nRequired (env : Env) (subScript : Bytes) (st : MSState) (nRequired : Nat)
    (hh : msHeader env subScript = Outcome.ok (st, nRequired)) :
    nRequired = subScript.getD 4 0 + 256 * subScript.getD 5 0 := by
  unfold msHeader at hh
  obtain ⟨n, _, hh⟩ := Outcome.bind_eq_ok hh
  obtain ⟨d, _, hh⟩ := Outcome.bind_eq_ok hh
  obtain ⟨t, _, hh⟩ := Outcome.bind_eq_ok hh
  obtain ⟨r, hr, hh⟩ := Outcome.bind_eq_ok hh
  simp only [Outcome.pure_eq, Outcome.ok.injEq, Prod.mk.injEq] at hh
  rw [← hh.2]
  unfold slice at hr
  split at hr
  · rename_i hb
    simp only [Outcome.ok.injEq] at hr
    subst hr
    have h5 : 5 < subScript.length := by omega
    have h4 : 4 < subScript.length := by omega
    simp [uint16LE, List.getD_eq_getElem?_getD, List.getElem?_drop, List.getElem?_take, h4, h5]
  · cases hr

/-- C7: when the scan of a body completes with builder `b` and counter `signed`,
`signMultiSig` returns (nil, required, false) if `signed = 0`, whatever was copied into
`b`, and (`b`, required, signed >= required) if `signed > 0`; required is the
little-endian 16-bit value in bytes 4..5 of the header. -/
theorem C7_final_result (env : Env) (hashType fuel : Nat) (subScript : Bytes) (st : MSState)
    (nRequired : Nat) (builder : ScriptBuilder) (signed : Nat)
    (hh : msHeader env subScript = Outcome.ok (st, nRequired))
    (hl : msLoop env (fun s => signMultiSig env hashType fuel s) subScript hashType fuel st =
      Outcome.ok (ScanEnd.completed builder signed)) :
    nRequired = subScript.getD 4 0 + 256 * subScript.getD 5 0 ∧
    (signed = 0 →
      signMultiSig env hashType (fuel + 1) subScript = Outcome.ok ⟨none, nRequired, false⟩) ∧
    (0 < signed →
      signMultiSig env hashType (fuel + 1) subScript =
        Outcome.ok ⟨some builder, nRequired, decide (signed ≥ nRequired)⟩) := by
  refine ⟨msHeader_nRequired env subScript st nRequired hh, ?_, ?_⟩
  · intro h0
    rw [signMultiSig, hh]
    simp only [Outcome.ok_bind]
    rw [hl]
    simp [msFinish, h0]
  · intro h0
    have h1 : signed ≠ 0 := by omega
    rw [signMultiSig, hh]
    simp only [Outcome.ok_bind]
    rw [hl]
    simp [msFinish, h1, Script]

/-- Witness of `C7_final_result`: a 2-of-2 body scanned with a key resolver whose only key
cannot sign (both members are copied, nothing is signed, the result is nil), and the same
body scanned with a key for the second member. -/
theorem C7_final_result_witness :
    signMultiSig (demoEnv (keysOf [0]) noScripts) 1 (7 + 1)
        (multisigBody (demoEnv (keysOf [0]) noScripts) 2 2 0 [demoMember 0, demoMember 9]) =
      Outcome.ok ⟨none, 2, false⟩ ∧
    signMultiSig (demoEnv (keysOf [9]) noScripts) 1 (7 + 1)
        (multisigBody (demoEnv (keysOf [9]) noScripts) 2 2 0 [demoMember 0, demoMember 9]) =
      Outcome.ok ⟨some (multisigHeader (demoEnv (keysOf [9]) noScripts) 2 2 0 ++
        (memberBytes (demoEnv (keysOf [9]) noScripts) (demoMember 0) ++
         signedSlot (demoEnv (keysOf [9]) noScripts) 1 (List.replicate 20 9) 9 (demoSig 9) [])),
        2, decide (1 ≥ 2)⟩ :=
  ⟨(C7_final_result (demoEnv (keysOf [0]) noScripts) 1 7
      (multisigBody (demoEnv (keysOf [0]) noScripts) 2 2 0 [demoMember 0, demoMember 9])
      ⟨8, multisigHeader (demoEnv (keysOf [0]) noScripts) 2 2 0, 0⟩ 2
      (multisigHeader (demoEnv (keysOf [0]) noScripts) 2 2 0 ++
        (memberBytes (demoEnv (keysOf [0]) noScripts) (demoMember 0) ++
         memberBytes (demoEnv (keysOf [0]) noScripts) (demoMember 9))) 0
      (by decide) (by decide)).2.1 rfl,
   (C7_final_result (demoEnv (keysOf [9]) noScripts) 1 7
      (multisigBody (demoEnv (keysOf [9]) noScripts) 2 2 0 [demoMember 0, demoMember 9])
      ⟨8, multisigHeader (demoEnv (keysOf [9]) noScripts) 2 2 0, 0⟩ 2
      (multisigHeader (demoEnv (keysOf [9]) noScripts) 2 2 0 ++
        (memberBytes (demoEnv (keysOf [9]) noScripts) (demoMember 0) ++
         signedSlot (demoEnv (keysOf [9]) noScripts) 1 (List.replicate 20 9) 9 (demoSig 9) [])) 1
      (by decide) (by decide)).2.2 (by decide)⟩

/-- C8 fails on the code.  The redeem script is a 2-of-2 body registered for the sample
multisig lock; party A holds key 9, party B key 8.  Resolving with A's keys yields the
header, the signed slot of member 9 and the untouched member 8.  Resolving that output as
`previousScript` with B's keys yields a nil script, while one pass with both keys yields
the header and both signed slots. -/
theorem C8_incremental_differs :
    SignTxOutput (demoEnv (keysOf [9]) (scriptsOf demoMSAddr
        (multisigBody (demoEnv (keysOf []) noScripts) 2 2 0 [demoMember 9, demoMember 8])))
        8 demoMSLock 1 [] =
      Outcome.ok (some (multisigHeader (demoEnv (keysOf []) noScripts) 2 2 0 ++
        (signedSlot (demoEnv (keysOf []) noScripts) 1 (List.replicate 20 9) 9 (demoSig 9) [] ++
         memberBytes (demoEnv (keysOf []) noScripts) (demoMember 8))), none) ∧
    SignTxOutput (demoEnv (keysOf [8]) (scriptsOf demoMSAddr
        (multisigBody (demoEnv (keysOf []) noScripts) 2 2 0 [demoMember 9, demoMember 8])))
        8 demoMSLock 1
        (multisigHeader (demoEnv (keysOf []) noScripts) 2 2 0 ++
          (signedSlot (demoEnv (keysOf []) noScripts) 1 (List.replicate 20 9) 9 (demoSig 9) [] ++
           memberBytes (demoEnv (keysOf []) noScripts) (demoMember 8))) =
      Outcome.ok (none, none) ∧
    SignTxOutput (demoEnv (keysOf [9, 8]) (scriptsOf demoMSAddr
        (multisigBody (demoEnv (keysOf []) noScripts) 2 2 0 [demoMember 9, demoMember 8])))
        8 demoMSLock 1 [] =
      Outcome.ok (some (multisigHeader (demoEnv (keysOf []) noScripts) 2 2 0 ++
        (signedSlot (demoEnv (keysOf []) noScripts) 1 (List.replicate 20 9) 9 (demoSig 9) [] ++
         signedSlot (demoEnv (keysOf []) noScripts) 1 (List.replicate 20 8) 8 (demoSig 8) [])),
        none) := by
  refine ⟨by decide, by decide, by decide⟩

/-! ## The chunking of a nested redeem script -/

theorem pushChunks_spec (env : Env) :
    ∀ (fuel : Nat) (script : Bytes) (builder : ScriptBuilder), script.length < fuel →
      ∃ chunks : List Bytes,
        pushChunks env fuel script builder = Outcome.ok (builder ++ encodeChunks env chunks) ∧
        chunks.length = (script.length + 254) / 255 ∧
        (∀ c ∈ chunks, 0 < c.length ∧ c.length ≤ 255) ∧
        concatChunks chunks = script := by
  intro fuel
  induction fuel with
  | zero => intro script builder h; omega
  | succ f ih =>
    intro script builder h
    by_cases h0 : script.length = 0
    · refine ⟨[], ?_, ?_, ?_, ?_⟩
      · simp [pushChunks, h0, encodeChunks]
      · simp [h0]
      · simp
      · have : script = [] := List.length_eq_zero.mp h0
        simp [concatChunks, this]
    · by_cases h1 : script.length ≤ 255
      · refine ⟨[script], ?_, ?_, ?_, ?_⟩
        · have hm : script.length % 256 = script.length := Nat.mod_eq_of_lt (by omega)
          simp [pushChunks, h0, h1, encodeChunks, AddOp, AddBytes, hm]
        · simp only [List.length_singleton]
          omega
        · intro c hc
          have : c = script := by simpa using hc
          subst this
          omega
        · simp [concatChunks]
      · have hd : (script.drop 255).length < f := by
          simp only [List.length_drop]
          omega
        obtain ⟨cs, hcs, hn, hb, hj⟩ :=
          ih (script.drop 255) (AddBytes (AddOp builder env.PUSH [255]) (script.take 255)) hd
        have ht : (script.take 255).length = 255 := by
          simp only [List.length_take]
          omega
        refine ⟨script.take 255 :: cs, ?_, ?_, ?_, ?_⟩
        · rw [pushChunks]
          simp only [h0, h1, if_false]
          rw [hcs]
          simp [encodeChunks, AddOp, AddBytes, ht]
        · simp only [List.length_cons, hn, List.length_drop]
          omega
        · intro c hc
          rcases List.mem_cons.mp hc with rfl | hc
          · omega
          · exact hb c hc
        · simp [concatChunks, hj]

/-- C9: at a nested script-hash slot that is not followed by a Push token and whose redeem
script `s` the script resolver returns, one iteration of the scan loop of `signMultiSig`
writes the slot and then Push tokens `PUSH len(c) c` for chunks `c` of `s`: there are
ceil(len(s)/255) of them, each declares its own data length, which is at most 255, and
the chunks concatenated in order are `s`; the scan goes on after the slot with the
counter incremented. -/
theorem C9_script_hash_chunks (env : Env) (recurse : Bytes → Outcome MSResult)
    (pre hash rest : Bytes) (nx hashType : Nat) (builder : ScriptBuilder) (signed : Nat)
    (ps : Address) (s : Bytes)
    (hlen : hash.length = 20)
    (hpk : env.ScriptHashAddrID ≠ env.PubKeyHashAddrID)
    (hms : env.ScriptHashAddrID ≠ env.MultiSigAddrID)
    (hnx : nx ≠ env.PUSH)
    (hps : env.NewAddressScriptHash hash = Except.ok ps)
    (hs : env.GetScript ps = (some s, none)) :
    ∃ chunks : List Bytes,
      msBody env recurse (pre ++ (env.PUSH :: 21 :: env.ScriptHashAddrID :: (hash ++ nx :: rest)))
          hashType ⟨pre.length, builder, signed⟩ =
        Outcome.ok (Step.next ⟨pre.length + 23,
          builder ++ (env.PUSH :: 21 :: env.ScriptHashAddrID :: hash) ++ encodeChunks env chunks,
          signed + 1⟩) ∧
      chunks.length = (s.length + 254) / 255 ∧
      (∀ c ∈ chunks, 0 < c.length ∧ c.length ≤ 255) ∧
      concatChunks chunks = s := by
  obtain ⟨chunks, hc, hn, hb, hj⟩ := pushChunks_spec env (s.length + 1) s
    (builder ++ (env.PUSH :: 21 :: env.ScriptHashAddrID :: hash)) (by omega)
  refine ⟨chunks, ?_, hn, hb, hj⟩
  have h20 : slice (hash ++ nx :: rest) 0 20 = Outcome.ok hash :=
    hlen ▸ slice_zero_append hash (nx :: rest)
  have h21 : idx (hash ++ nx :: rest) 20 = Outcome.ok nx := by
    have h := idx_append hash (nx :: rest) 0
    rw [hlen] at h
    rw [h]
    simp
  have hc2 : pushChunks env (s.length + 1) s
      (builder ++ env.PUSH :: 21 :: env.ScriptHashAddrID :: hash) =
      Outcome.ok (builder ++ (env.PUSH :: 21 :: env.ScriptHashAddrID :: hash) ++
        encodeChunks env chunks) := hc
  simp [msBody, idx_append_zero, idx_append, AddOp, AddBytes, Nat.add_assoc,
    slice_append, slice_cons_zero_succ, h20, h21, hpk, hms, hnx, hps, hs, hc2]

/-- Witness of `C9_script_hash_chunks`: a 300-byte redeem script at the sample slot,
which stands after the header of a body and before a SignText token. -/
theorem C9_script_hash_chunks_witness :
    ∃ chunks : List Bytes,
      msBody demoSHEnv (fun _ => Outcome.diverge)
          (multisigHeader demoSHEnv 1 1 0 ++
            (demoSHEnv.PUSH :: 21 :: demoSHEnv.ScriptHashAddrID ::
              (List.replicate 20 3 ++ 81 :: [1])))
          1 ⟨(multisigHeader demoSHEnv 1 1 0).length, multisigHeader demoSHEnv 1 1 0, 0⟩ =
        Outcome.ok (Step.next ⟨(multisigHeader demoSHEnv 1 1 0).length + 23,
          multisigHeader demoSHEnv 1 1 0 ++
            (demoSHEnv.PUSH :: 21 :: demoSHEnv.ScriptHashAddrID :: List.replicate 20 3) ++
            encodeChunks demoSHEnv chunks, 0 + 1⟩) ∧
      chunks.length = ((List.replicate 300 6).length + 254) / 255 ∧
      (∀ c ∈ chunks, 0 < c.length ∧ c.length ≤ 255) ∧
      concatChunks chunks = List.replicate 300 6 :=
  C9_script_hash_chunks demoSHEnv (fun _ => Outcome.diverge) (multisigHeader demoSHEnv 1 1 0)
    (List.replicate 20 3) [1] 81 1 (multisigHeader demoSHEnv 1 1 0) 0
    (5 :: List.replicate 20 3) (List.replicate 300 6)
    (by decide) (by decide) (by decide) (by decide) rfl rfl

/-! ## Dispatch in sign and SignTxOutput -/

/-- C11: when the classifier returns, without error, the class NullData or a class other
than PubKeyHash, ScriptHash, MultiSig and NullData, `sign` returns a nil script with the
NULLDATA error respectively the unknown-transactions error, and `SignTxOutput` returns
that error with a nil script, whatever the resolvers, the fuel and `previousScript`. -/
theorem C11_unsignable_classes (env : Env) (fuel : Nat) (subScript previousScript : Bytes)
    (hashType : Nat) (cls : ScriptClass) (addrs : List Address) (n : Nat)
    (hc : env.ExtractPkScriptAddrs subScript = (cls, addrs, n, none)) :
    (cls = ScriptClass.NullDataTy →
      sign env fuel subScript previousScript hashType =
        Outcome.ok ⟨none, ScriptClass.NullDataTy, none, 0, some Error.nullData⟩ ∧
      SignTxOutput env fuel subScript hashType previousScript =
        Outcome.ok (none, some Error.nullData)) ∧
    (∀ c : Nat, cls = ScriptClass.OtherTy c →
      sign env fuel subScript previousScript hashType =
        Outcome.ok ⟨none, ScriptClass.OtherTy c, none, 0, some Error.unknownTx⟩ ∧
      SignTxOutput env fuel subScript hashType previousScript =
        Outcome.ok (none, some Error.unknownTx)) := by
  refine ⟨?_, ?_⟩
  · intro h
    subst h
    have h1 : sign env fuel subScript previousScript hashType =
        Outcome.ok ⟨none, ScriptClass.NullDataTy, none, 0, some Error.nullData⟩ := by
      simp [sign, hc]
    exact ⟨h1, by simp [SignTxOutput, h1]⟩
  · intro c h
    subst h
    have h1 : sign env fuel subScript previousScript hashType =
        Outcome.ok ⟨none, ScriptClass.OtherTy c, none, 0, some Error.unknownTx⟩ := by
      simp [sign, hc]
    exact ⟨h1, by simp [SignTxOutput, h1]⟩

/-- Witness of `C11_unsignable_classes`: a 3-byte script, which the sample classifier puts
in no signable class. -/
theorem C11_unsignable_classes_witness :
    (demoEnv (keysOf [9]) noScripts).ExtractPkScriptAddrs [1, 2, 3] =
      (ScriptClass.OtherTy 0, [], 0, none) ∧
    SignTxOutput (demoEnv (keysOf [9]) noScripts) 5 [1, 2, 3] 1 [7] =
      Outcome.ok (none, some Error.unknownTx) :=
  ⟨by decide,
    ((C11_unsignable_classes (demoEnv (keysOf [9]) noScripts) 5 [1, 2, 3] [7] 1
      (ScriptClass.OtherTy 0) [] 0 (by decide)).2 0 rfl).2⟩

theorem msBody_bad_byte (env : Env) (recurse : Bytes → Outcome MSResult)
    (subScript : Bytes) (hashType : Nat) (st : MSState) (b : Nat)
    (hb : subScript[st.i]? = some b) (h1 : b ≠ env.PUSH) (h2 : b ≠ env.SIGNTEXT) :
    msBody env recurse subScript hashType st = Outcome.ok Step.malformed := by
  simp [msBody, idx_of_getElem? hb, h1, h2]

theorem msLoop_of_iter (env : Env) (recurse : Bytes → Outcome MSResult) (subScript : Bytes)
    (hashType : Nat) :
    ∀ (k : Nat) (st st2 : MSState) (f : Nat),
      msIter env recurse subScript hashType k st = some st2 →
      msLoop env recurse subScript hashType (k + f) st =
        msLoop env recurse subScript hashType f st2 := by
  intro k
  induction k with
  | zero =>
    intro st st2 f h
    simp only [msIter, Option.some.injEq] at h
    subst h
    simp
  | succ k ih =>
    intro st st2 f h
    have hk : k + 1 + f = (k + f) + 1 := by omega
    rw [hk, msLoop]
    unfold msIter at h
    by_cases hlt : st.i < subScript.length
    · rw [if_pos hlt] at h
      rw [if_pos hlt]
      cases hb : msBody env recurse subScript hashType st with
      | ok step =>
        cases step with
        | next st' =>
          rw [hb] at h
          exact ih st' st2 f h
        | malformed =>
          rw [hb] at h
          cases h
      | crash =>
        rw [hb] at h
        cases h
      | diverge =>
        rw [hb] at h
        cases h
    · rw [if_neg hlt] at h
      cases h

/-- C12, as amended: for a MultiSig lock whose body to resolve (the non-empty
`previousScript`, or else the fetched redeem script) has, at a slot boundary that the scan
reaches after `k` iterations, a byte that is neither PUSH nor SIGNTEXT, `signMultiSig`
(with fuel above `k`) returns (nil, 0, false) and `SignTxOutput` returns a nil script and
no error. -/
theorem C12_malformed_returns_nil (env : Env) (fuel : Nat) (lock previousScript : Bytes)
    (hashType : Nat) (a : Address) (rest : List Address) (n : Nat) (body : Bytes)
    (st0 st : MSState) (nRequired k b : Nat)
    (hc : env.ExtractPkScriptAddrs lock = (ScriptClass.MultiSigTy, a :: rest, n, none))
    (hbody : (previousScript ≠ [] ∧ body = previousScript) ∨
      (previousScript = [] ∧ env.GetScript a = (some body, none)))
    (hh : msHeader env body = Outcome.ok (st0, nRequired))
    (hk : msIter env (fun s => signMultiSig env hashType fuel s) body hashType k st0 = some st)
    (hfuel : k < fuel)
    (hb : body[st.i]? = some b) (hb1 : b ≠ env.PUSH) (hb2 : b ≠ env.SIGNTEXT) :
    signMultiSig env hashType (fuel + 1) body = Outcome.ok ⟨none, 0, false⟩ ∧
    SignTxOutput env (fuel + 1) lock hashType previousScript = Outcome.ok (none, none) := by
  obtain ⟨f, hf⟩ : ∃ f, fuel = k + (f + 1) := ⟨fuel - k - 1, by omega⟩
  have hlt : st.i < body.length := by
    rcases Nat.lt_or_ge st.i body.length with h | h
    · exact h
    · rw [List.getElem?_eq_none h] at hb
      cases hb
  have hl : msLoop env (fun s => signMultiSig env hashType fuel s) body hashType fuel st0 =
      Outcome.ok ScanEnd.malformed := by
    have key : ∀ g, g = k + (f + 1) →
        msLoop env (fun s => signMultiSig env hashType fuel s) body hashType g st0 =
          Outcome.ok ScanEnd.malformed := by
      intro g hg
      subst hg
      rw [msLoop_of_iter env _ body hashType k st0 st (f + 1) hk, msLoop, if_pos hlt,
        msBody_bad_byte env _ body hashType st b hb hb1 hb2]
    exact key fuel hf
  have h1 : signMultiSig env hashType (fuel + 1) body = Outcome.ok ⟨none, 0, false⟩ := by
    rw [signMultiSig, hh]
    simp only [Outcome.ok_bind]
    rw [hl]
    simp [msFinish]
  refine ⟨h1, ?_⟩
  have h2 : sign env (fuel + 1) lock previousScript hashType =
      Outcome.ok ⟨none, ScriptClass.MultiSigTy, some (a :: rest), 0, none⟩ := by
    rcases hbody with ⟨hp, rfl⟩ | ⟨hp, hg⟩
    · have hpos : 0 < body.length := List.length_pos.mpr hp
      simp [sign, hc, hpos, h1]
    · subst hp
      simp [sign, hc, hg, h1]
  simp [SignTxOutput, h2]

/-- Witness of `C12_malformed_returns_nil`: the sample multisig lock whose registered
redeem script is the broken sample body; after one iteration (the member is signed) the
scan stands at offset 33, where the byte is 153. -/
theorem C12_malformed_returns_nil_witness :
    signMultiSig (demoEnv (keysOf [9]) (scriptsOf demoMSAddr demoBrokenBody)) 1 (4 + 1)
      demoBrokenBody = Outcome.ok ⟨none, 0, false⟩ ∧
    SignTxOutput (demoEnv (keysOf [9]) (scriptsOf demoMSAddr demoBrokenBody)) (4 + 1)
      demoMSLock 1 [] = Outcome.ok (none, none) :=
  C12_malformed_returns_nil (demoEnv (keysOf [9]) (scriptsOf demoMSAddr demoBrokenBody)) 4
    demoMSLock [] 1 demoMSAddr [] 1 demoBrokenBody ⟨8, [80, 4, 1, 0, 1, 0, 81, 0], 0⟩
    ⟨33, [80, 4, 1, 0, 1, 0, 81, 0] ++
      signedSlot (demoEnv (keysOf [9]) noScripts) 1 (List.replicate 20 9) 9 (demoSig 9) [], 1⟩
    1 1 153 (by decide) (Or.inr ⟨rfl, by decide⟩) (by decide) (by decide) (by decide)
    (by decide) (by decide) (by decide)

/-- C12 as stated fails: the sample multisig lock is classified MultiSig, its registered
redeem script is the broken sample body, whose byte at the slot boundary 33 is 153, neither
PUSH nor SIGNTEXT; yet `SignTxOutput` returns no error (and a nil script). -/
theorem C12_no_error_counterexample :
    (demoEnv (keysOf [9]) (scriptsOf demoMSAddr demoBrokenBody)).ExtractPkScriptAddrs
      demoMSLock = (ScriptClass.MultiSigTy, [demoMSAddr], 1, none) ∧
    (demoEnv (keysOf [9]) (scriptsOf demoMSAddr demoBrokenBody)).GetScript demoMSAddr =
      (some demoBrokenBody, none) ∧
    (msIter (demoEnv (keysOf [9]) (scriptsOf demoMSAddr demoBrokenBody))
      (fun s => signMultiSig (demoEnv (keysOf [9]) (scriptsOf demoMSAddr demoBrokenBody)) 1 4 s)
      demoBrokenBody 1 1 ⟨8, [80, 4, 1, 0, 1, 0, 81, 0], 0⟩).map (fun st => st.i) = some 33 ∧
    demoBrokenBody[33]? = some 153 ∧
    SignTxOutput (demoEnv (keysOf [9]) (scriptsOf demoMSAddr demoBrokenBody)) 5
      demoMSLock 1 [] = Outcome.ok (none, none) := by
  refine ⟨by decide, by decide, by decide, by decide, by decide⟩

theorem SignTxOutput_missing_script (env : Env) (fuel : Nat) (lock previousScript : Bytes)
    (hashType : Nat) (a : Address) (rest : List Address) (n : Nat)
    (hc : env.ExtractPkScriptAddrs lock = (ScriptClass.ScriptHashTy, a :: rest, n, none))
    (hg : env.GetScript a = (none, none)) :
    sign env fuel lock previousScript hashType =
      Outcome.ok ⟨none, ScriptClass.ScriptHashTy, none, 0, none⟩ ∧
    SignTxOutput env fuel lock hashType previousScript =
      (sign env fuel [] previousScript hashType >>= fun r2 =>
        match r2.err with
        | some err => Outcome.ok (none, some err)
        | none =>
          match r2.script with
          | some s => Outcome.ok (some (env.PUSH :: 0 :: s), none)
          | none => Outcome.ok (none, none)) := by
  have h1 : sign env fuel lock previousScript hashType =
      Outcome.ok ⟨none, ScriptClass.ScriptHashTy, none, 0, none⟩ := by
    simp [sign, hc, hg]
  refine ⟨h1, ?_⟩
  simp only [SignTxOutput, h1, Outcome.ok_bind, bytesOf, Option.getD_none, if_true]
  cases hs : sign env fuel [] previousScript hashType with
  | ok r2 =>
    simp only [Outcome.ok_bind]
    cases r2.err with
    | some e => rfl
    | none =>
      cases r2.script with
      | some s => simp [NewScriptBuilder, AddOp, AddBytes, Script]
      | none => rfl
  | crash => rfl
  | diverge => rfl

/-- C13 fails on the code: the sample script-hash lock is classified ScriptHash and the
script resolver returns no script and no error for its address; `sign` returns a nil script
and no error, but `SignTxOutput` then dispatches the nil script, which the classifier puts
in no signable class, and returns the unknown-transactions error. -/
theorem C13_missing_script_is_error :
    (demoEnv (keysOf [9]) noScripts).ExtractPkScriptAddrs demoP2SHLock =
      (ScriptClass.ScriptHashTy, [demoP2SHAddr], 1, none) ∧
    (demoEnv (keysOf [9]) noScripts).GetScript demoP2SHAddr = (none, none) ∧
    sign (demoEnv (keysOf [9]) noScripts) 0 demoP2SHLock [] 1 =
      Outcome.ok ⟨none, ScriptClass.ScriptHashTy, none, 0, none⟩ ∧
    SignTxOutput (demoEnv (keysOf [9]) noScripts) 0 demoP2SHLock 1 [] =
      Outcome.ok (none, some Error.unknownTx) := by
  refine ⟨by decide, by decide, by decide, by decide⟩

/-! ## The public key written for a signed slot -/

theorem signedSlot_layout (env : Env) (hashType : Nat) (hash : Bytes) (key : PrivateKey)
    (sig : Bytes) (builder : ScriptBuilder) :
    signedSlot env hashType hash key sig builder =
      builder ++ signatureScriptBytes env (chosenPubKey env hash key) sig hashType := by
  unfold signedSlot chosenPubKey signatureScriptBytes
  by_cases h : env.Hash160 (env.SerializeCompressed key) = hash
  · have h2 : ¬ (hash ≠ env.Hash160 (env.SerializeCompressed key)) := fun hn => hn h.symm
    simp [h, AddOp, AddByte, AddBytes]
  · have h2 : hash ≠ env.Hash160 (env.SerializeCompressed key) := fun hn => h hn.symm
    simp [h, h2, AddOp, AddByte, AddBytes]

/-- C14: when one iteration of the scan of `signMultiSig` signs a pubkey-hash slot (the key
resolver returns a key, with any compression flag, and signing succeeds), it writes PUSH,
0, len(pk), pk, PUSH, 0, len(sig), sig, SIGNTEXT, hashType, where pk is the compressed
serialization when the Hash160 of the compressed serialization is the hash stored in the
slot, and the uncompressed serialization in every other case. -/
theorem C14_pubkey_encoding_choice (env : Env) (recurse : Bytes → Outcome MSResult)
    (pre rest : Bytes) (m : Member) (hashType : Nat) (builder : ScriptBuilder) (signed : Nat)
    (key : PrivateKey) (c : Bool) (sig : Bytes)
    (hlen : m.hash.length = 20)
    (hk : env.GetKey (env.NewAddressPubKeyHash m.hash) = (some key, c, none))
    (hs : RawTxInSignature env [env.SIGNTEXT, hashType % 256] key = (some sig, none)) :
    msBody env recurse (pre ++ (memberBytes env m ++ rest)) hashType
        ⟨pre.length, builder, signed⟩ =
      Outcome.ok (Step.next ⟨pre.length + 25,
        builder ++ signatureScriptBytes env (chosenPubKey env m.hash key) sig hashType,
        signed + 1⟩) ∧
    (env.Hash160 (env.SerializeCompressed key) = m.hash →
      chosenPubKey env m.hash key = env.SerializeCompressed key) ∧
    (env.Hash160 (env.SerializeCompressed key) ≠ m.hash →
      chosenPubKey env m.hash key = env.SerializeUncompressed key) ∧
    (env.SerializeCompressed key ≠ env.SerializeUncompressed key →
      (chosenPubKey env m.hash key = env.SerializeCompressed key ↔
        env.Hash160 (env.SerializeCompressed key) = m.hash)) := by
  have hu : usableKey env hashType m = some (key, sig) := by
    simp [usableKey, keyOf, hk, hs]
  have hshape : pre ++ (memberBytes env m ++ rest) =
      pre ++ (slotBytes env m ++ (env.SIGNTEXT :: m.text :: rest)) := by
    simp [memberBytes]
  refine ⟨?_, ?_, ?_, ?_⟩
  · rw [hshape, msBody_pkh env recurse pre _ m hashType builder signed hlen, hu]
    simp [signedSlot_layout]
  · intro h
    simp [chosenPubKey, h]
  · intro h
    simp [chosenPubKey, h]
  · intro hne
    unfold chosenPubKey
    by_cases h : env.Hash160 (env.SerializeCompressed key) = m.hash
    · simp [h]
    · simp [h, hne.symm]

/-- Witness of `C14_pubkey_encoding_choice`: in the sample environment the member of key 9
stores the Hash160 of the compressed key, and the compressed key is written, although the
key resolver here reports the key as not compressed. -/
theorem C14_pubkey_encoding_choice_witness :
    msBody (demoEnv (fun _ => (some 9, false, none)) noScripts) (fun _ => Outcome.diverge)
        ([80, 4, 1, 0, 1, 0, 81, 0] ++
          (memberBytes (demoEnv (fun _ => (some 9, false, none)) noScripts) (demoMember 9) ++ []))
        1 ⟨([80, 4, 1, 0, 1, 0, 81, 0] : Bytes).length, [80, 4, 1, 0, 1, 0, 81, 0], 0⟩ =
      Outcome.ok (Step.next ⟨([80, 4, 1, 0, 1, 0, 81, 0] : Bytes).length + 25,
        [80, 4, 1, 0, 1, 0, 81, 0] ++
          signatureScriptBytes (demoEnv (fun _ => (some 9, false, none)) noScripts)
            (chosenPubKey (demoEnv (fun _ => (some 9, false, none)) noScripts)
              (demoMember 9).hash 9) (demoSig 9) 1,
        0 + 1⟩) ∧
    chosenPubKey (demoEnv (fun _ => (some 9, false, none)) noScripts) (demoMember 9).hash 9 =
      2 :: List.replicate 32 9 :=
  ⟨(C14_pubkey_encoding_choice (demoEnv (fun _ => (some 9, false, none)) noScripts)
      (fun _ => Outcome.diverge) [80, 4, 1, 0, 1, 0, 81, 0] [] (demoMember 9) 1
      [80, 4, 1, 0, 1, 0, 81, 0] 0 9 false (demoSig 9) (by decide) (by decide) (by decide)).1,
   (C14_pubkey_encoding_choice (demoEnv (fun _ => (some 9, false, none)) noScripts)
      (fun _ => Outcome.diverge) [80, 4, 1, 0, 1, 0, 81, 0] [] (demoMember 9) 1
      [80, 4, 1, 0, 1, 0, 81, 0] 0 9 false (demoSig 9) (by decide) (by decide)
      (by decide)).2.1 (by decide)⟩

/-! ## The builder only grows -/

theorem copyPushes_grows (env : Env) (subScript : Bytes) :
    ∀ (fuel i : Nat) (b : ScriptBuilder) (r : Nat × ScriptBuilder),
      copyPushes env subScript fuel i b = Outcome.ok r → ∃ ext, r.2 = b ++ ext := by
  intro fuel
  induction fuel with
  | zero =>
    intro i b r h
    simp [copyPushes] at h
  | succ f ih =>
    intro i b r h
    rw [copyPushes] at h
    obtain ⟨op, _, h⟩ := Outcome.bind_eq_ok h
    split at h
    · obtain ⟨pushed, _, h⟩ := Outcome.bind_eq_ok h
      obtain ⟨data, _, h⟩ := Outcome.bind_eq_ok h
      obtain ⟨ext, he⟩ := ih _ _ _ h
      exact ⟨env.PUSH :: pushed :: data ++ ext, by simp [he, AddOp, AddBytes]⟩
    · simp only [Outcome.pure_eq, Outcome.ok.injEq] at h
      subst h
      exact ⟨[], by simp⟩

theorem mergeLoop_grows (env : Env) (sig subScript : Bytes) :
    ∀ (fuel j : Nat) (b r : ScriptBuilder),
      mergeLoop env sig subScript fuel j b = Outcome.ok r → ∃ ext, r = b ++ ext := by
  intro fuel
  induction fuel with
  | zero =>
    intro j b r h
    simp [mergeLoop] at h
  | succ f ih =>
    intro j b r h
    rw [mergeLoop] at h
    split at h
    · obtain ⟨op, _, h⟩ := Outcome.bind_eq_ok h
      split at h
      · obtain ⟨pushed, _, h⟩ := Outcome.bind_eq_ok h
        obtain ⟨data, _, h⟩ := Outcome.bind_eq_ok h
        obtain ⟨ext, he⟩ := ih _ _ _ h
        exact ⟨env.PUSH :: pushed :: data ++ ext, by simp [he, AddOp, AddBytes]⟩
      · split at h
        · obtain ⟨x, _, h⟩ := Outcome.bind_eq_ok h
          obtain ⟨ext, he⟩ := ih _ _ _ h
          exact ⟨env.SIGNTEXT :: x :: ext, by simp [he, AddOp]⟩
        · cases h
    · simp only [Outcome.pure_eq, Outcome.ok.injEq] at h
      subst h
      exact ⟨[], by simp⟩

theorem pushChunks_grows (env : Env) :
    ∀ (fuel : Nat) (script : Bytes) (b r : ScriptBuilder),
      pushChunks env fuel script b = Outcome.ok r → ∃ ext, r = b ++ ext := by
  intro fuel
  induction fuel with
  | zero =>
    intro script b r h
    simp [pushChunks] at h
  | succ f ih =>
    intro script b r h
    rw [pushChunks] at h
    split at h
    · simp only [Outcome.pure_eq, Outcome.ok.injEq] at h
      subst h
      exact ⟨[], by simp⟩
    · split at h
      · simp only [Outcome.pure_eq, Outcome.ok.injEq] at h
        subst h
        exact ⟨_, by simp only [AddOp, AddBytes, List.append_assoc]; rfl⟩
      · obtain ⟨ext, he⟩ := ih _ _ _ h
        exact ⟨env.PUSH :: 255 :: script.take 255 ++ ext, by simp [he, AddOp, AddBytes]⟩

theorem StepGrows.bind {α : Type} (b : ScriptBuilder) (x : Outcome α) (f : α → Outcome Step)
    (h : ∀ a, x = Outcome.ok a → StepGrows b (f a)) : StepGrows b (x >>= f) := by
  unfold StepGrows
  intro st hst
  obtain ⟨a, ha, hf⟩ := Outcome.bind_eq_ok hst
  have h2 := h a ha
  unfold StepGrows at h2
  exact h2 st hf

theorem StepGrows.next (b : ScriptBuilder) (st : MSState) (h : ∃ ext, st.builder = b ++ ext) :
    StepGrows b (Outcome.ok (Step.next st)) := by
  unfold StepGrows
  intro st2 h2
  simp only [Outcome.ok.injEq, Step.next.injEq] at h2
  subst h2
  exact h

theorem StepGrows.malformed (b : ScriptBuilder) :
    StepGrows b (Outcome.ok Step.malformed) := by
  unfold StepGrows
  intro st h
  cases h

theorem msBody_grows (env : Env) (recurse : Bytes → Outcome MSResult) (subScript : Bytes)
    (hashType : Nat) (st : MSState) :
    StepGrows st.builder (msBody env recurse subScript hashType st) := by
  unfold msBody
  simp only [Outcome.pure_eq]
  repeat' first
    | (apply StepGrows.bind; intro _ _)
    | apply StepGrows.next
    | apply StepGrows.malformed
    | split
  all_goals first
    | exact ⟨[], (List.append_nil _).symm⟩
    | exact ⟨_, by simp only [AddOp, AddBytes, List.append_assoc]; rfl⟩
    | exact ⟨_, signedSlot_append _ _ _ _ _ _⟩
    | exact copyPushes_grows _ _ _ _ _ _ (by assumption)
    | (obtain ⟨ext, he⟩ := mergeLoop_grows _ _ _ _ _ _ _ (by assumption)
       exact ⟨_, by simp only [he, AddOp, AddBytes, List.append_assoc]; rfl⟩)
    | (obtain ⟨ext, he⟩ := pushChunks_grows _ _ _ _ _ (by assumption)
       exact ⟨_, by simp only [he, AddOp, AddBytes, List.append_assoc]; rfl⟩)

theorem msLoop_grows (env : Env) (recurse : Bytes → Outcome MSResult) (subScript : Bytes)
    (hashType : Nat) :
    ∀ (fuel : Nat) (st : MSState) (b : ScriptBuilder) (signed : Nat),
      msLoop env recurse subScript hashType fuel st =
        Outcome.ok (ScanEnd.completed b signed) → ∃ ext, b = st.builder ++ ext := by
  intro fuel
  induction fuel with
  | zero =>
    intro st b signed h
    simp [msLoop] at h
  | succ f ih =>
    intro st b signed h
    rw [msLoop] at h
    split at h
    · cases hb : msBody env recurse subScript hashType st with
      | ok step =>
        cases step with
        | next st' =>
          rw [hb] at h
          obtain ⟨ext, he⟩ := ih st' b signed h
          have hg := msBody_grows env recurse subScript hashType st
          unfold StepGrows at hg
          obtain ⟨ext2, he2⟩ := hg st' hb
          exact ⟨ext2 ++ ext, by rw [he, he2, List.append_assoc]⟩
        | malformed =>
          rw [hb] at h
          cases h
      | crash =>
        rw [hb] at h
        cases h
      | diverge =>
        rw [hb] at h
        cases h
    · simp only [Outcome.ok.injEq, ScanEnd.completed.injEq] at h
      exact ⟨[], by rw [← h.1, List.append_nil]⟩

theorem msHeader_length (env : Env) (body : Bytes) (st0 : MSState) (nRequired : Nat)
    (hh : msHeader env body = Outcome.ok (st0, nRequired)) : 8 ≤ body.length := by
  unfold msHeader at hh
  obtain ⟨n, _, hh⟩ := Outcome.bind_eq_ok hh
  obtain ⟨d, _, hh⟩ := Outcome.bind_eq_ok hh
  obtain ⟨t, ht, hh⟩ := Outcome.bind_eq_ok hh
  unfold idx at ht
  rcases Nat.lt_or_ge 7 body.length with h | h
  · omega
  · rw [List.getElem?_eq_none h] at ht
    cases ht

theorem msHeader_builder (env : Env) (body : Bytes) (st0 : MSState) (nRequired : Nat)
    (hh : msHeader env body = Outcome.ok (st0, nRequired))
    (h0 : body[0]? = some env.PUSH) (h1 : body[1]? = some 4)
    (h6 : body[6]? = some env.SIGNTEXT) :
    st0.builder = body.take 8 := by
  have hlen := msHeader_length env body st0 nRequired hh
  rcases body with _ | ⟨b0, _ | ⟨b1, _ | ⟨b2, _ | ⟨b3, _ | ⟨b4, _ | ⟨b5, _ | ⟨b6, _ | ⟨b7, rest⟩⟩⟩⟩⟩⟩⟩⟩
  all_goals simp only [List.length_cons, List.length_nil] at hlen
  all_goals try omega
  simp only [List.getElem?_cons_zero, List.getElem?_cons_succ, Option.some.injEq] at h0 h1 h6
  subst h0 h1 h6
  simp [msHeader, idx, slice, NewScriptBuilder, AddOp, AddBytes] at hh
  rw [← hh.1]
  simp

/-- C17, as amended: for every body whose byte 0 is PUSH, byte 1 is 4 and byte 6 is
SIGNTEXT, when `signMultiSig` returns a non-nil script, the first 8 bytes of that script are
the first 8 bytes of the body, and the returned required count is the little-endian 16-bit
value in bytes 4..5 of the body. -/
theorem C17_header_copied (env : Env) (hashType fuel : Nat) (body script : Bytes)
    (required : Nat) (fulfilled : Bool)
    (hr : signMultiSig env hashType fuel body = Outcome.ok ⟨some script, required, fulfilled⟩)
    (h0 : body[0]? = some env.PUSH) (h1 : body[1]? = some 4)
    (h6 : body[6]? = some env.SIGNTEXT) :
    script.take 8 = body.take 8 ∧
    required = body.getD 4 0 + 256 * body.getD 5 0 := by
  cases fuel with
  | zero => simp [signMultiSig] at hr
  | succ f =>
    rw [signMultiSig] at hr
    obtain ⟨⟨st0, nReq⟩, hh, hr⟩ := Outcome.bind_eq_ok hr
    obtain ⟨e, hl, hr⟩ := Outcome.bind_eq_ok hr
    simp only [Outcome.pure_eq, Outcome.ok.injEq] at hr
    have hlen := msHeader_length env body st0 nReq hh
    cases e with
    | malformed => simp [msFinish] at hr
    | completed b signed =>
      by_cases hs : signed = 0
      · simp [msFinish, hs] at hr
      · simp only [msFinish, hs, if_false, MSResult.mk.injEq, Option.some.injEq, Script] at hr
        obtain ⟨hb, hn, _⟩ := hr
        obtain ⟨ext, he⟩ := msLoop_grows env _ body hashType f st0 b signed hl
        have hb8 := msHeader_builder env body st0 nReq hh h0 h1 h6
        refine ⟨?_, ?_⟩
        · rw [← hb, he, hb8]
          have hl8 : (body.take 8).length = 8 := by
            simp only [List.length_take]
            omega
          rw [List.take_append_of_le_length (by omega), List.take_take]
          simp
        · rw [← hn]
          exact msHeader_nRequired env body st0 nReq hh

/-- Witness of `C17_header_copied`: a 2-of-2 body resolved with one key. -/
theorem C17_header_copied_witness :
    ((multisigHeader (demoEnv (keysOf [9]) noScripts) 2 2 0 ++
        (memberBytes (demoEnv (keysOf [9]) noScripts) (demoMember 0) ++
         signedSlot (demoEnv (keysOf [9]) noScripts) 1 (List.replicate 20 9) 9 (demoSig 9) [])
      ).take 8 =
      (multisigBody (demoEnv (keysOf [9]) noScripts) 2 2 0
        [demoMember 0, demoMember 9]).take 8) ∧
    2 = (multisigBody (demoEnv (keysOf [9]) noScripts) 2 2 0
        [demoMember 0, demoMember 9]).getD 4 0 +
      256 * (multisigBody (demoEnv (keysOf [9]) noScripts) 2 2 0
        [demoMember 0, demoMember 9]).getD 5 0 :=
  C17_header_copied (demoEnv (keysOf [9]) noScripts) 1 8
    (multisigBody (demoEnv (keysOf [9]) noScripts) 2 2 0 [demoMember 0, demoMember 9])
    (multisigHeader (demoEnv (keysOf [9]) noScripts) 2 2 0 ++
        (memberBytes (demoEnv (keysOf [9]) noScripts) (demoMember 0) ++
         signedSlot (demoEnv (keysOf [9]) noScripts) 1 (List.replicate 20 9) 9 (demoSig 9) []))
    2 false (by decide) (by decide) (by decide) (by decide)

/-- C17 as stated fails: for the sample body whose first byte is 153, `signMultiSig`
returns a non-nil script, the header rebuilt with the PUSH opcode in front, and the first
8 bytes of that script are not the first 8 bytes of the body. -/
theorem C17_header_counterexample :
    signMultiSig (demoEnv (keysOf [9]) noScripts) 1 8 demoOddHeaderBody =
      Outcome.ok ⟨some ([80, 4, 1, 0, 1, 0, 81, 0] ++
        signedSlot (demoEnv (keysOf [9]) noScripts) 1 (List.replicate 20 9) 9 (demoSig 9) []),
        1, true⟩ ∧
    ([80, 4, 1, 0, 1, 0, 81, 0] ++
        signedSlot (demoEnv (keysOf [9]) noScripts) 1 (List.replicate 20 9) 9 (demoSig 9) []
      ).take 8 ≠ demoOddHeaderBody.take 8 := by
  refine ⟨by decide, by decide⟩

/-! ## Nested-multisig slots -/

/-- C18 fails on the code.  In the sample body a nested-multisig slot stands at offset 8,
followed by its SignText token and by the member of key 9 at offset 33; the script resolver
has no script for the slot and the key resolver has key 9.  The iteration at the slot
copies the slot and goes on at offset 23, inside the slot, not at 31; there the byte is 3
and `signMultiSig` returns (nil, 0, false).  Without the nested slot the member is
signed. -/
theorem C18_nested_slot_not_skipped :
    (demoEnv (keysOf [9]) noScripts).GetScript demoNestedAddr = (none, none) ∧
    msBody (demoEnv (keysOf [9]) noScripts) (fun _ => Outcome.diverge) demoSkipBody 1
        ⟨8, [80, 4, 2, 0, 1, 0, 81, 0], 0⟩ =
      Outcome.ok (Step.next ⟨23, [80, 4, 2, 0, 1, 0, 81, 0] ++ demoNestedSlot, 0⟩) ∧
    demoSkipBody[23]? = some 3 ∧
    signMultiSig (demoEnv (keysOf [9]) noScripts) 1 8 demoSkipBody =
      Outcome.ok ⟨none, 0, false⟩ ∧
    signMultiSig (demoEnv (keysOf [9]) noScripts) 1 8
        ([80, 4, 2, 0, 1, 0, 81, 0] ++ (80 :: 21 :: 0 :: List.replicate 20 9 ++ [81, 1])) =
      Outcome.ok ⟨some ([80, 4, 2, 0, 1, 0, 81, 0] ++
        signedSlot (demoEnv (keysOf [9]) noScripts) 1 (List.replicate 20 9) 9 (demoSig 9) []),
        1, true⟩ := by
  refine ⟨by decide, by decide, by decide, by decide, by decide⟩

theorem demoLoopBody_step (recurse : Bytes → Outcome MSResult) (b : ScriptBuilder) (s : Nat) :
    msBody (demoEnv (keysOf []) noScripts) recurse demoLoopBody 1 ⟨23, b, s⟩ =
      Outcome.ok (Step.next ⟨23,
        AddBytes (AddOp b 80 [21]) (103 :: List.replicate 20 3), s⟩) := by
  rfl

theorem demoLoopBody_spins (recurse : Bytes → Outcome MSResult) :
    ∀ (fuel : Nat) (b : ScriptBuilder) (s : Nat),
      msLoop (demoEnv (keysOf []) noScripts) recurse demoLoopBody 1 fuel ⟨23, b, s⟩ =
        Outcome.diverge := by
  intro fuel
  induction fuel with
  | zero => intro b s; rfl
  | succ f ih =>
    intro b s
    have hlt : 23 < demoLoopBody.length := by decide
    rw [msLoop, if_pos (show (⟨23, b, s⟩ : MSState).i < demoLoopBody.length from hlt),
      demoLoopBody_step]
    exact ih _ _

/-- C19 fails on the code.  The sample body is a well-formed header followed by well-formed
Push and SignText tokens, with a nested-multisig slot at offset 23 whose redeem script the
script resolver does not have.  The iteration at offset 23 copies the slot and leaves the
offset at 23, so the offset does not increase, the slot is scanned again and again, and
`signMultiSig` returns for no amount of fuel. -/
theorem C19_scan_does_not_terminate :
    (∀ (b : ScriptBuilder) (s : Nat),
      msBody (demoEnv (keysOf []) noScripts) (fun _ => Outcome.diverge) demoLoopBody 1
          ⟨23, b, s⟩ =
        Outcome.ok (Step.next ⟨23, b ++ demoNestedSlot, s⟩)) ∧
    (∀ fuel : Nat,
      signMultiSig (demoEnv (keysOf []) noScripts) 1 fuel demoLoopBody = Outcome.diverge) := by
  refine ⟨?_, ?_⟩
  · intro b s
    rw [demoLoopBody_step]
    simp [AddOp, AddBytes, demoNestedSlot]
  · intro fuel
    cases fuel with
    | zero => rfl
    | succ f =>
      have hh : msHeader (demoEnv (keysOf []) noScripts) demoLoopBody =
          Outcome.ok (⟨8, [80, 4, 2, 0, 1, 0, 81, 0], 0⟩, 1) := by decide
      have hl : msLoop (demoEnv (keysOf []) noScripts)
          (fun s => signMultiSig (demoEnv (keysOf []) noScripts) 1 f s) demoLoopBody 1 f
          ⟨8, [80, 4, 2, 0, 1, 0, 81, 0], 0⟩ = Outcome.diverge := by
        have h8 : (8 : Nat) < demoLoopBody.length := by decide
        have h21 : (21 : Nat) < demoLoopBody.length := by decide
        cases f with
        | zero => rfl
        | succ g =>
          have hs1 : msBody (demoEnv (keysOf []) noScripts)
              (fun s => signMultiSig (demoEnv (keysOf []) noScripts) 1 (g + 1) s)
              demoLoopBody 1 ⟨8, [80, 4, 2, 0, 1, 0, 81, 0], 0⟩ =
              Outcome.ok (Step.next ⟨21,
                [80, 4, 2, 0, 1, 0, 81, 0] ++ (80 :: 11 :: List.replicate 11 7), 1⟩) := by
            rfl
          rw [msLoop, if_pos (show (⟨8, [80, 4, 2, 0, 1, 0, 81, 0], 0⟩ : MSState).i <
            demoLoopBody.length from h8), hs1]
          cases g with
          | zero => rfl
          | succ k =>
            have hs2 : ∀ b : ScriptBuilder, msBody (demoEnv (keysOf []) noScripts)
                (fun s => signMultiSig (demoEnv (keysOf []) noScripts) 1 (k + 1 + 1) s)
                demoLoopBody 1 ⟨21, b, 1⟩ =
                Outcome.ok (Step.next ⟨23, AddOp b 81 [1], 1⟩) := by
              intro b
              rfl
            show msLoop _ _ _ _ (k + 1) _ = _
            rw [msLoop, if_pos (show (⟨21, [80, 4, 2, 0, 1, 0, 81, 0] ++
              (80 :: 11 :: List.replicate 11 7), 1⟩ : MSState).i <
              demoLoopBody.length from h21), hs2]
            exact demoLoopBody_spins _ _ _ _
      rw [signMultiSig, hh]
      simp only [Outcome.ok_bind]
      rw [hl]
      rfl

theorem demoOuterBody_step (recurse : Bytes → Outcome MSResult) :
    msBody demoNestedEnv recurse demoOuterBody 1 ⟨8, [80, 4, 1, 0, 1, 0, 81, 0], 0⟩ =
      (recurse demoInnerBody >>= fun r =>
        (mergeLoop demoNestedEnv (bytesOf r.script) demoOuterBody
          ((bytesOf r.script).length + 1) 0
          ([80, 4, 1, 0, 1, 0, 81, 0] ++ demoNestedSlot) >>= fun builder =>
        Outcome.ok (Step.next ⟨23, builder, if r.fulfilled then 0 + 1 else 0⟩))) := by
  rfl

theorem demoInnerBody_result (fuel : Nat) (hf : 4 ≤ fuel) :
    signMultiSig demoNestedEnv 1 fuel demoInnerBody =
      Outcome.ok ⟨some ([80, 4, 1, 0, 1, 0, 81, 0] ++
        signedSlot demoNestedEnv 1 (List.replicate 20 9) 9 (demoSig 9) []), 1, true⟩ := by
  have hb : demoInnerBody = multisigBody demoNestedEnv 1 1 0 [demoMember 9] := by decide
  rw [hb, signMultiSig_members demoNestedEnv 1 1 1 0 [demoMember 9] fuel (by decide)
    (by decide) (by simpa using hf)]
  decide

theorem demoOuterBody_merge :
    mergeLoop demoNestedEnv
      ([80, 4, 1, 0, 1, 0, 81, 0] ++
        signedSlot demoNestedEnv 1 (List.replicate 20 9) 9 (demoSig 9) [])
      demoOuterBody
      (([80, 4, 1, 0, 1, 0, 81, 0] ++
        signedSlot demoNestedEnv 1 (List.replicate 20 9) 9 (demoSig 9) []).length + 1) 0
      ([80, 4, 1, 0, 1, 0, 81, 0] ++ demoNestedSlot) = Outcome.diverge := by
  decide

/-- C20 fails on the code.  The sample body holds a nested-multisig slot followed by its
SignText token; the script resolver returns the 1-of-1 body of key 9 for it, and the
recursive call returns header, signed slot, fulfilled = true.  The merge loop that should
splice that result reads the opcodes from it but the token bytes from the outer body: it
writes PUSH 4 and four outer bytes, SIGNTEXT and the outer byte 7, then PUSH 21 and the
outer slot, and arrives at offset 31 of the result, the public-key byte 9, which is neither
opcode, where it repeats for ever: `signMultiSig` returns for no amount of fuel. -/
theorem C20_nested_result_not_spliced :
    demoNestedEnv.GetScript demoNestedAddr = (some demoInnerBody, none) ∧
    signMultiSig demoNestedEnv 1 8 demoInnerBody =
      Outcome.ok ⟨some ([80, 4, 1, 0, 1, 0, 81, 0] ++
        signedSlot demoNestedEnv 1 (List.replicate 20 9) 9 (demoSig 9) []), 1, true⟩ ∧
    (∀ (fuel : Nat) (b : ScriptBuilder),
      mergeLoop demoNestedEnv
        ([80, 4, 1, 0, 1, 0, 81, 0] ++
          signedSlot demoNestedEnv 1 (List.replicate 20 9) 9 (demoSig 9) [])
        demoOuterBody (fuel + 3) 0 b =
      mergeLoop demoNestedEnv
        ([80, 4, 1, 0, 1, 0, 81, 0] ++
          signedSlot demoNestedEnv 1 (List.replicate 20 9) 9 (demoSig 9) [])
        demoOuterBody fuel 31
        (AddBytes (AddOp (AddOp (AddBytes (AddOp b 80 [4]) [1, 0, 1, 0]) 81 [0]) 80 [21])
          (103 :: List.replicate 20 3))) ∧
    ([80, 4, 1, 0, 1, 0, 81, 0] ++
      signedSlot demoNestedEnv 1 (List.replicate 20 9) 9 (demoSig 9) [])[31]? = some 9 ∧
    (∀ fuel : Nat, signMultiSig demoNestedEnv 1 fuel demoOuterBody = Outcome.diverge) := by
  refine ⟨by decide, by decide, fun _ _ => rfl, by decide, ?_⟩
  intro fuel
  cases fuel with
  | zero => rfl
  | succ f =>
    have hh : msHeader demoNestedEnv demoOuterBody =
        Outcome.ok (⟨8, [80, 4, 1, 0, 1, 0, 81, 0], 0⟩, 1) := by decide
    have hl : msLoop demoNestedEnv (fun s => signMultiSig demoNestedEnv 1 f s) demoOuterBody 1 f
        ⟨8, [80, 4, 1, 0, 1, 0, 81, 0], 0⟩ = Outcome.diverge := by
      have h8 : (8 : Nat) < demoOuterBody.length := by decide
      cases f with
      | zero => rfl
      | succ g =>
        rw [msLoop, if_pos (show (⟨8, [80, 4, 1, 0, 1, 0, 81, 0], 0⟩ : MSState).i <
          demoOuterBody.length from h8), demoOuterBody_step]
        rcases Nat.lt_or_ge (g + 1) 4 with hsmall | hbig
        · have hg : g = 0 ∨ g = 1 ∨ g = 2 := by omega
          rcases hg with rfl | rfl | rfl <;> decide
        · simp only [demoInnerBody_result (g + 1) hbig, Outcome.ok_bind, bytesOf,
            Option.getD_some]
          rw [demoOuterBody_merge]
          rfl
    rw [signMultiSig, hh]
    simp only [Outcome.ok_bind]
    rw [hl]
    rfl

/-! ## A script-hash lock whose redeem script cannot be signed -/

/-- C24: for a ScriptHash lock whose registered redeem script `R` classifies as PubKeyHash
and for whose address the key resolver returns no key and no error, `SignTxOutput` returns
`R` itself, not wrapped in a push, with no error. -/
theorem C24_unsigned_redeem_script_returned (env : Env) (fuel : Nat)
    (pkScript previousScript : Bytes) (hashType : Nat) (a : Address) (rest : List Address)
    (n : Nat) (R : Bytes) (a2 : Address) (rest2 : List Address) (n2 : Nat) (c : Bool)
    (hc : env.ExtractPkScriptAddrs pkScript = (ScriptClass.ScriptHashTy, a :: rest, n, none))
    (hR : env.GetScript a = (some R, none))
    (hc2 : env.ExtractPkScriptAddrs R = (ScriptClass.PubKeyHashTy, a2 :: rest2, n2, none))
    (hk : env.GetKey a2 = (none, c, none)) :
    SignTxOutput env fuel pkScript hashType previousScript = Outcome.ok (some R, none) := by
  have h1 : sign env fuel pkScript previousScript hashType =
      Outcome.ok ⟨some R, ScriptClass.ScriptHashTy, some (a :: rest), n, none⟩ := by
    simp [sign, hc, hR]
  have h2 : sign env fuel R previousScript hashType =
      Outcome.ok ⟨none, ScriptClass.PubKeyHashTy, none, 0, none⟩ := by
    simp [sign, hc2, hk]
  simp [SignTxOutput, h1, h2, bytesOf]

/-- Witness of `C24_unsigned_redeem_script_returned`: the sample script-hash lock whose
redeem script is the sample pubkey-hash lock of key 9, with a key resolver that holds key 3
only. -/
theorem C24_unsigned_redeem_script_returned_witness :
    SignTxOutput (demoEnv (keysOf [3]) (scriptsOf demoP2SHAddr (demoLock 9))) 0
      demoP2SHLock 1 [] = Outcome.ok (some (demoLock 9), none) :=
  C24_unsigned_redeem_script_returned
    (demoEnv (keysOf [3]) (scriptsOf demoP2SHAddr (demoLock 9))) 0 demoP2SHLock [] 1
    demoP2SHAddr [] 1 (demoLock 9) (0 :: List.replicate 20 9) [] 1 false
    (by decide) (by decide) (by decide) (by decide)

/-! ## The scan loop of signMultiSig on groups of data pushes -/

theorem slice_push_data (pre d more : Bytes) (p n : Nat) :
    slice (pre ++ (p :: n :: (d ++ more))) (pre.length + 2) (pre.length + 2 + d.length) =
      Outcome.ok d := by
  have h := slice_append (pre ++ [p, n]) (d ++ more) 0 d.length
  rw [slice_zero_append] at h
  have hl : (pre ++ [p, n]).length = pre.length + 2 := by simp
  rw [hl] at h
  have hs : pre ++ [p, n] ++ (d ++ more) = pre ++ (p :: n :: (d ++ more)) := by simp
  rw [hs] at h
  exact h

theorem length_le_encodeChunks (env : Env) (ds : List Bytes) :
    ds.length ≤ (encodeChunks env ds).length := by
  induction ds with
  | nil => simp
  | cons d ds ih =>
    simp only [encodeChunks, List.length_cons, List.length_append]
    omega

theorem copyPushes_encode (env : Env) (t : Nat) (rest : Bytes) (ht : t ≠ env.PUSH) :
    ∀ (ds : List Bytes) (pre : Bytes) (b : ScriptBuilder) (fuel : Nat), ds.length < fuel →
      copyPushes env (pre ++ (encodeChunks env ds ++ t :: rest)) fuel pre.length b =
        Outcome.ok (pre.length + (encodeChunks env ds).length, b ++ encodeChunks env ds) := by
  intro ds
  induction ds with
  | nil =>
    intro pre b fuel hf
    obtain ⟨f, rfl⟩ : ∃ f, fuel = f + 1 := ⟨fuel - 1, by omega⟩
    simp [copyPushes, encodeChunks, idx_append_zero, ht]
  | cons d ds ih =>
    intro pre b fuel hf
    obtain ⟨f, rfl⟩ : ∃ f, fuel = f + 1 := ⟨fuel - 1, by omega⟩
    have hf2 : ds.length < f := by
      simp only [List.length_cons] at hf
      omega
    have hshape : pre ++ (encodeChunks env (d :: ds) ++ t :: rest) =
        pre ++ (env.PUSH :: d.length :: (d ++ (encodeChunks env ds ++ t :: rest))) := by
      simp [encodeChunks]
    have hshape2 : pre ++ (env.PUSH :: d.length :: (d ++ (encodeChunks env ds ++ t :: rest))) =
        (pre ++ (env.PUSH :: d.length :: d)) ++ (encodeChunks env ds ++ t :: rest) := by
      simp
    have hl : (pre ++ (env.PUSH :: d.length :: d)).length = pre.length + 2 + d.length := by
      simp
      omega
    have h0 : idx (pre ++ (env.PUSH :: d.length :: (d ++ (encodeChunks env ds ++ t :: rest))))
        pre.length = Outcome.ok env.PUSH := by
      rw [idx_append_zero, idx_cons_zero]
    have h1 : idx (pre ++ (env.PUSH :: d.length :: (d ++ (encodeChunks env ds ++ t :: rest))))
        (pre.length + 1) = Outcome.ok d.length := by
      rw [idx_append, idx_cons_succ, idx_cons_zero]
    rw [hshape, copyPushes]
    simp only [h0, h1, Outcome.ok_bind, if_true, slice_push_data]
    rw [hshape2, ← hl, ih (pre ++ (env.PUSH :: d.length :: d)) _ f hf2]
    simp [encodeChunks, AddOp, AddBytes]
    omega

theorem msBody_group (env : Env) (recurse : Bytes → Outcome MSResult) (pre rest : Bytes)
    (d : Bytes) (ds : List Bytes) (x hashType : Nat) (b : ScriptBuilder) (signed : Nat)
    (hd : DataPush env d) (hne : env.PUSH ≠ env.SIGNTEXT) :
    msBody env recurse (pre ++ (encodeChunks env (d :: ds) ++ env.SIGNTEXT :: x :: rest))
        hashType ⟨pre.length, b, signed⟩ =
      Outcome.ok (Step.next ⟨pre.length + (encodeChunks env (d :: ds)).length,
        b ++ encodeChunks env (d :: ds), signed + 1⟩) := by
  have hshape : pre ++ (encodeChunks env (d :: ds) ++ env.SIGNTEXT :: x :: rest) =
      pre ++ (env.PUSH :: d.length ::
        (d ++ (encodeChunks env ds ++ env.SIGNTEXT :: x :: rest))) := by
    simp [encodeChunks]
  have h0 : idx (pre ++ (encodeChunks env (d :: ds) ++ env.SIGNTEXT :: x :: rest))
      pre.length = Outcome.ok env.PUSH := by
    rw [hshape, idx_append_zero, idx_cons_zero]
  have h1 : idx (pre ++ (encodeChunks env (d :: ds) ++ env.SIGNTEXT :: x :: rest))
      (pre.length + 1) = Outcome.ok d.length := by
    rw [hshape, idx_append, idx_cons_succ, idx_cons_zero]
  have h2 : d.length = 21 →
      idx (pre ++ (encodeChunks env (d :: ds) ++ env.SIGNTEXT :: x :: rest))
        (pre.length + 2) = Outcome.ok (d.getD 0 0) := by
    intro h21
    rw [hshape, idx_append, idx_cons_succ, idx_cons_succ]
    cases d with
    | nil => simp at h21
    | cons v vs => simp
  have hcp := copyPushes_encode env env.SIGNTEXT (x :: rest) hne.symm (d :: ds) pre b
    ((pre ++ (encodeChunks env (d :: ds) ++ env.SIGNTEXT :: x :: rest)).length + 1)
    (by
      have := length_le_encodeChunks env (d :: ds)
      simp only [List.length_append]
      omega)
  unfold msBody
  simp only [h0, h1, Outcome.ok_bind, if_true]
  by_cases h21 : d.length = 21
  · have hv : d.getD 0 0 ≠ env.PubKeyHashAddrID ∧ d.getD 0 0 ≠ env.MultiSigAddrID ∧
        d.getD 0 0 ≠ env.ScriptHashAddrID := by
      rcases hd with h | h
      · exact absurd h21 h
      · exact h
    simp only [h21, ne_eq, not_true_eq_false, if_false, h2 h21, Outcome.ok_bind,
      Outcome.pure_eq, hv.1, hv.2.1, hv.2.2, not_false_eq_true, and_self, decide_True,
      if_true, hcp]
  · simp only [ne_eq, h21, not_false_eq_true, if_true, Outcome.ok_bind, Outcome.pure_eq, hcp]

theorem msLoop_groups (env : Env) (recurse : Bytes → Outcome MSResult) (hashType : Nat)
    (hne : env.PUSH ≠ env.SIGNTEXT) :
    ∀ (gs : List Group) (pre : Bytes) (b : ScriptBuilder) (signed fuel : Nat),
      (∀ g ∈ gs, g.pushes ≠ [] ∧ ∀ d ∈ g.pushes, DataPush env d) →
      2 * gs.length + 1 ≤ fuel →
      msLoop env recurse (pre ++ groupsBytes env gs) hashType fuel ⟨pre.length, b, signed⟩ =
        Outcome.ok (ScanEnd.completed (b ++ groupsBytes env gs) (signed + gs.length)) := by
  intro gs
  induction gs with
  | nil =>
    intro pre b signed fuel _ hf
    obtain ⟨f, rfl⟩ : ∃ f, fuel = f + 1 := ⟨fuel - 1, by omega⟩
    simp [msLoop, groupsBytes]
  | cons g gs ih =>
    intro pre b signed fuel hwf hf
    have hg := hwf g (List.mem_cons_self _ _)
    have hgs : ∀ x ∈ gs, x.pushes ≠ [] ∧ ∀ d ∈ x.pushes, DataPush env d :=
      fun x hx => hwf x (List.mem_cons_of_mem _ hx)
    have hf2 : 2 * gs.length + 3 ≤ fuel := by
      simp only [List.length_cons] at hf
      omega
    obtain ⟨f, rfl⟩ : ∃ f, fuel = f + 1 := ⟨fuel - 1, by omega⟩
    obtain ⟨f2, rfl⟩ : ∃ f2, f = f2 + 1 := ⟨f - 1, by omega⟩
    obtain ⟨pushes, text⟩ := g
    cases pushes with
    | nil => exact absurd rfl hg.1
    | cons d ds =>
      have hd : DataPush env d := hg.2 d (List.mem_cons_self _ _)
      have hshape : pre ++ groupsBytes env (⟨d :: ds, text⟩ :: gs) =
          pre ++ (encodeChunks env (d :: ds) ++ env.SIGNTEXT :: text :: groupsBytes env gs) := by
        simp [groupsBytes, groupBytes]
      have hpos : 0 < (encodeChunks env (d :: ds)).length := by
        simp [encodeChunks]
      have hlt : pre.length < (pre ++ (encodeChunks env (d :: ds) ++
          env.SIGNTEXT :: text :: groupsBytes env gs)).length := by
        simp only [List.length_append]
        omega
      have hl1 : (pre ++ encodeChunks env (d :: ds)).length =
          pre.length + (encodeChunks env (d :: ds)).length := by simp
      have hs1 : pre ++ (encodeChunks env (d :: ds) ++
          env.SIGNTEXT :: text :: groupsBytes env gs) =
          (pre ++ encodeChunks env (d :: ds)) ++
            env.SIGNTEXT :: text :: groupsBytes env gs := by simp
      have hlt1 : (pre ++ encodeChunks env (d :: ds)).length <
          ((pre ++ encodeChunks env (d :: ds)) ++
            env.SIGNTEXT :: text :: groupsBytes env gs).length := by simp
      have hl2 : (pre ++ groupBytes env ⟨d :: ds, text⟩).length =
          (pre ++ encodeChunks env (d :: ds)).length + 2 := by
        simp [groupBytes]
        omega
      have hs2 : (pre ++ encodeChunks env (d :: ds)) ++
          env.SIGNTEXT :: text :: groupsBytes env gs =
          (pre ++ groupBytes env ⟨d :: ds, text⟩) ++ groupsBytes env gs := by
        simp [groupBytes]
      rw [hshape, msLoop, if_pos hlt,
        msBody_group env recurse pre _ d ds text hashType b signed hd hne]
      simp only []
      rw [hs1, ← hl1, msLoop, if_pos hlt1,
        msBody_signtext env recurse (pre ++ encodeChunks env (d :: ds)) _ text hashType _ _ hne]
      simp only []
      rw [hs2, ← hl2, ih (pre ++ groupBytes env ⟨d :: ds, text⟩) _ (signed + 1) f2 hgs
        (by omega)]
      simp [groupsBytes, groupBytes]
      omega

theorem msHeader_append (env : Env) (M T textcode : Nat) (rest : Bytes) :
    msHeader env (multisigHeader env M T textcode ++ rest) =
      Outcome.ok (⟨8, multisigHeader env M T textcode, 0⟩, T) := by
  have hT : T % 256 + 256 * (T / 256) = T := Nat.mod_add_div T 256
  simp [msHeader, multisigHeader, slice, uint16LE, NewScriptBuilder, AddOp, AddBytes, hT]

/-- C22: for every body made of a well-formed header with threshold `N` followed by `k >= 1`
groups, each group being one or more Push tokens whose data `signMultiSig` does not take
for an address slot (length not 21, or first byte none of the three address identifiers)
and a closing SignText token, `signMultiSig` (with enough fuel) returns the body itself,
byte for byte, with required = `N` and fulfilled = (`k >= N`), whatever the resolvers. -/
theorem C22_signed_body_unchanged (env : Env) (hashType M N textcode : Nat)
    (gs : List Group) (fuel : Nat) (hne : env.PUSH ≠ env.SIGNTEXT)
    (hk : 1 ≤ gs.length)
    (hwf : ∀ g ∈ gs, g.pushes ≠ [] ∧ ∀ d ∈ g.pushes, DataPush env d)
    (hf : 2 * gs.length + 2 ≤ fuel) :
    signMultiSig env hashType fuel (multisigHeader env M N textcode ++ groupsBytes env gs) =
      Outcome.ok ⟨some (multisigHeader env M N textcode ++ groupsBytes env gs), N,
        decide (gs.length ≥ N)⟩ := by
  obtain ⟨f, rfl⟩ : ∃ f, fuel = f + 1 := ⟨fuel - 1, by omega⟩
  have h8 : (multisigHeader env M N textcode).length = 8 := by simp [multisigHeader]
  have hl := msLoop_groups env (fun s => signMultiSig env hashType f s) hashType hne gs
    (multisigHeader env M N textcode) (multisigHeader env M N textcode) 0 f hwf (by omega)
  rw [h8] at hl
  rw [signMultiSig, msHeader_append]
  simp only [Outcome.ok_bind]
  rw [hl]
  have h0 : gs.length ≠ 0 := by omega
  simp [msFinish, h0, Script]

/-- Witness of `C22_signed_body_unchanged`: the sample body of two groups with header
threshold 2. -/
theorem C22_signed_body_unchanged_witness :
    signMultiSig (demoEnv (keysOf [9]) noScripts) 1 6
        (multisigHeader (demoEnv (keysOf [9]) noScripts) 2 2 0 ++
          groupsBytes (demoEnv (keysOf [9]) noScripts) demoSignedGroups) =
      Outcome.ok ⟨some (multisigHeader (demoEnv (keysOf [9]) noScripts) 2 2 0 ++
          groupsBytes (demoEnv (keysOf [9]) noScripts) demoSignedGroups), 2,
        decide (demoSignedGroups.length ≥ 2)⟩ :=
  C22_signed_body_unchanged (demoEnv (keysOf [9]) noScripts) 1 2 2 0 demoSignedGroups 6
    (by decide) (by decide) (by unfold DataPush; decide) (by decide)

/-! ## extractMSscript on groups of data pushes -/

theorem groupsBytes_append (env : Env) (xs ys : List Group) :
    groupsBytes env (xs ++ ys) = groupsBytes env xs ++ groupsBytes env ys := by
  induction xs with
  | nil => simp [groupsBytes]
  | cons g gs ih => simp [groupsBytes, ih]

theorem extractLoop_template_group (env : Env) (extract : Bytes → Outcome Bytes)
    (pre rest : Bytes) (d : Bytes) (ds : List Bytes) (x n fuel : Nat) (b : ScriptBuilder)
    (hd : TemplateDataPush env d) (hne : env.PUSH ≠ env.SIGNTEXT) :
    extractLoop env extract
        (pre ++ (encodeChunks env (d :: ds) ++ env.SIGNTEXT :: x :: rest))
        (fuel + 2) pre.length (n + 1) b =
      extractLoop env extract
        (pre ++ (encodeChunks env (d :: ds) ++ env.SIGNTEXT :: x :: rest))
        fuel (pre.length + (encodeChunks env (d :: ds)).length + 2) n
        (b ++ encodeChunks env (d :: ds) ++ [env.SIGNTEXT, x]) := by
  have hshape : pre ++ (encodeChunks env (d :: ds) ++ env.SIGNTEXT :: x :: rest) =
      pre ++ (env.PUSH :: d.length ::
        (d ++ (encodeChunks env ds ++ env.SIGNTEXT :: x :: rest))) := by
    simp [encodeChunks]
  have h0 : idx (pre ++ (encodeChunks env (d :: ds) ++ env.SIGNTEXT :: x :: rest))
      pre.length = Outcome.ok env.PUSH := by
    rw [hshape, idx_append_zero, idx_cons_zero]
  have h1 : idx (pre ++ (encodeChunks env (d :: ds) ++ env.SIGNTEXT :: x :: rest))
      (pre.length + 1) = Outcome.ok d.length := by
    rw [hshape, idx_append, idx_cons_succ, idx_cons_zero]
  have h2 : d.length = 25 →
      idx (pre ++ (encodeChunks env (d :: ds) ++ env.SIGNTEXT :: x :: rest))
        (pre.length + 2) = Outcome.ok (d.getD 0 0) := by
    intro h25
    rw [hshape, idx_append, idx_cons_succ, idx_cons_succ]
    cases d with
    | nil => simp at h25
    | cons v vs => simp
  have hcp := copyPushes_encode env env.SIGNTEXT (x :: rest) hne.symm (d :: ds) pre b
    ((pre ++ (encodeChunks env (d :: ds) ++ env.SIGNTEXT :: x :: rest)).length + 1)
    (by
      have := length_le_encodeChunks env (d :: ds)
      simp only [List.length_append]
      omega)
  have hpos : 0 < (encodeChunks env (d :: ds)).length := by
    simp [encodeChunks]
  have hlt : pre.length < (pre ++ (encodeChunks env (d :: ds) ++
      env.SIGNTEXT :: x :: rest)).length ∧ n + 1 > 0 := by
    refine ⟨?_, by omega⟩
    simp only [List.length_append]
    omega
  have hlt2 : pre.length + (encodeChunks env (d :: ds)).length < (pre ++
      (encodeChunks env (d :: ds) ++ env.SIGNTEXT :: x :: rest)).length ∧ n + 1 > 0 := by
    refine ⟨?_, by omega⟩
    simp only [List.length_append, List.length_cons]
    omega
  have hs1 : pre ++ (encodeChunks env (d :: ds) ++ env.SIGNTEXT :: x :: rest) =
      (pre ++ encodeChunks env (d :: ds)) ++ env.SIGNTEXT :: x :: rest := by simp
  have hl1 : (pre ++ encodeChunks env (d :: ds)).length =
      pre.length + (encodeChunks env (d :: ds)).length := by simp
  have h3 : idx (pre ++ (encodeChunks env (d :: ds) ++ env.SIGNTEXT :: x :: rest))
      (pre.length + (encodeChunks env (d :: ds)).length) = Outcome.ok env.SIGNTEXT := by
    rw [hs1, ← hl1, idx_append_zero, idx_cons_zero]
  have h4 : idx (pre ++ (encodeChunks env (d :: ds) ++ env.SIGNTEXT :: x :: rest))
      (pre.length + (encodeChunks env (d :: ds)).length + 1) = Outcome.ok x := by
    rw [hs1, ← hl1, idx_append, idx_cons_succ, idx_cons_zero]
  have hstep1 : extractLoop env extract
      (pre ++ (encodeChunks env (d :: ds) ++ env.SIGNTEXT :: x :: rest))
      (fuel + 2) pre.length (n + 1) b =
      extractLoop env extract
        (pre ++ (encodeChunks env (d :: ds) ++ env.SIGNTEXT :: x :: rest))
        (fuel + 1) (pre.length + (encodeChunks env (d :: ds)).length) (n + 1)
        (b ++ encodeChunks env (d :: ds)) := by
    rw [extractLoop, if_pos hlt]
    simp only [h0, h1, Outcome.ok_bind, if_true]
    by_cases h25 : d.length = 25
    · have hv : d.getD 0 0 ≠ env.MultiSigAddrID := by
        rcases hd with h | h
        · exact absurd h25 h
        · exact h
      simp only [h25, ne_eq, not_true_eq_false, if_false, h2 h25, Outcome.ok_bind,
        Outcome.pure_eq, hv, not_false_eq_true, decide_True, if_true, hcp]
    · simp only [ne_eq, h25, not_false_eq_true, if_true, Outcome.ok_bind, Outcome.pure_eq,
        hcp]
  rw [hstep1, extractLoop, if_pos hlt2]
  simp only [h3, h4, Outcome.ok_bind, hne.symm, if_false, if_true, Nat.add_sub_cancel, AddOp]


theorem extractLoop_marker_group (env : Env) (extract : Bytes → Outcome Bytes)
    (pre rest : Bytes) (d : Bytes) (x n fuel : Nat) (b : ScriptBuilder)
    (h25 : d.length = 25) (hv : d.getD 0 0 = env.MultiSigAddrID)
    (hne : env.PUSH ≠ env.SIGNTEXT) :
    extractLoop env extract
        (pre ++ (encodeChunks env [d] ++ env.SIGNTEXT :: x :: rest))
        (fuel + 2) pre.length (n + 1) b =
      extractLoop env extract
        (pre ++ (encodeChunks env [d] ++ env.SIGNTEXT :: x :: rest))
        fuel (pre.length + (encodeChunks env [d]).length + 2) n
        (b ++ encodeChunks env [d] ++ [env.SIGNTEXT, x]) := by
  have henc : encodeChunks env [d] = env.PUSH :: 25 :: d := by
    simp [encodeChunks, h25]
  have hlenc : (encodeChunks env [d]).length = 27 := by
    simp [henc, h25]
  rw [henc] at hlenc ⊢
  have hshape : pre ++ (env.PUSH :: 25 :: d ++ env.SIGNTEXT :: x :: rest) =
      pre ++ (env.PUSH :: 25 :: (d ++ (env.SIGNTEXT :: x :: rest))) := by
    simp
  have h0 : idx (pre ++ (env.PUSH :: 25 :: d ++ env.SIGNTEXT :: x :: rest))
      pre.length = Outcome.ok env.PUSH := by
    rw [hshape, idx_append_zero, idx_cons_zero]
  have h1 : idx (pre ++ (env.PUSH :: 25 :: d ++ env.SIGNTEXT :: x :: rest))
      (pre.length + 1) = Outcome.ok 25 := by
    rw [hshape, idx_append, idx_cons_succ, idx_cons_zero]
  have h2 : idx (pre ++ (env.PUSH :: 25 :: d ++ env.SIGNTEXT :: x :: rest))
      (pre.length + 2) = Outcome.ok env.MultiSigAddrID := by
    rw [hshape, idx_append, idx_cons_succ, idx_cons_succ, ← hv]
    cases d with
    | nil => simp at h25
    | cons v vs => simp
  have hdata : slice (pre ++ (env.PUSH :: 25 :: d ++ env.SIGNTEXT :: x :: rest))
      (pre.length + 2) (pre.length + 2 + 25) = Outcome.ok d := by
    have h := slice_push_data pre d (env.SIGNTEXT :: x :: rest) env.PUSH 25
    rw [h25] at h
    rw [hshape]
    exact h
  have hs1 : pre ++ (env.PUSH :: 25 :: d ++ env.SIGNTEXT :: x :: rest) =
      (pre ++ env.PUSH :: 25 :: d) ++ env.SIGNTEXT :: x :: rest := by simp
  have hl1 : (pre ++ env.PUSH :: 25 :: d).length = pre.length + 2 + 25 := by
    simp only [List.length_append, List.length_cons, h25]
  have h3 : idx (pre ++ (env.PUSH :: 25 :: d ++ env.SIGNTEXT :: x :: rest))
      (pre.length + 2 + 25) = Outcome.ok env.SIGNTEXT := by
    rw [hs1, ← hl1, idx_append_zero, idx_cons_zero]
  have h4 : idx (pre ++ (env.PUSH :: 25 :: d ++ env.SIGNTEXT :: x :: rest))
      (pre.length + 2 + 25 + 1) = Outcome.ok x := by
    rw [hs1, ← hl1, idx_append, idx_cons_succ, idx_cons_zero]
  have hlt : pre.length < (pre ++ (env.PUSH :: 25 :: d ++
      env.SIGNTEXT :: x :: rest)).length ∧ n + 1 > 0 := by
    refine ⟨?_, by omega⟩
    simp only [List.length_append, List.length_cons]
    omega
  have hlt2 : pre.length + 2 + 25 < (pre ++ (env.PUSH :: 25 :: d ++
      env.SIGNTEXT :: x :: rest)).length ∧ n + 1 > 0 := by
    refine ⟨?_, by omega⟩
    simp only [List.length_append, List.length_cons, h25]
    omega
  have hi : pre.length + (env.PUSH :: 25 :: d).length + 2 = pre.length + 2 + 25 + 2 := by
    simp only [List.length_cons, h25]
  rw [extractLoop, if_pos hlt]
  simp only [h0, h1, h2, hdata, h3, Outcome.ok_bind, if_true, ne_eq, not_true_eq_false,
    if_false, Outcome.pure_eq, decide_False, Bool.false_eq_true]
  rw [extractLoop, if_pos hlt2]
  simp only [h3, h4, Outcome.ok_bind, hne.symm, if_false, if_true, Nat.add_sub_cancel, AddOp,
    AddBytes, hi]
  congr 1
  simp

theorem extractLoop_group (env : Env) (extract : Bytes → Outcome Bytes)
    (pre rest : Bytes) (d : Bytes) (ds : List Bytes) (x n fuel : Nat) (b : ScriptBuilder)
    (hd : TemplateDataPush env d ∨ ds = []) (hne : env.PUSH ≠ env.SIGNTEXT) :
    extractLoop env extract
        (pre ++ (encodeChunks env (d :: ds) ++ env.SIGNTEXT :: x :: rest))
        (fuel + 2) pre.length (n + 1) b =
      extractLoop env extract
        (pre ++ (encodeChunks env (d :: ds) ++ env.SIGNTEXT :: x :: rest))
        fuel (pre.length + (encodeChunks env (d :: ds)).length + 2) n
        (b ++ encodeChunks env (d :: ds) ++ [env.SIGNTEXT, x]) := by
  by_cases hT : TemplateDataPush env d
  · exact extractLoop_template_group env extract pre rest d ds x n fuel b hT hne
  · have hds : ds = [] := by
      rcases hd with h | h
      · exact absurd h hT
      · exact h
    subst hds
    unfold TemplateDataPush at hT
    have h25 : d.length = 25 := by
      by_contra h
      exact hT (Or.inl h)
    have hv : d.getD 0 0 = env.MultiSigAddrID := by
      by_contra h
      exact hT (Or.inr h)
    exact extractLoop_marker_group env extract pre rest d x n fuel b h25 hv hne

theorem extractLoop_groups (env : Env) (extract : Bytes → Outcome Bytes)
    (hne : env.PUSH ≠ env.SIGNTEXT) :
    ∀ (gs : List Group) (pre : Bytes) (b : ScriptBuilder) (nsigs fuel : Nat),
      (∀ g ∈ gs.take nsigs, CopiedGroup env g) →
      nsigs ≤ gs.length → 2 * nsigs + 1 ≤ fuel →
      extractLoop env extract (pre ++ groupsBytes env gs) fuel pre.length nsigs b =
        Outcome.ok (b ++ groupsBytes env (gs.take nsigs)) := by
  intro gs
  induction gs with
  | nil =>
    intro pre b nsigs fuel _ hn hf
    obtain ⟨f, rfl⟩ : ∃ f, fuel = f + 1 := ⟨fuel - 1, by omega⟩
    have h0 : nsigs = 0 := by simpa using hn
    subst h0
    simp [extractLoop, groupsBytes, Script]
  | cons g gs ih =>
    intro pre b nsigs fuel hwf hn hf
    cases nsigs with
    | zero =>
      obtain ⟨f, rfl⟩ : ∃ f, fuel = f + 1 := ⟨fuel - 1, by omega⟩
      simp [extractLoop, groupsBytes, Script]
    | succ n =>
      have hg : CopiedGroup env g := hwf g (by simp)
      have hgs : ∀ x ∈ gs.take n, CopiedGroup env x :=
        fun x hx => hwf x (by simp [hx])
      have hn2 : n ≤ gs.length := by
        simp only [List.length_cons] at hn
        omega
      obtain ⟨f, rfl⟩ : ∃ f, fuel = f + 2 := ⟨fuel - 2, by omega⟩
      obtain ⟨pushes, text⟩ := g
      cases pushes with
      | nil => exact absurd rfl hg.1
      | cons d ds =>
        have hd : TemplateDataPush env d ∨ ds = [] := by
          rcases hg.2 with h | h
          · exact Or.inl h
          · right
            simpa using h
        have hshape : pre ++ groupsBytes env (⟨d :: ds, text⟩ :: gs) =
            pre ++ (encodeChunks env (d :: ds) ++
              env.SIGNTEXT :: text :: groupsBytes env gs) := by
          simp [groupsBytes, groupBytes]
        have hs2 : pre ++ (encodeChunks env (d :: ds) ++
            env.SIGNTEXT :: text :: groupsBytes env gs) =
            (pre ++ groupBytes env ⟨d :: ds, text⟩) ++ groupsBytes env gs := by
          simp [groupBytes]
        have hl2 : (pre ++ groupBytes env ⟨d :: ds, text⟩).length =
            pre.length + (encodeChunks env (d :: ds)).length + 2 := by
          simp [groupBytes]
          omega
        rw [hshape, extractLoop_group env extract pre _ d ds text n f b hd hne,
          hs2, ← hl2, ih (pre ++ groupBytes env ⟨d :: ds, text⟩) _ n f hgs hn2 (by omega)]
        simp [groupsBytes, groupBytes]

/-- C23, as amended: for every body made of a well-formed header with member count `M`
followed by at least `M` groups of Push tokens, each closed by a SignText token, where each
of the first `M` groups has a push and does not both start with a push of 25 data bytes
whose first byte is the multisig address identifier and go on with a further push,
`extractMSscript` (with enough fuel) returns the header and the first `M` groups: the part
of the body that ends just after the `M`-th SignText token, so that the body is the result
followed by the remaining groups. -/
theorem C23_extract_counts_members (env : Env) (M N textcode : Nat) (gs : List Group)
    (fuel : Nat) (hne : env.PUSH ≠ env.SIGNTEXT)
    (hwf : ∀ g ∈ gs.take M, CopiedGroup env g)
    (hM : M ≤ gs.length) (hf : 2 * M + 2 ≤ fuel) :
    extractMSscript env fuel (multisigHeader env M N textcode ++ groupsBytes env gs) =
      Outcome.ok (multisigHeader env M N textcode ++ groupsBytes env (gs.take M)) ∧
    multisigHeader env M N textcode ++ groupsBytes env gs =
      (multisigHeader env M N textcode ++ groupsBytes env (gs.take M)) ++
        groupsBytes env (gs.drop M) := by
  refine ⟨?_, ?_⟩
  · obtain ⟨f, rfl⟩ : ∃ f, fuel = f + 1 := ⟨fuel - 1, by omega⟩
    have h8 : (multisigHeader env M N textcode).length = 8 := by simp [multisigHeader]
    have hl := extractLoop_groups env (fun s => extractMSscript env f s) hne gs
      (multisigHeader env M N textcode) (multisigHeader env M N textcode) M f hwf hM
      (by omega)
    rw [h8] at hl
    have hM2 : M % 256 + 256 * (M / 256) = M := Nat.mod_add_div M 256
    have hhead : sliceTo (multisigHeader env M N textcode ++ groupsBytes env gs) 8 =
        Outcome.ok (multisigHeader env M N textcode) := by
      simp [sliceTo, multisigHeader]
    have hm : slice (multisigHeader env M N textcode ++ groupsBytes env gs) 2 4 =
        Outcome.ok [M % 256, M / 256] := by
      simp [slice, multisigHeader]
    rw [extractMSscript]
    simp only [hhead, hm, Outcome.ok_bind, AddBytes, NewScriptBuilder, List.nil_append,
      uint16LE, List.getD_cons_zero, List.getD_cons_succ, hM2]
    exact hl
  · rw [List.append_assoc, ← groupsBytes_append, List.take_append_drop]

/-- Witness of `C23_extract_counts_members`: the sample groups with member count 2 in the
header.  The first group is a 25-byte push that starts with the multisig identifier and is
followed by the SignText token, in the second such a push comes after another push; the
result ends after the second group, whatever the third group is. -/
theorem C23_extract_counts_members_witness :
    extractMSscript (demoEnv (keysOf []) noScripts) 6
        (multisigHeader (demoEnv (keysOf []) noScripts) 2 2 0 ++
          groupsBytes (demoEnv (keysOf []) noScripts) demoMarkerGroups) =
      Outcome.ok (multisigHeader (demoEnv (keysOf []) noScripts) 2 2 0 ++
        groupsBytes (demoEnv (keysOf []) noScripts) (demoMarkerGroups.take 2)) ∧
    multisigHeader (demoEnv (keysOf []) noScripts) 2 2 0 ++
        groupsBytes (demoEnv (keysOf []) noScripts) demoMarkerGroups =
      (multisigHeader (demoEnv (keysOf []) noScripts) 2 2 0 ++
        groupsBytes (demoEnv (keysOf []) noScripts) (demoMarkerGroups.take 2)) ++
        groupsBytes (demoEnv (keysOf []) noScripts) (demoMarkerGroups.drop 2) :=
  C23_extract_counts_members (demoEnv (keysOf []) noScripts) 2 2 0 demoMarkerGroups 6
    (by decide) (by unfold CopiedGroup TemplateDataPush; decide) (by decide) (by decide)
/-- C23, counterexample to the claim as stated: `demoTemplateBody` is a well-formed header
with member count 1 followed by one group of two Push tokens and a SignText token; both
pushes are opaque for the scan of `signMultiSig` (their lengths, 25 and 6, are not 21).
The first push has length 25 and starts with the multisig identifier, so `extractMSscript`
does not copy the group: it calls itself on the rest of the body and merges with bytes read
from the start of the body.  The result is not the body (the prefix that ends after the
first SignText token): bytes 36..40 and the last byte differ.  The group starts with such
a push and goes on with a further push, so it is not a `CopiedGroup`. -/
theorem C23_opaque_push_counterexample :
    demoTemplateBody =
      multisigHeader (demoEnv (keysOf []) noScripts) 1 1 0 ++
        groupsBytes (demoEnv (keysOf []) noScripts)
          [⟨[103 :: List.replicate 24 3, [1, 0, 0, 0, 81, 0]], 1⟩] ∧
    (∀ d ∈ [103 :: List.replicate 24 3, [1, 0, 0, 0, 81, 0]],
      DataPush (demoEnv (keysOf []) noScripts) d) ∧
    (∀ fuel, extractMSscript (demoEnv (keysOf []) noScripts) (fuel + 4) demoTemplateBody =
      Outcome.ok ([80, 4, 1, 0, 1, 0, 81, 0] ++ (80 :: 25 :: 103 :: List.replicate 24 3) ++
        [80, 4, 1, 0, 1, 0, 81, 0] ++ [81, 25])) ∧
    extractMSscript (demoEnv (keysOf []) noScripts) 4 demoTemplateBody ≠
      Outcome.ok demoTemplateBody ∧
    ¬ CopiedGroup (demoEnv (keysOf []) noScripts)
      ⟨[103 :: List.replicate 24 3, [1, 0, 0, 0, 81, 0]], 1⟩ := by
  refine ⟨by decide, by unfold DataPush; decide, fun _ => rfl, by decide,
    by unfold CopiedGroup TemplateDataPush; decide⟩
/-! ## A nested script-hash slot among pubkey-hash members -/

theorem memberSteps_le (env : Env) (hashType : Nat) :
    ∀ ms : List Member, memberSteps env hashType ms ≤ 2 * ms.length := by
  intro ms
  induction ms with
  | nil => simp [memberSteps]
  | cons m ms ih =>
    simp only [memberSteps, List.length_cons]
    split <;> omega

theorem msLoop_members_then (env : Env) (recurse : Bytes → Outcome MSResult) (hashType : Nat)
    (hne : env.PUSH ≠ env.SIGNTEXT) :
    ∀ (ms : List Member) (pre tail : Bytes) (b : ScriptBuilder) (signed fuel : Nat),
      (∀ m ∈ ms, m.hash.length = 20) →
      msLoop env recurse (pre ++ (membersBytes env ms ++ tail)) hashType
          (memberSteps env hashType ms + fuel) ⟨pre.length, b, signed⟩ =
        msLoop env recurse (pre ++ (membersBytes env ms ++ tail)) hashType fuel
          ⟨(pre ++ membersBytes env ms).length, b ++ renderMembers env hashType ms,
            signed + signedCount env hashType ms⟩ := by
  intro ms
  induction ms with
  | nil =>
    intro pre tail b signed fuel _
    simp [membersBytes, memberSteps, renderMembers, signedCount]
  | cons m ms ih =>
    intro pre tail b signed fuel hlen
    have hm : m.hash.length = 20 := hlen m (List.mem_cons_self _ _)
    have hms : ∀ x ∈ ms, x.hash.length = 20 := fun x hx => hlen x (List.mem_cons_of_mem _ hx)
    have hshape : pre ++ (membersBytes env (m :: ms) ++ tail) =
        pre ++ (slotBytes env m ++
          (env.SIGNTEXT :: m.text :: (membersBytes env ms ++ tail))) := by
      simp [membersBytes, memberBytes]
    have hlt : pre.length < (pre ++ (slotBytes env m ++
        (env.SIGNTEXT :: m.text :: (membersBytes env ms ++ tail)))).length := by
      simp [slotBytes]
    have hl : (pre ++ memberBytes env m).length = pre.length + 25 := by
      simp [memberBytes, slotBytes, hm]
    have hs2 : pre ++ (slotBytes env m ++
        (env.SIGNTEXT :: m.text :: (membersBytes env ms ++ tail))) =
        (pre ++ memberBytes env m) ++ (membersBytes env ms ++ tail) := by
      simp [memberBytes]
    have hend : (pre ++ membersBytes env (m :: ms)).length =
        ((pre ++ memberBytes env m) ++ membersBytes env ms).length := by
      simp [membersBytes]
    cases hu : usableKey env hashType m with
    | some ks =>
      obtain ⟨key, sig⟩ := ks
      have hsteps : memberSteps env hashType (m :: ms) + fuel =
          (memberSteps env hashType ms + fuel) + 1 := by
        simp [memberSteps, hu]
        omega
      have hren : b ++ renderMembers env hashType (m :: ms) =
          signedSlot env hashType m.hash key sig b ++ renderMembers env hashType ms := by
        simp [renderMembers, renderMember, hu, signedSlot_append env hashType m.hash key sig b]
      have hcnt : signed + signedCount env hashType (m :: ms) =
          signed + 1 + signedCount env hashType ms := by
        simp [signedCount, hu]
        omega
      rw [hsteps, hend, hren, hcnt, hshape, msLoop, if_pos hlt,
        msBody_pkh env recurse pre _ m hashType b signed hm, hu]
      simp only [idx_cons_zero, Outcome.ok_bind, if_true]
      rw [hs2, ← hl, ih (pre ++ memberBytes env m) tail _ (signed + 1) fuel hms]
    | none =>
      have hsteps : memberSteps env hashType (m :: ms) + fuel =
          ((memberSteps env hashType ms + fuel) + 1) + 1 := by
        simp [memberSteps, hu]
        omega
      have hren : b ++ renderMembers env hashType (m :: ms) =
          b ++ slotBytes env m ++ [env.SIGNTEXT, m.text] ++ renderMembers env hashType ms := by
        simp [renderMembers, renderMember, hu, memberBytes]
      have hcnt : signed + signedCount env hashType (m :: ms) =
          signed + signedCount env hashType ms := by
        simp [signedCount, hu]
      have hl1 : (pre ++ slotBytes env m).length = pre.length + 23 := by
        simp [slotBytes, hm]
      have hs1 : pre ++ (slotBytes env m ++
          (env.SIGNTEXT :: m.text :: (membersBytes env ms ++ tail))) =
          (pre ++ slotBytes env m) ++ env.SIGNTEXT :: m.text :: (membersBytes env ms ++ tail) := by
        simp
      have hlt1 : (pre ++ slotBytes env m).length < ((pre ++ slotBytes env m) ++
          env.SIGNTEXT :: m.text :: (membersBytes env ms ++ tail)).length := by
        simp
      have hl2 : (pre ++ memberBytes env m).length = (pre ++ slotBytes env m).length + 2 := by
        simp [memberBytes]
        omega
      have hs3 : (pre ++ slotBytes env m) ++
          env.SIGNTEXT :: m.text :: (membersBytes env ms ++ tail) =
          (pre ++ memberBytes env m) ++ (membersBytes env ms ++ tail) := by
        simp [memberBytes]
      rw [hsteps, hend, hren, hcnt, hshape, msLoop, if_pos hlt,
        msBody_pkh env recurse pre _ m hashType b signed hm, hu]
      simp only []
      rw [hs1, ← hl1, msLoop, if_pos hlt1,
        msBody_signtext env recurse (pre ++ slotBytes env m) _ m.text hashType _ signed hne]
      simp only []
      rw [hs3, ← hl2, ih (pre ++ memberBytes env m) tail _ signed fuel hms]

theorem msBody_script_hash (env : Env) (recurse : Bytes → Outcome MSResult)
    (pre hash rest : Bytes) (nx hashType : Nat) (builder : ScriptBuilder) (signed : Nat)
    (ps : Address) (s : Bytes)
    (hlen : hash.length = 20)
    (hpk : env.ScriptHashAddrID ≠ env.PubKeyHashAddrID)
    (hms : env.ScriptHashAddrID ≠ env.MultiSigAddrID)
    (hnx : nx ≠ env.PUSH)
    (hps : env.NewAddressScriptHash hash = Except.ok ps)
    (hs : env.GetScript ps = (some s, none)) :
    ∃ chunks : List Bytes,
      msBody env recurse (pre ++ (scriptHashSlot env hash ++ nx :: rest))
          hashType ⟨pre.length, builder, signed⟩ =
        Outcome.ok (Step.next ⟨pre.length + 23,
          builder ++ scriptHashSlot env hash ++ encodeChunks env chunks, signed + 1⟩) ∧
      concatChunks chunks = s := by
  obtain ⟨chunks, hc, _, _, hj⟩ := pushChunks_spec env (s.length + 1) s
    (builder ++ (env.PUSH :: 21 :: env.ScriptHashAddrID :: hash)) (by omega)
  refine ⟨chunks, ?_, hj⟩
  have h20 : slice (hash ++ nx :: rest) 0 20 = Outcome.ok hash :=
    hlen ▸ slice_zero_append hash (nx :: rest)
  have h21 : idx (hash ++ nx :: rest) 20 = Outcome.ok nx := by
    have h := idx_append hash (nx :: rest) 0
    rw [hlen] at h
    rw [h]
    simp
  have hc2 : pushChunks env (s.length + 1) s
      (builder ++ env.PUSH :: 21 :: env.ScriptHashAddrID :: hash) =
      Outcome.ok (builder ++ (env.PUSH :: 21 :: env.ScriptHashAddrID :: hash) ++
        encodeChunks env chunks) := hc
  simp [scriptHashSlot, msBody, idx_append_zero, idx_append, AddOp, AddBytes, Nat.add_assoc,
    slice_append, slice_cons_zero_succ, h20, h21, hpk, hms, hnx, hps, hs, hc2]

theorem signMultiSig_slot_among_members (env : Env) (hashType M textcode : Nat)
    (ms1 ms2 : List Member) (hash : Bytes) (x : Nat) (ps : Address) (s : Bytes) (fuel : Nat)
    (hne : env.PUSH ≠ env.SIGNTEXT)
    (hpk : env.ScriptHashAddrID ≠ env.PubKeyHashAddrID)
    (hms : env.ScriptHashAddrID ≠ env.MultiSigAddrID)
    (h1 : ∀ m ∈ ms1, m.hash.length = 20) (h2 : ∀ m ∈ ms2, m.hash.length = 20)
    (hlen : hash.length = 20)
    (hps : env.NewAddressScriptHash hash = Except.ok ps)
    (hs : env.GetScript ps = (some s, none))
    (hf : 2 * ms1.length + 2 * ms2.length + 4 ≤ fuel) :
    ∃ chunks : List Bytes,
      signMultiSig env hashType fuel
          (multisigHeader env M 1 textcode ++ membersBytes env ms1 ++
            scriptHashSlot env hash ++ [env.SIGNTEXT, x] ++ membersBytes env ms2) =
        Outcome.ok ⟨some (multisigHeader env M 1 textcode ++ renderMembers env hashType ms1 ++
            scriptHashSlot env hash ++ encodeChunks env chunks ++ [env.SIGNTEXT, x] ++
            renderMembers env hashType ms2), 1, true⟩ ∧
      concatChunks chunks = s := by
  obtain ⟨F, rfl⟩ : ∃ F, fuel = F + 1 := ⟨fuel - 1, by omega⟩
  have hle := memberSteps_le env hashType ms1
  obtain ⟨g, hg⟩ : ∃ g, F = memberSteps env hashType ms1 + ((g + 1) + 1) :=
    ⟨F - memberSteps env hashType ms1 - 2, by omega⟩
  have hg2 : 2 * ms2.length + 1 ≤ g := by omega
  subst hg
  have h8 : (multisigHeader env M 1 textcode).length = 8 := by simp [multisigHeader]
  obtain ⟨chunks, hstep, hcat⟩ := msBody_script_hash env
    (fun s => signMultiSig env hashType (memberSteps env hashType ms1 + ((g + 1) + 1)) s)
    (multisigHeader env M 1 textcode ++ membersBytes env ms1) hash
    (x :: membersBytes env ms2) env.SIGNTEXT hashType
    (multisigHeader env M 1 textcode ++ renderMembers env hashType ms1)
    (0 + signedCount env hashType ms1) ps s hlen hpk hms hne.symm hps hs
  refine ⟨chunks, ?_, hcat⟩
  have hbody : multisigHeader env M 1 textcode ++ membersBytes env ms1 ++
      scriptHashSlot env hash ++ [env.SIGNTEXT, x] ++ membersBytes env ms2 =
      multisigHeader env M 1 textcode ++ (membersBytes env ms1 ++
        (scriptHashSlot env hash ++ env.SIGNTEXT :: x :: membersBytes env ms2)) := by
    simp
  have hb1 : multisigHeader env M 1 textcode ++ (membersBytes env ms1 ++
      (scriptHashSlot env hash ++ env.SIGNTEXT :: x :: membersBytes env ms2)) =
      (multisigHeader env M 1 textcode ++ membersBytes env ms1) ++
        (scriptHashSlot env hash ++ env.SIGNTEXT :: x :: membersBytes env ms2) := by
    simp
  have hlt1 : (multisigHeader env M 1 textcode ++ membersBytes env ms1).length <
      ((multisigHeader env M 1 textcode ++ membersBytes env ms1) ++
        (scriptHashSlot env hash ++ env.SIGNTEXT :: x :: membersBytes env ms2)).length := by
    simp [scriptHashSlot]
  have hb2 : (multisigHeader env M 1 textcode ++ membersBytes env ms1) ++
      (scriptHashSlot env hash ++ env.SIGNTEXT :: x :: membersBytes env ms2) =
      (multisigHeader env M 1 textcode ++ membersBytes env ms1 ++ scriptHashSlot env hash) ++
        env.SIGNTEXT :: x :: membersBytes env ms2 := by
    simp
  have hl2 : (multisigHeader env M 1 textcode ++ membersBytes env ms1 ++
      scriptHashSlot env hash).length =
      (multisigHeader env M 1 textcode ++ membersBytes env ms1).length + 23 := by
    simp only [List.length_append, scriptHashSlot, List.length_cons, hlen]
  have hlt2 : (multisigHeader env M 1 textcode ++ membersBytes env ms1 ++
      scriptHashSlot env hash).length <
      ((multisigHeader env M 1 textcode ++ membersBytes env ms1 ++ scriptHashSlot env hash) ++
        env.SIGNTEXT :: x :: membersBytes env ms2).length := by
    simp
  have hb3 : (multisigHeader env M 1 textcode ++ membersBytes env ms1 ++
      scriptHashSlot env hash) ++ env.SIGNTEXT :: x :: membersBytes env ms2 =
      (multisigHeader env M 1 textcode ++ membersBytes env ms1 ++ scriptHashSlot env hash ++
        [env.SIGNTEXT, x]) ++ membersBytes env ms2 := by
    simp
  have hl3 : (multisigHeader env M 1 textcode ++ membersBytes env ms1 ++
      scriptHashSlot env hash ++ [env.SIGNTEXT, x]).length =
      (multisigHeader env M 1 textcode ++ membersBytes env ms1 ++
        scriptHashSlot env hash).length + 2 := by
    simp only [List.length_append, List.length_cons, List.length_nil]
  have hloop1 := msLoop_members_then env
    (fun s => signMultiSig env hashType (memberSteps env hashType ms1 + ((g + 1) + 1)) s)
    hashType hne
    ms1 (multisigHeader env M 1 textcode)
    (scriptHashSlot env hash ++ env.SIGNTEXT :: x :: membersBytes env ms2)
    (multisigHeader env M 1 textcode) 0 ((g + 1) + 1) h1
  rw [h8] at hloop1
  rw [hbody, signMultiSig, msHeader_append]
  simp only [Outcome.ok_bind]
  rw [hloop1, hb1, msLoop, if_pos hlt1, hstep]
  simp only []
  rw [hb2, ← hl2, msLoop, if_pos hlt2,
    msBody_signtext env
      (fun s => signMultiSig env hashType (memberSteps env hashType ms1 + ((g + 1) + 1)) s)
      (multisigHeader env M 1 textcode ++ membersBytes env ms1 ++ scriptHashSlot env hash)
      (membersBytes env ms2) x hashType _ _ hne]
  simp only []
  rw [hb3, ← hl3,
    msLoop_members env
      (fun s => signMultiSig env hashType (memberSteps env hashType ms1 + ((g + 1) + 1)) s)
      hashType hne ms2 _ _ _ g h2 hg2]
  simp [msFinish, Script]
  omega


/-! ## The counter of signed slots never goes down -/

theorem StepCounts.counts_bind {α : Type} (n : Nat) (x : Outcome α) (f : α → Outcome Step)
    (h : ∀ a, x = Outcome.ok a → StepCounts n (f a)) : StepCounts n (x >>= f) := by
  unfold StepCounts
  intro st hst
  obtain ⟨a, ha, hf⟩ := Outcome.bind_eq_ok hst
  have h2 := h a ha
  unfold StepCounts at h2
  exact h2 st hf

theorem StepCounts.counts_next (n : Nat) (st : MSState) (h : n ≤ st.signed) :
    StepCounts n (Outcome.ok (Step.next st)) := by
  unfold StepCounts
  intro st2 h2
  simp only [Outcome.ok.injEq, Step.next.injEq] at h2
  subst h2
  exact h

theorem StepCounts.counts_malformed (n : Nat) : StepCounts n (Outcome.ok Step.malformed) := by
  unfold StepCounts
  intro st h
  cases h

theorem msBody_counts (env : Env) (recurse : Bytes → Outcome MSResult) (subScript : Bytes)
    (hashType : Nat) (st : MSState) :
    StepCounts st.signed (msBody env recurse subScript hashType st) := by
  unfold msBody
  simp only [Outcome.pure_eq]
  repeat' first
    | (apply StepCounts.counts_bind; intro _ _)
    | apply StepCounts.counts_next
    | apply StepCounts.counts_malformed
    | split
  all_goals first
    | exact Nat.le_refl _
    | exact Nat.le_succ _

theorem msLoop_counts (env : Env) (recurse : Bytes → Outcome MSResult) (subScript : Bytes)
    (hashType : Nat) :
    ∀ (fuel : Nat) (st : MSState) (b : ScriptBuilder) (signed : Nat),
      msLoop env recurse subScript hashType fuel st =
        Outcome.ok (ScanEnd.completed b signed) → st.signed ≤ signed := by
  intro fuel
  induction fuel with
  | zero =>
    intro st b signed h
    simp [msLoop] at h
  | succ f ih =>
    intro st b signed h
    rw [msLoop] at h
    split at h
    · cases hb : msBody env recurse subScript hashType st with
      | ok step =>
        cases step with
        | next st' =>
          rw [hb] at h
          have h1 := ih st' b signed h
          have hg := msBody_counts env recurse subScript hashType st
          unfold StepCounts at hg
          have h2 := hg st' hb
          omega
        | malformed =>
          rw [hb] at h
          cases h
      | crash =>
        rw [hb] at h
        cases h
      | diverge =>
        rw [hb] at h
        cases h
    · simp only [Outcome.ok.injEq, ScanEnd.completed.injEq] at h
      omega

/-- C21, as amended: take a multisig body whose header gives the required threshold 1 and
whose scan reaches, after `k` iterations, a nested script-hash slot that is not followed by
a Push token and whose redeem script `s` the script resolver returns.  When the scan of the
body runs to its end, `signMultiSig` returns fulfilled = true with required = 1, whatever
the key resolver holds and whatever the other tokens of the body are; the slot raised the
counter by one, and the returned script holds, after what the scan had written before the
slot, the slot and Push tokens of chunks that concatenate to `s`. -/
theorem C21_attached_slot_fulfils (env : Env) (hashType k f : Nat)
    (body pre hash rest : Bytes) (nx : Nat) (ps : Address) (s : Bytes)
    (st0 : MSState) (b : ScriptBuilder) (signed : Nat) (out : ScriptBuilder) (n : Nat)
    (hpk : env.ScriptHashAddrID ≠ env.PubKeyHashAddrID)
    (hms : env.ScriptHashAddrID ≠ env.MultiSigAddrID)
    (hlen : hash.length = 20)
    (hbody : body = pre ++ (scriptHashSlot env hash ++ nx :: rest))
    (hnx : nx ≠ env.PUSH)
    (hps : env.NewAddressScriptHash hash = Except.ok ps)
    (hs : env.GetScript ps = (some s, none))
    (hh : msHeader env body = Outcome.ok (st0, 1))
    (hreach : msIter env (fun x => signMultiSig env hashType (k + f) x) body hashType k st0 =
      some ⟨pre.length, b, signed⟩)
    (hl : msLoop env (fun x => signMultiSig env hashType (k + f) x) body hashType (k + f) st0 =
      Outcome.ok (ScanEnd.completed out n)) :
    signMultiSig env hashType (k + f + 1) body = Outcome.ok ⟨some out, 1, true⟩ ∧
    signed + 1 ≤ n ∧
    ∃ (chunks : List Bytes) (ext : Bytes), concatChunks chunks = s ∧
      out = b ++ scriptHashSlot env hash ++ encodeChunks env chunks ++ ext := by
  have hl2 := hl
  rw [msLoop_of_iter env _ body hashType k st0 ⟨pre.length, b, signed⟩ f hreach] at hl2
  obtain ⟨chunks, hstep, hcat⟩ := msBody_script_hash env
    (fun x => signMultiSig env hashType (k + f) x) pre hash rest nx hashType b signed ps s
    hlen hpk hms hnx hps hs
  rw [← hbody] at hstep
  have hlt : pre.length < body.length := by
    rw [hbody]
    simp [scriptHashSlot]
  cases f with
  | zero => simp [msLoop] at hl2
  | succ g =>
    rw [msLoop] at hl2
    simp only [] at hl2
    rw [if_pos hlt, hstep] at hl2
    simp only [] at hl2
    have hc := msLoop_counts env _ body hashType g _ out n hl2
    obtain ⟨ext, hext⟩ := msLoop_grows env _ body hashType g _ out n hl2
    simp only [] at hc hext
    have hn : n ≠ 0 := by omega
    refine ⟨?_, hc, chunks, ext, hcat, ?_⟩
    · rw [signMultiSig, hh]
      simp only [Outcome.ok_bind]
      rw [hl]
      simp [msFinish, hn, Script]
      omega
    · exact hext

/-- Witness of `C21_attached_slot_fulfils`: the sample environment without any key, whose
script resolver holds the redeem script `6, 6, 6` of the slot, and the sample body in which
a group of one data push stands before the slot and a second script-hash slot after it;
the scan reaches the first slot after 2 iterations and ends after 5 more. -/
theorem C21_attached_slot_fulfils_witness :
    signMultiSig demoAttachEnv 1 (2 + 5 + 1) demoAttachGroupBody =
      Outcome.ok ⟨some ([80, 4, 3, 0, 1, 0, 81, 0] ++ [80, 3, 2, 9, 9] ++ [81, 1] ++
        demoSHSlot ++ [80, 3, 6, 6, 6] ++ [81, 1] ++ demoSHSlot ++ [80, 3, 6, 6, 6] ++
        [81, 1]), 1, true⟩ ∧
    1 + 1 ≤ 3 ∧
    ∃ (chunks : List Bytes) (ext : Bytes), concatChunks chunks = [6, 6, 6] ∧
      [80, 4, 3, 0, 1, 0, 81, 0] ++ [80, 3, 2, 9, 9] ++ [81, 1] ++
        demoSHSlot ++ [80, 3, 6, 6, 6] ++ [81, 1] ++ demoSHSlot ++ [80, 3, 6, 6, 6] ++
        [81, 1] =
      ([80, 4, 3, 0, 1, 0, 81, 0] ++ [80, 3, 2, 9, 9] ++ [81, 1]) ++
        scriptHashSlot demoAttachEnv (List.replicate 20 3) ++
        encodeChunks demoAttachEnv chunks ++ ext :=
  C21_attached_slot_fulfils demoAttachEnv 1 2 5 demoAttachGroupBody
    ([80, 4, 3, 0, 1, 0, 81, 0] ++ [80, 3, 2, 9, 9] ++ [81, 1]) (List.replicate 20 3)
    ([1] ++ demoSHSlot ++ [81, 1]) 81 (5 :: List.replicate 20 3) [6, 6, 6]
    ⟨8, [80, 4, 3, 0, 1, 0, 81, 0], 0⟩
    ([80, 4, 3, 0, 1, 0, 81, 0] ++ [80, 3, 2, 9, 9] ++ [81, 1]) 1
    ([80, 4, 3, 0, 1, 0, 81, 0] ++ [80, 3, 2, 9, 9] ++ [81, 1] ++
      demoSHSlot ++ [80, 3, 6, 6, 6] ++ [81, 1] ++ demoSHSlot ++ [80, 3, 6, 6, 6] ++ [81, 1]) 3
    (by decide) (by decide) (by decide) (by decide) (by decide) rfl rfl (by decide)
    (by decide) (by decide)
/-- C21, counterexamples to the claim as stated, in the sample environment without any key
whose script resolver returns the redeem script `6, 6, 6` of the script-hash slot.  In
`demoAttachBrokenBody` (threshold 1) the slot is followed by the byte 153, which is not a
Push token: the script is attached, and at the next offset the scan returns nil, 0 and
false.  In `demoAttachNestedBody` (threshold 1) a nested-multisig member whose script the
resolver does not hold stands before the slot: the scan goes on at offset 23, inside that
member, and returns nil, 0 and false; the script-hash slot is never reached. -/
theorem C21_not_fulfilled_counterexample :
    demoAttachEnv.GetScript (5 :: List.replicate 20 3) = (some [6, 6, 6], none) ∧
    demoAttachBrokenBody =
      multisigHeader demoAttachEnv 1 1 0 ++ scriptHashSlot demoAttachEnv (List.replicate 20 3) ++
        [153, 1] ∧
    (∀ fuel, signMultiSig demoAttachEnv 1 (fuel + 3) demoAttachBrokenBody =
      Outcome.ok ⟨none, 0, false⟩) ∧
    demoAttachNestedBody =
      multisigHeader demoAttachEnv 2 1 0 ++ demoNestedSlot ++ [demoAttachEnv.SIGNTEXT, 1] ++
        scriptHashSlot demoAttachEnv (List.replicate 20 3) ++ [demoAttachEnv.SIGNTEXT, 1] ∧
    (∀ fuel, signMultiSig demoAttachEnv 1 (fuel + 3) demoAttachNestedBody =
      Outcome.ok ⟨none, 0, false⟩) := by
  refine ⟨by decide, by decide, fun _ => rfl, by decide, fun _ => rfl⟩

end Txscript

namespace Wire

open Txscript (Bytes Outcome)

/-! ## MsgFilterLoad -/

/-- C15: the limits are 36000 filter bytes and 50 hash functions.  With helpers that never
fail (a writer that never fails), `OmcEncode` returns an error exactly when
`pver < BIP0037Version`, or the filter is longer than `MaxFilterLoadFilterSize`, or
`HashFuncs` exceeds `MaxFilterLoadHashFuncs`, and then the writer is unchanged.
`OmcDecode` returns the too-many-hash-functions error whenever the `HashFuncs` it reads
exceeds `MaxFilterLoadHashFuncs`, and a message it returns has at most that many. -/
theorem C15_filterload_limits (c : Common) (msg : MsgFilterLoad) (w : Bytes) (pver : Nat)
    (hw1 : ∀ w p b, (c.WriteVarBytes w p b).2 = none)
    (hw2 : ∀ w h t f, (c.WriteElements w h t f).2 = none) :
    (MaxFilterLoadFilterSize = 36000 ∧ MaxFilterLoadHashFuncs = 50) ∧
    ((msg.OmcEncode c w pver).2 ≠ none ↔
      (pver < c.BIP0037Version ∨ msg.Filter.length > MaxFilterLoadFilterSize ∨
        msg.HashFuncs > MaxFilterLoadHashFuncs)) ∧
    ((pver < c.BIP0037Version ∨ msg.Filter.length > MaxFilterLoadFilterSize ∨
        msg.HashFuncs > MaxFilterLoadHashFuncs) → (msg.OmcEncode c w pver).1 = w) ∧
    (∀ (r filter : Bytes) (h t f : Nat) (r1 r2 : Bytes), c.BIP0037Version ≤ pver →
      c.ReadVarBytes r pver MaxFilterLoadFilterSize = .ok (filter, r1) →
      c.ReadElements r1 = .ok (h, t, f, r2) → h > MaxFilterLoadHashFuncs →
      MsgFilterLoad.OmcDecode c r pver =
        .error (WireError.tooManyHashFuncs MsgFunc.OmcDecode h MaxFilterLoadHashFuncs)) ∧
    (∀ (r : Bytes) (m : MsgFilterLoad) (rest : Bytes),
      MsgFilterLoad.OmcDecode c r pver = .ok (m, rest) →
      m.HashFuncs ≤ MaxFilterLoadHashFuncs) := by
  refine ⟨⟨rfl, rfl⟩, ?_, ?_, ?_, ?_⟩
  · unfold MsgFilterLoad.OmcEncode
    by_cases h1 : pver < c.BIP0037Version
    · simp [h1]
    · by_cases h2 : msg.Filter.length > MaxFilterLoadFilterSize
      · simp [h1, h2]
      · by_cases h3 : msg.HashFuncs > MaxFilterLoadHashFuncs
        · simp [h1, h2, h3]
        · have e1 := hw1 w pver msg.Filter
          rcases hv : c.WriteVarBytes w pver msg.Filter with ⟨w1, err⟩
          rw [hv] at e1
          simp only at e1
          subst e1
          have e2 := hw2 w1 msg.HashFuncs msg.Tweak msg.Flags
          simp [h1, h2, h3, e2]
  · intro h
    unfold MsgFilterLoad.OmcEncode
    by_cases h1 : pver < c.BIP0037Version
    · simp [h1]
    · by_cases h2 : msg.Filter.length > MaxFilterLoadFilterSize
      · simp [h1, h2]
      · by_cases h3 : msg.HashFuncs > MaxFilterLoadHashFuncs
        · simp [h1, h2, h3]
        · rcases h with h | h | h
          · exact absurd h h1
          · exact absurd h h2
          · exact absurd h h3
  · intro r filter h t f r1 r2 hp hv he hh
    have h1 : ¬ pver < c.BIP0037Version := by omega
    simp [MsgFilterLoad.OmcDecode, h1, hv, he, hh]
  · intro r m rest hd
    unfold MsgFilterLoad.OmcDecode at hd
    split at hd
    · cases hd
    · split at hd
      · cases hd
      · split at hd
        · cases hd
        · split at hd
          · cases hd
          · simp only [Except.ok.injEq, Prod.mk.injEq] at hd
            rw [← hd.1]
            simp only
            omega

/-- Witness of `C15_filterload_limits`: with the sample helpers, a message with 51 hash
functions is refused at encoding with nothing written, and the payload that carries 51 is
refused at decoding. -/
theorem C15_filterload_limits_witness :
    (MsgFilterLoad.OmcEncode demoCommon ⟨[1, 2], 51, 7, 0⟩ [9] 70001).1 = [9] ∧
    MsgFilterLoad.OmcDecode demoCommon [2, 1, 2, 51, 7, 0] 70001 =
      .error (WireError.tooManyHashFuncs MsgFunc.OmcDecode 51 MaxFilterLoadHashFuncs) :=
  ⟨(C15_filterload_limits demoCommon ⟨[1, 2], 51, 7, 0⟩ [9] 70001 (fun _ _ _ => rfl)
      (fun _ _ _ _ => rfl)).2.2.1 (Or.inr (Or.inr (by decide))),
   (C15_filterload_limits demoCommon ⟨[1, 2], 51, 7, 0⟩ [9] 70001 (fun _ _ _ => rfl)
      (fun _ _ _ _ => rfl)).2.2.2.1 [2, 1, 2, 51, 7, 0] [1, 2] 51 7 0 [51, 7, 0] []
      (by decide) rfl rfl (by decide)⟩

/-! ## MsgSignatures -/

theorem int32_of_lt (n : Nat) (h : n < 2147483648) : int32 n = (n : Int) := by
  unfold int32
  omega

theorem encodeSigs_decodeSigs (e : Elements)
    (hI : ∀ (w : Bytes) (n : Int), -2147483648 ≤ n → n < 2147483648 →
      ∃ bs, e.writeInt32 w n = (w ++ bs, none) ∧
        ∀ rest, e.readInt32 (bs ++ rest) = .ok (n, rest))
    (hB : ∀ (w s : Bytes), ∃ bs, e.writeBytes w s = (w ++ bs, none) ∧
        ∀ rest, e.readBytes (bs ++ rest) s.length = .ok (s, rest)) :
    ∀ (sigs : List Bytes) (w : Bytes) (acc : List Bytes),
      (∀ s ∈ sigs, s.length < 2147483648) →
      ∃ bs, encodeSigs e sigs w = (w ++ bs, none) ∧
        ∀ rest, decodeSigs e sigs.length (bs ++ rest) acc =
          Outcome.ok (.ok (acc ++ sigs, rest)) := by
  intro sigs
  induction sigs with
  | nil =>
    intro w acc _
    exact ⟨[], by simp [encodeSigs], by intro rest; simp [decodeSigs]⟩
  | cons s ss ih =>
    intro w acc hlen
    have hs : s.length < 2147483648 := hlen s (List.mem_cons_self _ _)
    have hss : ∀ x ∈ ss, x.length < 2147483648 := fun x hx => hlen x (List.mem_cons_of_mem _ hx)
    obtain ⟨b1, hw1, hr1⟩ := hI w (int32 s.length) (by rw [int32_of_lt _ hs]; omega)
      (by rw [int32_of_lt _ hs]; omega)
    obtain ⟨b2, hw2, hr2⟩ := hB (w ++ b1) s
    obtain ⟨b3, hw3, hr3⟩ := ih (w ++ b1 ++ b2) (acc ++ [s]) hss
    refine ⟨b1 ++ b2 ++ b3, ?_, ?_⟩
    · simp only [encodeSigs, hw1, hw2, hw3]
      simp
    · intro rest
      have hn : ¬ ((s.length : Int) < 0) := by omega
      simp only [List.length_cons, decodeSigs, List.append_assoc, hr1, int32_of_lt _ hs, hn,
        if_false, Int.toNat_ofNat, hr2]
      have h3 := hr3 rest
      simp only [List.append_assoc, List.singleton_append] at h3 ⊢
      exact h3

/-- C16: when the element functions never fail on writing and read back what they wrote (a
32-byte hash, an `int32`, a byte slice of known length), then for every message with a
32-byte hash, fewer than 2^31 signatures and each signature shorter than 2^31 bytes,
`OmcEncode` on an empty writer succeeds, and `OmcDecode` on the bytes written, followed by
anything, returns without error the same `Hash` and the same signatures in the same
order, and leaves what followed. -/
theorem C16_signatures_roundtrip (e : Elements) (msg : MsgSignatures)
    (hH : ∀ (w h : Bytes), h.length = 32 →
      ∃ bs, e.writeHash w h = (w ++ bs, none) ∧
        ∀ rest, e.readHash (bs ++ rest) = .ok (h, rest))
    (hI : ∀ (w : Bytes) (n : Int), -2147483648 ≤ n → n < 2147483648 →
      ∃ bs, e.writeInt32 w n = (w ++ bs, none) ∧
        ∀ rest, e.readInt32 (bs ++ rest) = .ok (n, rest))
    (hB : ∀ (w s : Bytes), ∃ bs, e.writeBytes w s = (w ++ bs, none) ∧
        ∀ rest, e.readBytes (bs ++ rest) s.length = .ok (s, rest))
    (hhash : msg.Hash.length = 32)
    (hcount : msg.Signatures.length < 2147483648)
    (hlen : ∀ s ∈ msg.Signatures, s.length < 2147483648) :
    ∃ bytes, msg.OmcEncode e [] = (bytes, none) ∧
      ∀ rest, MsgSignatures.OmcDecode e (bytes ++ rest) = Outcome.ok (.ok (msg, rest)) := by
  obtain ⟨b1, hw1, hr1⟩ := hH [] msg.Hash hhash
  obtain ⟨b2, hw2, hr2⟩ := hI ([] ++ b1) (int32 msg.Signatures.length)
    (by rw [int32_of_lt _ hcount]; omega) (by rw [int32_of_lt _ hcount]; omega)
  obtain ⟨b3, hw3, hr3⟩ := encodeSigs_decodeSigs e hI hB msg.Signatures ([] ++ b1 ++ b2) [] hlen
  refine ⟨b1 ++ b2 ++ b3, ?_, ?_⟩
  · simp only [MsgSignatures.OmcEncode, hw1, hw2, hw3]
    simp
  · intro rest
    have hn : ¬ ((msg.Signatures.length : Int) < 0) := by omega
    simp only [MsgSignatures.OmcDecode, List.append_assoc, hr1, hr2, int32_of_lt _ hcount, hn,
      if_false, Int.toNat_ofNat, hr3, List.nil_append]

theorem decInt32_encInt32 (n : Int) (h1 : -2147483648 ≤ n) (h2 : n < 2147483648) :
    decInt32 ((n % 4294967296).toNat % 256) ((n % 4294967296).toNat / 256 % 256)
      ((n % 4294967296).toNat / 65536 % 256) ((n % 4294967296).toNat / 16777216 % 256) = n := by
  unfold decInt32
  simp only
  split <;> omega

theorem leElements_hash (w h : Bytes) (hh : h.length = 32) :
    ∃ bs, leElements.writeHash w h = (w ++ bs, none) ∧
      ∀ rest, leElements.readHash (bs ++ rest) = .ok (h, rest) := by
  refine ⟨h, rfl, ?_⟩
  intro rest
  simp [leElements, hh]

theorem leElements_int32 (w : Bytes) (n : Int) (h1 : -2147483648 ≤ n) (h2 : n < 2147483648) :
    ∃ bs, leElements.writeInt32 w n = (w ++ bs, none) ∧
      ∀ rest, leElements.readInt32 (bs ++ rest) = .ok (n, rest) := by
  refine ⟨encInt32 n, rfl, ?_⟩
  intro rest
  simp [leElements, encInt32, decInt32_encInt32 n h1 h2]

theorem leElements_bytes (w s : Bytes) :
    ∃ bs, leElements.writeBytes w s = (w ++ bs, none) ∧
      ∀ rest, leElements.readBytes (bs ++ rest) s.length = .ok (s, rest) := by
  refine ⟨s, rfl, ?_⟩
  intro rest
  simp [leElements]

/-- Witness of `C16_signatures_roundtrip`: the sample element functions and a message with
a 32-byte hash and the signatures `1, 2, 3`, empty, and `255`. -/
theorem C16_signatures_roundtrip_witness :
    ∃ bytes, MsgSignatures.OmcEncode leElements
        ⟨List.replicate 32 7, [[1, 2, 3], [], [255]]⟩ [] = (bytes, none) ∧
      ∀ rest, MsgSignatures.OmcDecode leElements (bytes ++ rest) =
        Outcome.ok (.ok (⟨List.replicate 32 7, [[1, 2, 3], [], [255]]⟩, rest)) :=
  C16_signatures_roundtrip leElements ⟨List.replicate 32 7, [[1, 2, 3], [], [255]]⟩
    leElements_hash leElements_int32 leElements_bytes (by decide) (by decide) (by decide)

end Wire
